import Mathlib

/-!
# Design rule checker of pcbnew: a shallow embedding of `pcbnew/drc.cpp`

The engine `DRC` of `pcbnew/drc.cpp` is embedded as pure functions over an explicit engine
state.  Loops over vectors and over the intrusive linked lists of the board are recursive
functions over Lean lists (the `Next()` pointer of an item is the tail of the list), a
`continue` is the recursive call on the tail and a `break` or `return` ends the recursion.

Functions and tables of the repository that `drc.cpp` calls but which live in other files
(geometry, connectivity, marker construction, the pad and zone classes) are either fields of
the record `Env`, about which nothing is assumed, or small definitions whose doc comment says
what they stand for.  Coordinates and sizes are C++ `int`s, embedded as `Int`.  The cutoff of
the pad sweep is a sum of four `int`s that leaves the range of `int` for a pad near the right
end of the coordinate range: it is embedded as the 32-bit sum `addInt32`, which wraps around
as the 32-bit addition of the compiled code does.  The thresholds of the text tests
are sums of a clearance and half a width and are taken to stay inside the range of `int`.  A
division of two `int`s truncates towards zero and is `Int.tdiv`.
-/

namespace Pcbnew

/-! # Part I: the embedding -/

/-! ## Data model -/

/-- A point of the board (`wxPoint`, `VECTOR2I`). -/
structure wxPoint where
  x : Int
  y : Int
  deriving DecidableEq

/-- A size (`wxSize`); `x` is the width and `y` the height. -/
structure wxSize where
  x : Int
  y : Int
  deriving DecidableEq

/-- A layer set (`LSET`, a bitset indexed by layer id), as the number whose bits are the
members. -/
abbrev LSET := Nat

/-- A layer id (`PCB_LAYER_ID`), the index of a bit of an `LSET`. -/
abbrev PCB_LAYER_ID := Nat

/-- The error codes of `drc_stuff.h` that `drc.cpp` uses. -/
inductive DRCE
  | DRCE_UNCONNECTED_ITEMS
  | DRCE_HOLE_NEAR_PAD
  | DRCE_PAD_NEAR_PAD1
  | DRCE_SUSPICIOUS_NET_FOR_ZONE_OUTLINE
  | DRCE_NETCLASS_TRACKWIDTH
  | DRCE_NETCLASS_CLEARANCE
  | DRCE_NETCLASS_VIASIZE
  | DRCE_NETCLASS_VIADRILLSIZE
  | DRCE_NETCLASS_uVIASIZE
  | DRCE_NETCLASS_uVIADRILLSIZE
  | DRCE_VIA_INSIDE_KEEPOUT
  | DRCE_TRACK_INSIDE_KEEPOUT
  | DRCE_PAD_INSIDE_KEEPOUT
  | DRCE_VIA_INSIDE_TEXT
  | DRCE_TRACK_INSIDE_TEXT
  | DRCE_PAD_INSIDE_TEXT
  | DRCE_OVERLAPPING_FOOTPRINTS
  | DRCE_MISSING_COURTYARD_IN_FOOTPRINT
  | DRCE_MALFORMED_COURTYARD_IN_FOOTPRINT
  | DRCE_OTHER (code : Nat)
  deriving DecidableEq

open DRCE

/-- The run time type tags (`KICAD_T`) that `drc.cpp` tests. -/
inductive KICAD_T
  | PCB_TRACE_T
  | PCB_VIA_T
  | PCB_TEXT_T
  | PCB_LINE_T
  | PCB_ZONE_T
  deriving DecidableEq

open KICAD_T

/-- Drill shapes of a pad (`PAD_DRILL_SHAPE_T`). -/
inductive PAD_DRILL_SHAPE_T
  | PAD_DRILL_SHAPE_CIRCLE
  | PAD_DRILL_SHAPE_OBLONG
  deriving DecidableEq

open PAD_DRILL_SHAPE_T

/-- Pad shapes (`PAD_SHAPE_T`). -/
inductive PAD_SHAPE_T
  | PAD_SHAPE_CIRCLE
  | PAD_SHAPE_RECT
  | PAD_SHAPE_OVAL
  | PAD_SHAPE_TRAPEZOID
  | PAD_SHAPE_ROUNDRECT
  deriving DecidableEq

open PAD_SHAPE_T

/-- A netclass: its name and the five sizes that `doNetClass` reads, with its clearance. -/
structure NETCLASS where
  m_Name : String
  m_Clearance : Int
  m_TrackWidth : Int
  m_ViaDia : Int
  m_ViaDrill : Int
  m_uViaDia : Int
  m_uViaDrill : Int
  deriving DecidableEq

/-- The netclass table (`NETCLASSES`): the default netclass and the named ones, in the
iteration order of `begin()` .. `end()`; an entry is the pair (name, netclass) of the map. -/
structure NETCLASSES where
  m_Default : NETCLASS
  m_NetClasses : List (String × NETCLASS)
  deriving DecidableEq

/-- The global minimums of `BOARD_DESIGN_SETTINGS` and the netclass table. -/
structure BOARD_DESIGN_SETTINGS where
  m_TrackMinWidth : Int
  m_ViasMinSize : Int
  m_ViasMinDrill : Int
  m_MicroViasMinSize : Int
  m_MicroViasMinDrill : Int
  m_NetClasses : NETCLASSES
  deriving DecidableEq

/-- A pad (`D_PAD`).  `addr` is the address of the object: where the source compares two
`D_PAD*` it compares this field.  `m_Parent` is the address of the owning footprint.
`m_Orient` is the orientation in tenths of a degree; the source only compares two
orientations for equality. -/
structure D_PAD where
  addr : Nat
  m_Parent : Nat
  m_name : String
  m_Pos : wxPoint
  m_Size : wxSize
  m_padShape : PAD_SHAPE_T
  m_Drill : wxSize
  m_drillShape : PAD_DRILL_SHAPE_T
  m_Orient : Int
  m_layerMask : LSET
  m_LocalClearance : Int
  m_NetCode : Int
  deriving DecidableEq

/-- A track segment or a via (`TRACK`, `VIA`); `m_StructType`, the result of `Type()`, tells
which.  `m_Start` is also the position of a via, `m_layerSet` is what `GetLayerSet()` returns
for the item. -/
structure TRACK where
  addr : Nat
  m_StructType : KICAD_T
  m_Start : wxPoint
  m_End : wxPoint
  m_Width : Int
  m_Layer : PCB_LAYER_ID
  m_layerSet : LSET
  m_NetCode : Int
  deriving DecidableEq

/-- A polygon set (`SHAPE_POLY_SET`): its outlines, each a list of vertices. -/
abbrev SHAPE_POLY_SET := List (List wxPoint)

/-- A zone or keepout area (`ZONE_CONTAINER`). -/
structure ZONE_CONTAINER where
  addr : Nat
  m_NetCode : Int
  m_isKeepout : Bool
  m_doNotAllowTracks : Bool
  m_doNotAllowVias : Bool
  m_doNotAllowCopperPour : Bool
  m_Layer : PCB_LAYER_ID
  m_layerSet : LSET
  m_Poly : SHAPE_POLY_SET
  m_FilledPolysList : SHAPE_POLY_SET
  deriving DecidableEq

/-- An item of `BOARD::Drawings()`: a text (`TEXTE_PCB`) when its `Type()`, the field
`m_StructType`, is `PCB_TEXT_T`. -/
structure TEXTE_PCB where
  addr : Nat
  m_StructType : KICAD_T
  m_Layer : PCB_LAYER_ID
  m_Thickness : Int
  m_Pos : wxPoint
  m_Text : String
  deriving DecidableEq

/-- A footprint (`MODULE`) with its cached courtyard polygons. -/
structure MODULE where
  addr : Nat
  m_Pos : wxPoint
  m_Reference : String
  m_poly_courtyard_front : SHAPE_POLY_SET
  m_poly_courtyard_back : SHAPE_POLY_SET
  m_graphics : List (wxPoint × wxPoint)
  deriving DecidableEq

/-- An edge of the ratsnest that the connectivity reports as unconnected (`CN_EDGE`), with
the menu texts of the two parent items. -/
structure CN_EDGE where
  sourceText : String
  targetText : String
  sourcePos : wxPoint
  targetPos : wxPoint
  deriving DecidableEq

/-- A record of the unconnected list (`DRC_ITEM` built by `testUnconnected`). -/
structure DRC_ITEM where
  m_ErrorCode : DRCE
  m_MainText : String
  m_AuxiliaryText : String
  m_MainPosition : wxPoint
  m_AuxiliaryPosition : wxPoint
  deriving DecidableEq

/-- The second item of a marker built for a track or a pad. -/
inductive BOARD_ITEM
  | pad (p : D_PAD)
  | track (t : TRACK)
  | zone (z : ZONE_CONTAINER)
  | text (t : TEXTE_PCB)
  deriving DecidableEq

/-- Modelled from the spec: `fillMarker` and `MARKER_PCB` (drc_marker_functions.cpp and
class_marker_pcb.h are outside this excerpt).  A violation record holds a kind code, one or
two involved items, locations and a message; it is embedded as the arguments of the
`fillMarker` overload that built it, one constructor per overload. -/
inductive MARKER_PCB
  | ofMessage (code : DRCE) (msg : String)
  | ofZone (area : ZONE_CONTAINER) (code : DRCE)
  | ofTrack (track : TRACK) (item : Option BOARD_ITEM) (code : DRCE)
  | ofPad (pad : D_PAD) (item : BOARD_ITEM) (code : DRCE)
  | ofPos (pos : wxPoint) (code : DRCE) (msg : String)
  | ofAreas (area : ZONE_CONTAINER) (pos : wxPoint) (code : DRCE)
  deriving DecidableEq

/-- The kind code of a violation record. -/
def MARKER_PCB.code : MARKER_PCB → DRCE
  | .ofMessage c _ => c
  | .ofZone _ c => c
  | .ofTrack _ _ c => c
  | .ofPad _ _ c => c
  | .ofPos _ c _ => c
  | .ofAreas _ _ c => c

/-- The board data that the checks read (`BOARD`).  The marker list of the board is kept in
the engine state, beside this record. -/
structure BOARD where
  m_designSettings : BOARD_DESIGN_SETTINGS
  m_Track : List TRACK
  m_Modules : List MODULE
  m_pads : List D_PAD
  m_ZoneDescriptorList : List ZONE_CONTAINER
  m_Drawings : List TEXTE_PCB
  deriving DecidableEq

/-- The engine (`class DRC`): the six toggles, the current-marker slot, the scratch fields of
the segment tests, the unconnected list, the board, and `markers`, the marker list of the
board to which `addMarkerToPcb` appends (the violation sink). -/
structure DRC where
  m_doPad2PadTest : Bool
  m_doUnconnectedTest : Bool
  m_doZonesTest : Bool
  m_doKeepoutTest : Bool
  m_doFootprintOverlapping : Bool
  m_doNoCourtyardDefined : Bool
  m_currentMarker : Option MARKER_PCB
  m_segmAngle : Int
  m_segmLength : Int
  m_segmEnd : wxPoint
  m_padToTestPos : wxPoint
  m_unconnected : List DRC_ITEM
  m_pcb : BOARD
  markers : List MARKER_PCB
  deriving DecidableEq

/-- The collaborators of the engine that are outside this excerpt: geometry, clearance
resolution, connectivity, zone filling, text rendering, courtyard construction, formatting and
the progress dialog.  Nothing is assumed about them. -/
structure Env where
  /-- `LSET::AllCuMask()`. -/
  AllCuMask : LSET
  /-- `StringFromValue( g_UserUnit, x )`, the `FmtVal` of `doNetClass`. -/
  StringFromValue : Int → String
  /-- `BOARD::GetSortedPadListByXthenYCoord`. -/
  GetSortedPadListByXthenYCoord : BOARD → List D_PAD
  /-- `D_PAD::GetBoundingRadius`. -/
  GetBoundingRadius : D_PAD → Int
  /-- `D_PAD::GetClearance()` with no argument. -/
  PadGetClearance : D_PAD → Int
  /-- The pad that the constructor `D_PAD( &dummymodule )` builds for a board. -/
  newPad : BOARD → D_PAD
  /-- `DRC::checkClearancePadToPad( aRefPad, aPad )`: true when the clearance is kept. -/
  checkClearancePadToPad : D_PAD → D_PAD → Bool
  /-- `DRC::doTrackDrc( aRefSeg, aStart, true )`: `none` when it returns true, and the marker
  it leaves in the current-marker slot when it returns false. -/
  doTrackDrc : BOARD → TRACK → List TRACK → Option MARKER_PCB
  /-- `wxProgressDialog::Update( count )`: false when the user aborted. -/
  progressUpdate : Nat → Bool
  /-- The filled polygons that `Fill_All_Zones` computes for a zone of the board. -/
  Fill_All_Zones : BOARD → ZONE_CONTAINER → SHAPE_POLY_SET
  /-- `ZONE_CONTAINER::IsOnCopperLayer`. -/
  IsOnCopperLayer : ZONE_CONTAINER → Bool
  /-- `CONNECTIVITY_DATA::GetPadCount( net )`. -/
  GetPadCount : BOARD → Int → Nat
  /-- `CONNECTIVITY_DATA::GetUnconnectedEdges` after the rebuild of the connectivity. -/
  GetUnconnectedEdges : BOARD → List CN_EDGE
  /-- The markers that `BOARD::Test_Drc_Areas_Outlines_To_Areas_Outlines( NULL, true )`
  adds to the board. -/
  Test_Drc_Areas_Outlines_To_Areas_Outlines : BOARD → List MARKER_PCB
  /-- `SHAPE_POLY_SET::Distance( SEG, width )` of the outline of a zone. -/
  OutlineDistanceSeg : ZONE_CONTAINER → wxPoint → wxPoint → Int → Int
  /-- `SHAPE_POLY_SET::Distance( point )` of the outline of a zone. -/
  OutlineDistancePoint : ZONE_CONTAINER → wxPoint → Int
  /-- `IsCopperLayer( layer )`. -/
  IsCopperLayer : PCB_LAYER_ID → Bool
  /-- `TEXTE_PCB::TransformTextShapeToSegmentList`: the end points of the segments, two
  per segment. -/
  TransformTextShapeToSegmentList : TEXTE_PCB → List wxPoint
  /-- `TRACK::IsOnLayer` and `VIA::IsOnLayer`. -/
  TrackIsOnLayer : TRACK → PCB_LAYER_ID → Bool
  /-- `TRACK::GetClearance( NULL )`. -/
  TrackGetClearance : TRACK → Int
  /-- `SEG::Distance( SEG )` between the segments (a, b) and (c, d). -/
  SegDistance : wxPoint → wxPoint → wxPoint → wxPoint → Int
  /-- `SEG::PointCloserThan( p, dist )` of the segment (a, b). -/
  PointCloserThan : wxPoint → wxPoint → wxPoint → Int → Bool
  /-- `D_PAD::IsOnLayer`. -/
  PadIsOnLayer : D_PAD → PCB_LAYER_ID → Bool
  /-- `D_PAD::ShapePos`. -/
  ShapePos : D_PAD → wxPoint
  /-- `D_PAD::GetClearance( NULL )`. -/
  PadGetClearanceNull : D_PAD → Int
  /-- `ArcTangente( dy, dx )`, in tenths of a degree. -/
  ArcTangente : Int → Int → Int
  /-- `RotatePoint( &p, angle )`. -/
  RotatePoint : wxPoint → Int → wxPoint
  /-- `DRC::checkClearanceSegmToPad( pad, width, clearance )`, which reads the scratch fields
  `m_segmEnd`, `m_segmAngle`, `m_segmLength` and `m_padToTestPos` of the engine, given here in
  this order after the three arguments. -/
  checkClearanceSegmToPad : D_PAD → Int → Int → wxPoint → Int → Int → wxPoint → Bool
  /-- `MODULE::BuildPolyCourtyard`: its return value and the front and back courtyards it
  stores in the footprint. -/
  BuildPolyCourtyard : MODULE → Bool × SHAPE_POLY_SET × SHAPE_POLY_SET
  /-- `SHAPE_POLY_SET::BooleanIntersection( b, PM_FAST )` applied to a copy of the first
  polygon set. -/
  BooleanIntersection : SHAPE_POLY_SET → SHAPE_POLY_SET → SHAPE_POLY_SET
  /-- `SHAPE_POLY_SET::Vertex( 0, 0, -1 )`. -/
  Vertex : SHAPE_POLY_SET → wxPoint

/-! ## The violation sink -/

/-- `DRC::addMarkerToPcb`: the commit adds the marker to the board. -/
def addMarkerToPcb (aMarker : MARKER_PCB) (s : DRC) : DRC :=
  { s with markers := s.markers ++ [aMarker] }

/-- The statement pair `addMarkerToPcb( m_currentMarker ); m_currentMarker = nullptr;` that
follows a failed test: the marker of the slot goes to the board and the slot is emptied (with
an empty slot the `wxASSERT` before it fails and nothing is added). -/
def flushCurrentMarker (s : DRC) : DRC :=
  match s.m_currentMarker with
  | some m => { addMarkerToPcb m s with m_currentMarker := none }
  | none => s

/-! ## Netclass validator -/

/-- The message that `msg.Printf` builds in `doNetClass`; `what` is the field label of the
format string (`TrackWidth`, `Via Dia`, ...). -/
def netclassMsg (env : Env) (nc : NETCLASS) (what : String) (value global : Int) : String :=
  "NETCLASS: \x27" ++ nc.m_Name ++ "\x27 has " ++ what ++ ":" ++ env.StringFromValue value
    ++ " which is less than global:" ++ env.StringFromValue global

/-- One `if` block of `doNetClass`: when `value < global` the message is printed, a marker of
kind `code` is added to the board, the slot is emptied and `ret` becomes false. -/
def doNetClassField (env : Env) (nc : NETCLASS) (code : DRCE) (what : String)
    (value global : Int) (r : Bool × DRC) : Bool × DRC :=
  if value < global then
    let msg := netclassMsg env nc what value global
    let s1 := addMarkerToPcb (MARKER_PCB.ofMessage code msg) r.2
    (false, { s1 with m_currentMarker := none })
  else r

/-- `DRC::doNetClass`: the five comparisons, in source order (the clearance block is compiled
out by `#if 0`). -/
def doNetClass (env : Env) (nc : NETCLASS) (s : DRC) : Bool × DRC :=
  let g := s.m_pcb.m_designSettings
  let r0 : Bool × DRC := (true, s)
  let r1 := doNetClassField env nc DRCE_NETCLASS_TRACKWIDTH "TrackWidth"
    nc.m_TrackWidth g.m_TrackMinWidth r0
  let r2 := doNetClassField env nc DRCE_NETCLASS_VIASIZE "Via Dia"
    nc.m_ViaDia g.m_ViasMinSize r1
  let r3 := doNetClassField env nc DRCE_NETCLASS_VIADRILLSIZE "Via Drill"
    nc.m_ViaDrill g.m_ViasMinDrill r2
  let r4 := doNetClassField env nc DRCE_NETCLASS_uVIASIZE "uVia Dia"
    nc.m_uViaDia g.m_MicroViasMinSize r3
  let r5 := doNetClassField env nc DRCE_NETCLASS_uVIADRILLSIZE "uVia Drill"
    nc.m_uViaDrill g.m_MicroViasMinDrill r4
  r5

/-- The loop of `testNetClasses` over the named netclasses. -/
def testNetClassesLoop (env : Env) : List (String × NETCLASS) → Bool → DRC → Bool × DRC
  | [], ret, s => (ret, s)
  | i :: rest, ret, s =>
    let nc := i.2
    let r := doNetClass env nc s
    testNetClassesLoop env rest (if !r.1 then false else ret) r.2

/-- `DRC::testNetClasses`: the default netclass, then every named one. -/
def testNetClasses (env : Env) (s : DRC) : Bool × DRC :=
  let netclasses := s.m_pcb.m_designSettings.m_NetClasses
  let r := doNetClass env netclasses.m_Default s
  testNetClassesLoop env netclasses.m_NetClasses (if !r.1 then false else true) r.2

/-! ## Pad to pad clearance tester -/

/-- Modelled from the spec: `D_PAD::PadNameEqual` (class_pad.h is outside this excerpt), the
two pads have the same pad name. -/
def PadNameEqual (pad other : D_PAD) : Bool :=
  pad.m_name = other.m_name

/-- The dummy pad of `doPadToPadsDrc` after the four setters that give it the position, the
size, the shape and the orientation of the hole of `pad`. -/
def setHoleProbe (dummypad pad : D_PAD) : D_PAD :=
  { dummypad with
    m_Pos := pad.m_Pos
    m_Size := pad.m_Drill
    m_padShape :=
      if pad.m_drillShape = PAD_DRILL_SHAPE_OBLONG then PAD_SHAPE_OVAL else PAD_SHAPE_CIRCLE
    m_Orient := pad.m_Orient }

/-- The dummy pad of `doPadToPadsDrc` before the loop: built by the constructor, put on all
copper layers and given the local clearance 1. -/
def initialDummyPad (env : Env) (pcb : BOARD) : D_PAD :=
  let dummypad := env.newPad pcb
  { dummypad with
    m_layerMask := env.AllCuMask ||| dummypad.m_layerMask
    m_LocalClearance := 1 }

/-- The test "holes are in the same location and have the same size and shape" of
`doPadToPadsDrc` with its two inner `continue`s: true where the source continues. -/
def holesAccepted (pad aRefPad : D_PAD) : Bool :=
  if pad.m_Pos = aRefPad.m_Pos ∧ pad.m_Drill = aRefPad.m_Drill
      ∧ pad.m_drillShape = aRefPad.m_drillShape then
    if aRefPad.m_drillShape = PAD_DRILL_SHAPE_CIRCLE then true
    else if pad.m_Orient = aRefPad.m_Orient then true
    else false
  else false

/-- How one pass through the body of the loop of `doPadToPadsDrc` ends: at the next
candidate (with the dummy pad as the body left it), at the `break` of the cutoff, or at a
`return false` with the marker put in the current-marker slot. -/
inductive PadFlow
  | next (dummypad : D_PAD)
  | stop
  | fail (marker : MARKER_PCB)
  deriving DecidableEq

/-- The part of the body of the loop of `doPadToPadsDrc` that follows the cutoff test: the
hole tests of two pads on different copper layers, the skip rules and the clearance test of
the candidate `pad` against `aRefPad`. -/
def padPairTest (env : Env) (aRefPad : D_PAD) (layerMask : LSET) (dummypad pad : D_PAD) :
    PadFlow :=
  if (pad.m_layerMask &&& layerMask) = 0 ∧ (pad.m_layerMask &&& env.AllCuMask) ≠ 0
      ∧ (aRefPad.m_layerMask &&& env.AllCuMask) ≠ 0 then
    if holesAccepted pad aRefPad then .next dummypad
    else
      let d1 := if pad.m_Drill.x ≠ 0 then setHoleProbe dummypad pad else dummypad
      if pad.m_Drill.x ≠ 0 ∧ env.checkClearancePadToPad aRefPad d1 = false then
        .fail (MARKER_PCB.ofPad pad (BOARD_ITEM.pad aRefPad) DRCE_HOLE_NEAR_PAD)
      else
        let d2 := if aRefPad.m_Drill.x ≠ 0 then setHoleProbe d1 aRefPad else d1
        if aRefPad.m_Drill.x ≠ 0 ∧ env.checkClearancePadToPad pad d2 = false then
          .fail (MARKER_PCB.ofPad aRefPad (BOARD_ITEM.pad pad) DRCE_HOLE_NEAR_PAD)
        else .next d2
  else if pad.m_NetCode ≠ 0 ∧ aRefPad.m_NetCode = pad.m_NetCode then .next dummypad
  else if pad.m_Parent = aRefPad.m_Parent ∧ PadNameEqual pad aRefPad = true then .next dummypad
  else if ((pad.m_layerMask &&& layerMask) = 0 ∧ pad.m_Drill.x = 0)
      ∨ ((aRefPad.m_layerMask &&& layerMask) = 0 ∧ aRefPad.m_Drill.x = 0) then .next dummypad
  else if env.checkClearancePadToPad aRefPad pad = false then
    .fail (MARKER_PCB.ofPad aRefPad (BOARD_ITEM.pad pad) DRCE_PAD_NEAR_PAD1)
  else .next dummypad

/-- The body of the loop of `doPadToPadsDrc` for the candidate `pad`: the reference pad
itself is skipped, the loop ends at the first candidate beyond `x_limit`, and any other
candidate is tested. -/
def doPadToPadsDrcBody (env : Env) (aRefPad : D_PAD) (layerMask : LSET) (x_limit : Int)
    (dummypad pad : D_PAD) : PadFlow :=
  if pad.addr = aRefPad.addr then .next dummypad
  else if pad.m_Pos.x > x_limit then .stop
  else padPairTest env aRefPad layerMask dummypad pad

/-- The loop of `doPadToPadsDrc` over the candidates from `aStart` to `aEnd`. -/
def doPadToPadsDrcLoop (env : Env) (aRefPad : D_PAD) (layerMask : LSET) (x_limit : Int) :
    D_PAD → List D_PAD → DRC → Bool × DRC
  | _, [], s => (true, s)
  | dummypad, pad :: pad_list, s =>
    match doPadToPadsDrcBody env aRefPad layerMask x_limit dummypad pad with
    | .next d => doPadToPadsDrcLoop env aRefPad layerMask x_limit d pad_list s
    | .stop => (true, s)
    | .fail marker => (false, { s with m_currentMarker := some marker })

/-- `DRC::doPadToPadsDrc( aRefPad, aStart, aEnd, x_limit )`; `pads` is the range of the
sorted pad vector from `aStart` to `aEnd`. -/
def doPadToPadsDrc (env : Env) (aRefPad : D_PAD) (pads : List D_PAD) (x_limit : Int)
    (s : DRC) : Bool × DRC :=
  let layerMask := aRefPad.m_layerMask &&& env.AllCuMask
  doPadToPadsDrcLoop env aRefPad layerMask x_limit (initialDummyPad env s.m_pcb) pads s

/-- The first loop of `testPad2Pad`: the largest bounding radius of the pads, at least 0. -/
def maxPadSize (env : Env) : List D_PAD → Int → Int
  | [], max_size => max_size
  | pad :: rest, max_size =>
    let radius := env.GetBoundingRadius pad
    maxPadSize env rest (if radius > max_size then radius else max_size)

/-- The value of the C++ `int` (32 bits) that results from the mathematical
integer `x`: `x` itself when it is inside the range of `int`, and otherwise the value to which
the 32-bit arithmetic wraps around. -/
def wrapInt32 (x : Int) : Int :=
  (x + 2147483648) % 4294967296 - 2147483648

/-- The sum `a + b` of two `int`s.  A signed overflow is undefined behaviour in C++; the
embedding takes the wrapped value that the 32-bit addition of the compiled code gives. -/
def addInt32 (a b : Int) : Int :=
  wrapInt32 (a + b)

/-- The local `x_limit` of `testPad2Pad` for the reference pad `pad`:
`max_size + pad->GetClearance() + pad->GetBoundingRadius() + pad->GetPosition().x`, a sum of
`int`s evaluated from left to right. -/
def padCutoff (env : Env) (max_size : Int) (pad : D_PAD) : Int :=
  addInt32 (addInt32 (addInt32 max_size (env.PadGetClearance pad)) (env.GetBoundingRadius pad))
    pad.m_Pos.x

/-- The second loop of `testPad2Pad`; the list is the part of the sorted vector from index
`i` on, which is also the range `&sortedPads[i]` .. `listEnd` given to `doPadToPadsDrc`. -/
def testPad2PadLoop (env : Env) (max_size : Int) : List D_PAD → DRC → DRC
  | [], s => s
  | pad :: rest, s =>
    let x_limit := padCutoff env max_size pad
    let r := doPadToPadsDrc env pad (pad :: rest) x_limit s
    testPad2PadLoop env max_size rest (if r.1 = false then flushCurrentMarker r.2 else r.2)

/-- `DRC::testPad2Pad`. -/
def testPad2Pad (env : Env) (s : DRC) : DRC :=
  let sortedPads := env.GetSortedPadListByXthenYCoord s.m_pcb
  let max_size := maxPadSize env sortedPads 0
  testPad2PadLoop env max_size sortedPads s

/-! ## Track and via clearance tester -/

/-- The counting loop of `testTracks`, `for( segm; segm && segm->Next(); ... ) count++`. -/
def countTracks : List TRACK → Nat
  | [] => 0
  | [_] => 0
  | _ :: next :: rest => countTracks (next :: rest) + 1

/-- The main loop of `testTracks`; `progressDialog` tells whether the dialog was created. -/
def testTracksLoop (env : Env) (delta : Nat) (progressDialog : Bool) :
    List TRACK → Nat → Nat → DRC → DRC
  | [], _, _, s => s
  | segm :: next, ii, count, s =>
    let over := decide (ii > delta)
    let ii1 := if over then 0 else ii + 1
    let count1 := if over then count + 1 else count
    if over = true ∧ progressDialog = true ∧ env.progressUpdate count1 = false then s
    else
      let s1 :=
        match env.doTrackDrc s.m_pcb segm next with
        | some marker => flushCurrentMarker { s with m_currentMarker := some marker }
        | none => s
      testTracksLoop env delta progressDialog next ii1 count1 s1

/-- `DRC::testTracks( aActiveWindow, aShowProgressBar )`. -/
def testTracks (env : Env) (aShowProgressBar : Bool) (s : DRC) : DRC :=
  let delta := 500
  let count := countTracks s.m_pcb.m_Track
  let deltamax := count / delta
  let progressDialog := aShowProgressBar && decide (deltamax > 3)
  testTracksLoop env delta progressDialog s.m_pcb.m_Track 0 0 s

/-! ## Unconnected items -/

/-- The loop of `testUnconnected` over the unconnected edges. -/
def testUnconnectedLoop : List CN_EDGE → DRC → DRC
  | [], s => s
  | edge :: rest, s =>
    let uncItem : DRC_ITEM :=
      { m_ErrorCode := DRCE_UNCONNECTED_ITEMS
        m_MainText := edge.sourceText
        m_AuxiliaryText := edge.targetText
        m_MainPosition := edge.sourcePos
        m_AuxiliaryPosition := edge.targetPos }
    testUnconnectedLoop rest { s with m_unconnected := s.m_unconnected ++ [uncItem] }

/-- `DRC::testUnconnected`. -/
def testUnconnected (env : Env) (s : DRC) : DRC :=
  testUnconnectedLoop (env.GetUnconnectedEdges s.m_pcb) s

/-- `DRC::ListUnconnectedPads`. -/
def ListUnconnectedPads (env : Env) (s : DRC) : DRC :=
  testUnconnected env s

/-! ## Zone outline validator -/

/-- The loop of `testZones` over the areas of the board. -/
def testZonesLoop (env : Env) : List ZONE_CONTAINER → DRC → DRC
  | [], s => s
  | test_area :: rest, s =>
    if env.IsOnCopperLayer test_area = false then testZonesLoop env rest s
    else
      let netcode := test_area.m_NetCode
      let pads_in_net : Int :=
        if test_area.m_NetCode > 0 then (env.GetPadCount s.m_pcb test_area.m_NetCode : Int) else 1
      if netcode < 0 ∨ pads_in_net = 0 then
        let s1 := addMarkerToPcb
          (MARKER_PCB.ofZone test_area DRCE_SUSPICIOUS_NET_FOR_ZONE_OUTLINE) s
        testZonesLoop env rest { s1 with m_currentMarker := none }
      else testZonesLoop env rest s

/-- `DRC::testZones`: the loop over the areas, then the outline test of the board, whose
markers go to the board. -/
def testZones (env : Env) (s : DRC) : DRC :=
  let s1 := testZonesLoop env s.m_pcb.m_ZoneDescriptorList s
  { s1 with markers := s1.markers ++ env.Test_Drc_Areas_Outlines_To_Areas_Outlines s1.m_pcb }

/-! ## Keepout area tester -/

/-- Modelled from the spec: `ZONE_CONTAINER::IsOnLayer` for a keepout (class_zone.cpp is
outside this excerpt), the layer is in the layer set of the zone. -/
def ZONE_CONTAINER.IsOnLayer (area : ZONE_CONTAINER) (aLayer : PCB_LAYER_ID) : Bool :=
  Nat.testBit area.m_layerSet aLayer

/-- Modelled from the spec: `ZONE_CONTAINER::CommonLayerExists` (class_zone.cpp is outside
this excerpt), the zone shares at least one layer with the layer set. -/
def ZONE_CONTAINER.CommonLayerExists (area : ZONE_CONTAINER) (aLayerSet : LSET) : Bool :=
  (area.m_layerSet &&& aLayerSet) != 0

/-- The inner loop of `testKeepoutAreas`: every track and via against the keepout `area`. -/
def testKeepoutAreasTracks (env : Env) (area : ZONE_CONTAINER) : List TRACK → DRC → DRC
  | [], s => s
  | segm :: rest, s =>
    if segm.m_StructType = PCB_TRACE_T then
      if area.m_doNotAllowTracks = false then testKeepoutAreasTracks env area rest s
      else if area.IsOnLayer segm.m_Layer = false then testKeepoutAreasTracks env area rest s
      else if env.OutlineDistanceSeg area segm.m_Start segm.m_End segm.m_Width = 0 then
        let s1 := addMarkerToPcb (MARKER_PCB.ofTrack segm none DRCE_TRACK_INSIDE_KEEPOUT) s
        testKeepoutAreasTracks env area rest { s1 with m_currentMarker := none }
      else testKeepoutAreasTracks env area rest s
    else if segm.m_StructType = PCB_VIA_T then
      if area.m_doNotAllowVias = false then testKeepoutAreasTracks env area rest s
      else
        let viaLayers := segm.m_layerSet
        if area.CommonLayerExists viaLayers = false then testKeepoutAreasTracks env area rest s
        else if env.OutlineDistancePoint area segm.m_Start < Int.tdiv segm.m_Width 2 then
          let s1 := addMarkerToPcb (MARKER_PCB.ofTrack segm none DRCE_VIA_INSIDE_KEEPOUT) s
          testKeepoutAreasTracks env area rest { s1 with m_currentMarker := none }
        else testKeepoutAreasTracks env area rest s
    else testKeepoutAreasTracks env area rest s

/-- The outer loop of `testKeepoutAreas` over the areas of the board. -/
def testKeepoutAreasLoop (env : Env) : List ZONE_CONTAINER → DRC → DRC
  | [], s => s
  | area :: rest, s =>
    if area.m_isKeepout = false then testKeepoutAreasLoop env rest s
    else testKeepoutAreasLoop env rest (testKeepoutAreasTracks env area s.m_pcb.m_Track s)

/-- `DRC::testKeepoutAreas`. -/
def testKeepoutAreas (env : Env) (s : DRC) : DRC :=
  testKeepoutAreasLoop env s.m_pcb.m_ZoneDescriptorList s

/-- The loop of `doTrackKeepoutDrc` over the areas of the board. -/
def doTrackKeepoutDrcLoop (env : Env) (aRefSeg : TRACK) : List ZONE_CONTAINER → DRC → Bool × DRC
  | [], s => (true, s)
  | area :: rest, s =>
    if area.m_isKeepout = false then doTrackKeepoutDrcLoop env aRefSeg rest s
    else if aRefSeg.m_StructType = PCB_TRACE_T then
      if area.m_doNotAllowTracks = false then doTrackKeepoutDrcLoop env aRefSeg rest s
      else if area.IsOnLayer aRefSeg.m_Layer = false then doTrackKeepoutDrcLoop env aRefSeg rest s
      else if env.OutlineDistanceSeg area aRefSeg.m_Start aRefSeg.m_End aRefSeg.m_Width = 0 then
        let marker := MARKER_PCB.ofTrack aRefSeg none DRCE_TRACK_INSIDE_KEEPOUT
        (false, { s with m_currentMarker := some marker })
      else doTrackKeepoutDrcLoop env aRefSeg rest s
    else if aRefSeg.m_StructType = PCB_VIA_T then
      if area.m_doNotAllowVias = false then doTrackKeepoutDrcLoop env aRefSeg rest s
      else
        let viaLayers := aRefSeg.m_layerSet
        if area.CommonLayerExists viaLayers = false then doTrackKeepoutDrcLoop env aRefSeg rest s
        else if env.OutlineDistancePoint area aRefSeg.m_Start < Int.tdiv aRefSeg.m_Width 2 then
          let marker := MARKER_PCB.ofTrack aRefSeg none DRCE_VIA_INSIDE_KEEPOUT
          (false, { s with m_currentMarker := some marker })
        else doTrackKeepoutDrcLoop env aRefSeg rest s
    else doTrackKeepoutDrcLoop env aRefSeg rest s

/-- `DRC::doTrackKeepoutDrc( aRefSeg )`. -/
def doTrackKeepoutDrc (env : Env) (aRefSeg : TRACK) (s : DRC) : Bool × DRC :=
  doTrackKeepoutDrcLoop env aRefSeg s.m_pcb.m_ZoneDescriptorList s

/-! ## Text proximity tester -/

/-- The loop of `testTexts` over the segments of the text shape for a track segment: the first
segment closer than `min_dist` adds a marker and ends the loop.  (A shape with an odd number
of points would make the source read past the end of the vector; the loop ends there.) -/
def testTextsTrackSegments (env : Env) (track : TRACK) (text : TEXTE_PCB) (min_dist : Int) :
    List wxPoint → DRC → DRC
  | a :: b :: rest, s =>
    let dist := env.SegDistance track.m_Start track.m_End a b
    if dist < min_dist then
      let s1 := addMarkerToPcb
        (MARKER_PCB.ofTrack track (some (BOARD_ITEM.text text)) DRCE_TRACK_INSIDE_TEXT) s
      { s1 with m_currentMarker := none }
    else testTextsTrackSegments env track text min_dist rest s
  | _, s => s

/-- The loop of `testTexts` over the segments of the text shape for a via. -/
def testTextsViaSegments (env : Env) (track : TRACK) (text : TEXTE_PCB) (min_dist : Int) :
    List wxPoint → DRC → DRC
  | a :: b :: rest, s =>
    if env.PointCloserThan a b track.m_Start min_dist = true then
      let s1 := addMarkerToPcb
        (MARKER_PCB.ofTrack track (some (BOARD_ITEM.text text)) DRCE_VIA_INSIDE_TEXT) s
      { s1 with m_currentMarker := none }
    else testTextsViaSegments env track text min_dist rest s
  | _, s => s

/-- The loop of `testTexts` over the tracks and vias of the board for one text. -/
def testTextsTracks (env : Env) (text : TEXTE_PCB) (textShape : List wxPoint) :
    List TRACK → DRC → DRC
  | [], s => s
  | track :: rest, s =>
    if env.TrackIsOnLayer track text.m_Layer = false then
      testTextsTracks env text textShape rest s
    else
      let min_dist := Int.tdiv (track.m_Width + text.m_Thickness) 2 + env.TrackGetClearance track
      if track.m_StructType = PCB_TRACE_T then
        testTextsTracks env text textShape rest
          (testTextsTrackSegments env track text min_dist textShape s)
      else if track.m_StructType = PCB_VIA_T then
        testTextsTracks env text textShape rest
          (testTextsViaSegments env track text min_dist textShape s)
      else testTextsTracks env text textShape rest s

/-- The loop of `testTexts` over the segments of the text shape for a pad; it sets the
scratch fields of the engine before each call of `checkClearanceSegmToPad`. -/
def testTextsPadSegments (env : Env) (pad : D_PAD) (text : TEXTE_PCB) (shape_pos : wxPoint) :
    List wxPoint → DRC → DRC
  | a :: b :: rest, s =>
    let origin := a
    let m_segmEnd : wxPoint := { x := b.x - origin.x, y := b.y - origin.y }
    let delta := m_segmEnd
    let turn := decide (delta.x ≠ 0 ∨ delta.y ≠ 0)
    let m_segmAngle := if turn then env.ArcTangente delta.y delta.x else 0
    let delta1 := if turn then env.RotatePoint delta m_segmAngle else delta
    let m_segmLength := delta1.x
    let m_padToTestPos : wxPoint := { x := shape_pos.x - origin.x, y := shape_pos.y - origin.y }
    let s1 := { s with
      m_segmEnd := m_segmEnd
      m_segmAngle := m_segmAngle
      m_segmLength := m_segmLength
      m_padToTestPos := m_padToTestPos }
    if env.checkClearanceSegmToPad pad text.m_Thickness (env.PadGetClearanceNull pad)
        m_segmEnd m_segmAngle m_segmLength m_padToTestPos = false then
      let s2 := addMarkerToPcb
        (MARKER_PCB.ofPad pad (BOARD_ITEM.text text) DRCE_PAD_INSIDE_TEXT) s1
      { s2 with m_currentMarker := none }
    else testTextsPadSegments env pad text shape_pos rest s1
  | _, s => s

/-- The loop of `testTexts` over the pads of the board for one text. -/
def testTextsPads (env : Env) (text : TEXTE_PCB) (textShape : List wxPoint) :
    List D_PAD → DRC → DRC
  | [], s => s
  | pad :: rest, s =>
    if env.PadIsOnLayer pad text.m_Layer = false then testTextsPads env text textShape rest s
    else
      let shape_pos := env.ShapePos pad
      testTextsPads env text textShape rest
        (testTextsPadSegments env pad text shape_pos textShape s)

/-- The outer loop of `testTexts` over the drawings of the board; `padList` is the copy of
the pad list made before the loop. -/
def testTextsLoop (env : Env) (padList : List D_PAD) : List TEXTE_PCB → DRC → DRC
  | [], s => s
  | item :: rest, s =>
    if env.IsCopperLayer item.m_Layer = false then testTextsLoop env padList rest s
    else if item.m_StructType ≠ PCB_TEXT_T then testTextsLoop env padList rest s
    else
      let textShape := env.TransformTextShapeToSegmentList item
      if textShape.length = 0 then testTextsLoop env padList rest s
      else
        let s1 := testTextsTracks env item textShape s.m_pcb.m_Track s
        let s2 := testTextsPads env item textShape padList s1
        testTextsLoop env padList rest s2

/-- `DRC::testTexts`. -/
def testTexts (env : Env) (s : DRC) : DRC :=
  let padList := s.m_pcb.m_pads
  testTextsLoop env padList s.m_pcb.m_Drawings s

/-! ## Footprint courtyard validator -/

/-- The first loop of `doFootprintOverlappingDrc`: every footprint gets its courtyards
rebuilt, and a malformed or a missing courtyard is reported.  The result holds the
footprints with their new courtyards, the value of `success` and the engine. -/
def courtyardBuildLoop (env : Env) : List MODULE → Bool → DRC → List MODULE × Bool × DRC
  | [], success, s => ([], success, s)
  | footprint :: rest, success, s =>
    let built := env.BuildPolyCourtyard footprint
    let is_ok := built.1
    let footprint1 : MODULE :=
      { footprint with
        m_poly_courtyard_front := built.2.1
        m_poly_courtyard_back := built.2.2 }
    let r1 : Bool × DRC :=
      if is_ok = false ∧ s.m_doFootprintOverlapping = true then
        let msg := "footprint \x27" ++ footprint1.m_Reference ++ "\x27 has malformed courtyard"
        let s1 := addMarkerToPcb
          (MARKER_PCB.ofPos footprint1.m_Pos DRCE_MALFORMED_COURTYARD_IN_FOOTPRINT msg) s
        (false, { s1 with m_currentMarker := none })
      else (success, s)
    let r2 : Bool × DRC :=
      if r1.2.m_doNoCourtyardDefined = false then r1
      else if footprint1.m_poly_courtyard_front.length = 0
          ∧ footprint1.m_poly_courtyard_back.length = 0 ∧ is_ok = true then
        let msg := "footprint \x27" ++ footprint1.m_Reference ++ "\x27 has no courtyard defined"
        let s1 := addMarkerToPcb
          (MARKER_PCB.ofPos footprint1.m_Pos DRCE_MISSING_COURTYARD_IN_FOOTPRINT msg) r1.2
        (false, { s1 with m_currentMarker := none })
      else r1
    let r3 := courtyardBuildLoop env rest r2.1 r2.2
    (footprint1 :: r3.1, r3.2.1, r3.2.2)

/-- The inner loop of an overlap pass of `doFootprintOverlappingDrc`: the candidates after
`footprint` against it.  `side` selects the front or the back courtyard and `sideText` is the
end of the message of that pass; the source has one copy of this loop per side. -/
def courtyardOverlapCandidates (env : Env) (side : MODULE → SHAPE_POLY_SET) (sideText : String)
    (footprint : MODULE) : List MODULE → Bool → DRC → Bool × DRC
  | [], success, s => (success, s)
  | candidate :: rest, success, s =>
    if (side candidate).length = 0 then
      courtyardOverlapCandidates env side sideText footprint rest success s
    else
      let courtyard := env.BooleanIntersection (side footprint) (side candidate)
      if courtyard.length ≠ 0 then
        let msg := "footprints \x27" ++ footprint.m_Reference ++ "\x27 and \x27"
          ++ candidate.m_Reference ++ "\x27 overlap on " ++ sideText
        let loc := env.Vertex courtyard
        let s1 := addMarkerToPcb (MARKER_PCB.ofPos loc DRCE_OVERLAPPING_FOOTPRINTS msg) s
        courtyardOverlapCandidates env side sideText footprint rest false
          { s1 with m_currentMarker := none }
      else courtyardOverlapCandidates env side sideText footprint rest success s

/-- The outer loop of an overlap pass of `doFootprintOverlappingDrc` over the footprints. -/
def courtyardOverlapLoop (env : Env) (side : MODULE → SHAPE_POLY_SET) (sideText : String) :
    List MODULE → Bool → DRC → Bool × DRC
  | [], success, s => (success, s)
  | footprint :: rest, success, s =>
    if (side footprint).length = 0 then courtyardOverlapLoop env side sideText rest success s
    else
      let r := courtyardOverlapCandidates env side sideText footprint rest success s
      courtyardOverlapLoop env side sideText rest r.1 r.2

/-- `DRC::doFootprintOverlappingDrc`. -/
def doFootprintOverlappingDrc (env : Env) (s : DRC) : Bool × DRC :=
  let r := courtyardBuildLoop env s.m_pcb.m_Modules true s
  let success := r.2.1
  let s1 : DRC := { r.2.2 with m_pcb := { r.2.2.m_pcb with m_Modules := r.1 } }
  if s1.m_doFootprintOverlapping = false then (success, s1)
  else
    let rf := courtyardOverlapLoop env (fun m => m.m_poly_courtyard_front)
      "front (top) layer" s1.m_pcb.m_Modules success s1
    courtyardOverlapLoop env (fun m => m.m_poly_courtyard_back)
      "back (bottom) layer" rf.2.m_pcb.m_Modules rf.1 rf.2

/-! ## Single track entry point -/

/-- The two values that `DRC::Drc` returns (the macros `OK_DRC` and `BAD_DRC` of
drc_stuff.h). -/
inductive DrcResult
  | OK_DRC
  | BAD_DRC
  deriving DecidableEq

open DrcResult

/-- `DRC::Drc( aRefSegm, aList )`: the clearance test of the track against the list, then the
keepout test; the display of the marker in the message panel is not part of the embedding. -/
def Drc (env : Env) (aRefSegm : TRACK) (aList : List TRACK) (s : DRC) : DrcResult × DRC :=
  match env.doTrackDrc s.m_pcb aRefSegm aList with
  | some marker => (BAD_DRC, { s with m_currentMarker := some marker })
  | none =>
    let r := doTrackKeepoutDrc env aRefSegm s
    if r.1 = false then (BAD_DRC, r.2) else (OK_DRC, r.2)

/-! ## The full run -/

/-- The call `m_pcbEditorFrame->Fill_All_Zones( ... )` of `RunTests`: every zone of the
board gets the filled polygons that the zone filler computes; nothing else changes. -/
def Fill_All_Zones (env : Env) (s : DRC) : DRC :=
  { s with m_pcb := { s.m_pcb with
      m_ZoneDescriptorList := s.m_pcb.m_ZoneDescriptorList.map
        (fun zone => { zone with m_FilledPolysList := env.Fill_All_Zones s.m_pcb zone }) } }

/-- `DRC::RunTests( aMessages )`; the texts appended to `aMessages` and the refresh of the
dialog list boxes are not part of the embedding. -/
def RunTests (env : Env) (s : DRC) : DRC :=
  let r := testNetClasses env s
  if r.1 = false then r.2
  else
    let s1 := if r.2.m_doPad2PadTest = true then testPad2Pad env r.2 else r.2
    let s2 := testTracks env true s1
    let s3 := Fill_All_Zones env s2
    let s4 := testZones env s3
    let s5 := if s4.m_doUnconnectedTest = true then testUnconnected env s4 else s4
    let s6 := if s5.m_doKeepoutTest = true then testKeepoutAreas env s5 else s5
    let s7 := testTexts env s6
    let s8 :=
      if s7.m_doFootprintOverlapping = true ∨ s7.m_doNoCourtyardDefined = true then
        (doFootprintOverlappingDrc env s7).2
      else s7
    s8

/-! # Part II: specification vocabulary and closed forms used in the proofs -/

/-- The violations that the step from state `s` to state `s1` added to the sink. -/
def emitted (s s1 : DRC) : List MARKER_PCB :=
  s1.markers.drop s.markers.length

/-- A netclass has an undersized field: one of its five sizes is strictly below the global
minimum of the design settings. -/
def NETCLASS.undersized (g : BOARD_DESIGN_SETTINGS) (nc : NETCLASS) : Prop :=
  nc.m_TrackWidth < g.m_TrackMinWidth ∨ nc.m_ViaDia < g.m_ViasMinSize ∨
  nc.m_ViaDrill < g.m_ViasMinDrill ∨ nc.m_uViaDia < g.m_MicroViasMinSize ∨
  nc.m_uViaDrill < g.m_MicroViasMinDrill

instance (g : BOARD_DESIGN_SETTINGS) (nc : NETCLASS) : Decidable (nc.undersized g) := by
  unfold NETCLASS.undersized; infer_instance

/-- The number of undersized fields of a netclass. -/
def NETCLASS.undersizedCount (g : BOARD_DESIGN_SETTINGS) (nc : NETCLASS) : Nat :=
  (if nc.m_TrackWidth < g.m_TrackMinWidth then 1 else 0) +
  (if nc.m_ViaDia < g.m_ViasMinSize then 1 else 0) +
  (if nc.m_ViaDrill < g.m_ViasMinDrill then 1 else 0) +
  (if nc.m_uViaDia < g.m_MicroViasMinSize then 1 else 0) +
  (if nc.m_uViaDrill < g.m_MicroViasMinDrill then 1 else 0)

/-- The markers of `doNetClass`, as a function of the settings and the netclass. -/
def netclassViolations (env : Env) (g : BOARD_DESIGN_SETTINGS) (nc : NETCLASS) :
    List MARKER_PCB :=
  (if nc.m_TrackWidth < g.m_TrackMinWidth then
    [MARKER_PCB.ofMessage DRCE_NETCLASS_TRACKWIDTH
      (netclassMsg env nc "TrackWidth" nc.m_TrackWidth g.m_TrackMinWidth)] else []) ++
  (if nc.m_ViaDia < g.m_ViasMinSize then
    [MARKER_PCB.ofMessage DRCE_NETCLASS_VIASIZE
      (netclassMsg env nc "Via Dia" nc.m_ViaDia g.m_ViasMinSize)] else []) ++
  (if nc.m_ViaDrill < g.m_ViasMinDrill then
    [MARKER_PCB.ofMessage DRCE_NETCLASS_VIADRILLSIZE
      (netclassMsg env nc "Via Drill" nc.m_ViaDrill g.m_ViasMinDrill)] else []) ++
  (if nc.m_uViaDia < g.m_MicroViasMinSize then
    [MARKER_PCB.ofMessage DRCE_NETCLASS_uVIASIZE
      (netclassMsg env nc "uVia Dia" nc.m_uViaDia g.m_MicroViasMinSize)] else []) ++
  (if nc.m_uViaDrill < g.m_MicroViasMinDrill then
    [MARKER_PCB.ofMessage DRCE_NETCLASS_uVIADRILLSIZE
      (netclassMsg env nc "uVia Drill" nc.m_uViaDrill g.m_MicroViasMinDrill)] else [])

/-! ## Closed forms of the pad sweep -/

/-- The candidate `pad` is tested with the hole probes against `aRefPad`: the two pads are
on copper layers and share none. -/
def holeTestApplies (env : Env) (pad aRefPad : D_PAD) : Prop :=
  (pad.m_layerMask &&& (aRefPad.m_layerMask &&& env.AllCuMask)) = 0
    ∧ (pad.m_layerMask &&& env.AllCuMask) ≠ 0 ∧ (aRefPad.m_layerMask &&& env.AllCuMask) ≠ 0

instance (env : Env) (pad aRefPad : D_PAD) : Decidable (holeTestApplies env pad aRefPad) := by
  unfold holeTestApplies; infer_instance

/-- The marker that the loop of `doPadToPadsDrc` leaves in the slot, if any. -/
def padSweep (env : Env) (aRefPad : D_PAD) (layerMask : LSET) (x_limit : Int) :
    D_PAD → List D_PAD → Option MARKER_PCB
  | _, [] => none
  | dummypad, pad :: pad_list =>
    match doPadToPadsDrcBody env aRefPad layerMask x_limit dummypad pad with
    | .next d => padSweep env aRefPad layerMask x_limit d pad_list
    | .stop => none
    | .fail marker => some marker

/-- The marker of the reference pad `pad` in `testPad2Pad`, if any; `rest` are the pads after
it in the sorted vector. -/
def refPadMarker (env : Env) (pcb : BOARD) (max_size : Int) (pad : D_PAD) (rest : List D_PAD) :
    Option MARKER_PCB :=
  padSweep env pad (pad.m_layerMask &&& env.AllCuMask) (padCutoff env max_size pad)
    (initialDummyPad env pcb) (pad :: rest)

/-- The markers of the second loop of `testPad2Pad`. -/
def sweepMarkers (env : Env) (pcb : BOARD) (max_size : Int) : List D_PAD → List MARKER_PCB
  | [] => []
  | pad :: rest =>
    (refPadMarker env pcb max_size pad rest).toList ++ sweepMarkers env pcb max_size rest

/-! ## The pad sweep without the cutoff -/

/-- The forward scan of the candidates of the reference pad `aRefPad` with no cutoff: every
pad of the list other than the reference pad itself is tested against it, in list order,
until a test fails. -/
def unprunedPadScan (env : Env) (aRefPad : D_PAD) (layerMask : LSET) :
    D_PAD → List D_PAD → Option MARKER_PCB
  | _, [] => none
  | dummypad, pad :: pad_list =>
    if pad.addr = aRefPad.addr then unprunedPadScan env aRefPad layerMask dummypad pad_list
    else
      match padPairTest env aRefPad layerMask dummypad pad with
      | .next d => unprunedPadScan env aRefPad layerMask d pad_list
      | .stop => none
      | .fail marker => some marker

/-- The sweep over the pad list with no cutoff: every pad, in list order, is the reference pad
of a forward scan of the whole rest of the list, and the markers of the scans are collected
in this order. -/
def unprunedSweep (env : Env) (pcb : BOARD) : List D_PAD → List MARKER_PCB
  | [] => []
  | pad :: rest =>
    (unprunedPadScan env pad (pad.m_layerMask &&& env.AllCuMask) (initialDummyPad env pcb)
      (pad :: rest)).toList ++ unprunedSweep env pcb rest

/-! ## Zones and keepout areas: vocabulary -/

/-- A zone has a suspicious net: it is on a copper layer and its net code is negative, or
positive while the connectivity counts no pad in that net. -/
def suspiciousZone (env : Env) (pcb : BOARD) (zone : ZONE_CONTAINER) : Prop :=
  env.IsOnCopperLayer zone = true ∧
    (zone.m_NetCode < 0 ∨ (zone.m_NetCode > 0 ∧ env.GetPadCount pcb zone.m_NetCode = 0))

instance (env : Env) (pcb : BOARD) (zone : ZONE_CONTAINER) :
    Decidable (suspiciousZone env pcb zone) := by
  unfold suspiciousZone; infer_instance

/-- The engine on the same board with the zone list replaced by `zones`. -/
def withZones (s : DRC) (zones : List ZONE_CONTAINER) : DRC :=
  { s with m_pcb := { s.m_pcb with m_ZoneDescriptorList := zones } }

/-- The engine on the same board with the track list replaced by `tracks`. -/
def withTracks (s : DRC) (tracks : List TRACK) : DRC :=
  { s with m_pcb := { s.m_pcb with m_Track := tracks } }

/-- The marker is a violation record of the track or via `item`. -/
def aboutItem (item : TRACK) : MARKER_PCB → Bool
  | .ofTrack track _ _ => decide (track = item)
  | _ => false

/-- The marker that the keepout `area` gets for the track or via `segm` in the inner loop of
`testKeepoutAreas`, if any. -/
def keepoutMarker (env : Env) (area : ZONE_CONTAINER) (segm : TRACK) : Option MARKER_PCB :=
  if segm.m_StructType = PCB_TRACE_T then
    if area.m_doNotAllowTracks = true ∧ area.IsOnLayer segm.m_Layer = true
        ∧ env.OutlineDistanceSeg area segm.m_Start segm.m_End segm.m_Width = 0 then
      some (MARKER_PCB.ofTrack segm none DRCE_TRACK_INSIDE_KEEPOUT)
    else none
  else if segm.m_StructType = PCB_VIA_T then
    if area.m_doNotAllowVias = true ∧ area.CommonLayerExists segm.m_layerSet = true
        ∧ env.OutlineDistancePoint area segm.m_Start < Int.tdiv segm.m_Width 2 then
      some (MARKER_PCB.ofTrack segm none DRCE_VIA_INSIDE_KEEPOUT)
    else none
  else none

/-- The markers of `testKeepoutAreas` for one area of the board. -/
def keepoutAreaMarkers (env : Env) (tracks : List TRACK) (area : ZONE_CONTAINER) :
    List MARKER_PCB :=
  if area.m_isKeepout = true then tracks.filterMap (keepoutMarker env area) else []

/-! ## Steps of the engine -/

/-- The six toggles of the engine. -/
structure Toggles where
  m_doPad2PadTest : Bool
  m_doUnconnectedTest : Bool
  m_doZonesTest : Bool
  m_doKeepoutTest : Bool
  m_doFootprintOverlapping : Bool
  m_doNoCourtyardDefined : Bool
  deriving DecidableEq

/-- The toggles of an engine state. -/
def DRC.toggles (s : DRC) : Toggles :=
  { m_doPad2PadTest := s.m_doPad2PadTest
    m_doUnconnectedTest := s.m_doUnconnectedTest
    m_doZonesTest := s.m_doZonesTest
    m_doKeepoutTest := s.m_doKeepoutTest
    m_doFootprintOverlapping := s.m_doFootprintOverlapping
    m_doNoCourtyardDefined := s.m_doNoCourtyardDefined }

/-- The step from the state `s` to the state `s1` appended the markers `l` to the sink and
the records `u` to the unconnected list, left the board `pcb1` and kept the toggles; the
marker slot and the scratch fields may have changed. -/
structure Step (s s1 : DRC) (l : List MARKER_PCB) (u : List DRC_ITEM) (pcb1 : BOARD) : Prop where
  markers : s1.markers = s.markers ++ l
  unconnected : s1.m_unconnected = s.m_unconnected ++ u
  pcb : s1.m_pcb = pcb1
  toggles : s1.toggles = s.toggles

/-! ## Closed forms of the track sweep -/

/-- The result of `doTrackDrc` for every reference item of the track sequence, in sequence
order: `none` where the item passes and the marker where it fails. -/
def trackItemResults (env : Env) (pcb : BOARD) : List TRACK → List (Option MARKER_PCB)
  | [] => []
  | segm :: next => env.doTrackDrc pcb segm next :: trackItemResults env pcb next

/-- The number of reference items that the main loop of `testTracks` tests before it ends,
at the end of the sequence or at the `break` of an abort; `ii` and `count` are the counters
of the loop. -/
def testTracksProcessed (env : Env) (delta : Nat) (progressDialog : Bool) :
    List TRACK → Nat → Nat → Nat
  | [], _, _ => 0
  | _ :: next, ii, count =>
    let over := decide (ii > delta)
    let ii1 := if over then 0 else ii + 1
    let count1 := if over then count + 1 else count
    if over = true ∧ progressDialog = true ∧ env.progressUpdate count1 = false then 0
    else testTracksProcessed env delta progressDialog next ii1 count1 + 1

/-- The collaborators with a progress dialog that never reports an abort. -/
def neverAborted (env : Env) : Env :=
  { env with progressUpdate := fun _ => true }

/-! ## Closed forms of the text tests -/

/-- Some segment of the text shape is closer to the track segment than `min_dist`. -/
def textTrackHit (env : Env) (track : TRACK) (min_dist : Int) : List wxPoint → Bool
  | a :: b :: rest =>
    if env.SegDistance track.m_Start track.m_End a b < min_dist then true
    else textTrackHit env track min_dist rest
  | _ => false

/-- Some segment of the text shape is closer to the via than `min_dist`. -/
def textViaHit (env : Env) (track : TRACK) (min_dist : Int) : List wxPoint → Bool
  | a :: b :: rest =>
    if env.PointCloserThan a b track.m_Start min_dist = true then true
    else textViaHit env track min_dist rest
  | _ => false

/-- The marker of `testTexts` for a text and a track or via, if any. -/
def textTrackMarker (env : Env) (text : TEXTE_PCB) (textShape : List wxPoint) (track : TRACK) :
    Option MARKER_PCB :=
  if env.TrackIsOnLayer track text.m_Layer = false then none
  else if track.m_StructType = PCB_TRACE_T then
    if textTrackHit env track
        (Int.tdiv (track.m_Width + text.m_Thickness) 2 + env.TrackGetClearance track)
        textShape = true then
      some (MARKER_PCB.ofTrack track (some (BOARD_ITEM.text text)) DRCE_TRACK_INSIDE_TEXT)
    else none
  else if track.m_StructType = PCB_VIA_T then
    if textViaHit env track
        (Int.tdiv (track.m_Width + text.m_Thickness) 2 + env.TrackGetClearance track)
        textShape = true then
      some (MARKER_PCB.ofTrack track (some (BOARD_ITEM.text text)) DRCE_VIA_INSIDE_TEXT)
    else none
  else none

/-- The segment test of `testTexts` for a pad fails for some segment of the text shape; the
arguments of `checkClearanceSegmToPad` are computed as in the loop of `testTexts`. -/
def textPadHit (env : Env) (pad : D_PAD) (text : TEXTE_PCB) (shape_pos : wxPoint) :
    List wxPoint → Bool
  | a :: b :: rest =>
    let origin := a
    let m_segmEnd : wxPoint := { x := b.x - origin.x, y := b.y - origin.y }
    let delta := m_segmEnd
    let turn := decide (delta.x ≠ 0 ∨ delta.y ≠ 0)
    let m_segmAngle := if turn then env.ArcTangente delta.y delta.x else 0
    let delta1 := if turn then env.RotatePoint delta m_segmAngle else delta
    let m_segmLength := delta1.x
    let m_padToTestPos : wxPoint := { x := shape_pos.x - origin.x, y := shape_pos.y - origin.y }
    if env.checkClearanceSegmToPad pad text.m_Thickness (env.PadGetClearanceNull pad)
        m_segmEnd m_segmAngle m_segmLength m_padToTestPos = false then true
    else textPadHit env pad text shape_pos rest
  | _ => false

/-- The marker of `testTexts` for a text and a pad, if any. -/
def textPadMarker (env : Env) (text : TEXTE_PCB) (textShape : List wxPoint) (pad : D_PAD) :
    Option MARKER_PCB :=
  if env.PadIsOnLayer pad text.m_Layer = false then none
  else if textPadHit env pad text (env.ShapePos pad) textShape = true then
    some (MARKER_PCB.ofPad pad (BOARD_ITEM.text text) DRCE_PAD_INSIDE_TEXT)
  else none

/-- The markers of `testTexts` for one item of the drawings: those of the tracks and vias, in
sequence order, then those of the pads. -/
def textItemMarkers (env : Env) (pcb : BOARD) (item : TEXTE_PCB) : List MARKER_PCB :=
  if env.IsCopperLayer item.m_Layer = false then []
  else if item.m_StructType ≠ PCB_TEXT_T then []
  else if (env.TransformTextShapeToSegmentList item).length = 0 then []
  else
    pcb.m_Track.filterMap (textTrackMarker env item (env.TransformTextShapeToSegmentList item))
      ++ pcb.m_pads.filterMap
        (textPadMarker env item (env.TransformTextShapeToSegmentList item))

/-! ## Closed forms of the courtyard validator -/

/-- The footprint with the courtyards that `BuildPolyCourtyard` stores in it. -/
def rebuildCourtyard (env : Env) (footprint : MODULE) : MODULE :=
  { footprint with
    m_poly_courtyard_front := (env.BuildPolyCourtyard footprint).2.1
    m_poly_courtyard_back := (env.BuildPolyCourtyard footprint).2.2 }

/-- The markers of the first loop of `doFootprintOverlappingDrc` for one footprint. -/
def courtyardBuildMarkers (env : Env) (cfg : Toggles) (footprint : MODULE) : List MARKER_PCB :=
  (if (env.BuildPolyCourtyard footprint).1 = false ∧ cfg.m_doFootprintOverlapping = true then
    [MARKER_PCB.ofPos footprint.m_Pos DRCE_MALFORMED_COURTYARD_IN_FOOTPRINT
      ("footprint \x27" ++ footprint.m_Reference ++ "\x27 has malformed courtyard")]
   else []) ++
  (if cfg.m_doNoCourtyardDefined = true ∧ (env.BuildPolyCourtyard footprint).2.1.length = 0
      ∧ (env.BuildPolyCourtyard footprint).2.2.length = 0
      ∧ (env.BuildPolyCourtyard footprint).1 = true then
    [MARKER_PCB.ofPos footprint.m_Pos DRCE_MISSING_COURTYARD_IN_FOOTPRINT
      ("footprint \x27" ++ footprint.m_Reference ++ "\x27 has no courtyard defined")]
   else [])

/-- Two footprints overlap on a side: both courtyards of the side are defined and their
intersection is not empty. -/
def courtyardsOverlap (env : Env) (side : MODULE → SHAPE_POLY_SET) (footprint candidate : MODULE) :
    Bool :=
  decide ((side footprint).length ≠ 0 ∧ (side candidate).length ≠ 0
    ∧ (env.BooleanIntersection (side footprint) (side candidate)).length ≠ 0)

/-- The marker of an overlap pass for two footprints that overlap on the side. -/
def courtyardOverlapMarker (env : Env) (side : MODULE → SHAPE_POLY_SET) (sideText : String)
    (footprint candidate : MODULE) : MARKER_PCB :=
  MARKER_PCB.ofPos (env.Vertex (env.BooleanIntersection (side footprint) (side candidate)))
    DRCE_OVERLAPPING_FOOTPRINTS
    ("footprints \x27" ++ footprint.m_Reference ++ "\x27 and \x27"
      ++ candidate.m_Reference ++ "\x27 overlap on " ++ sideText)

/-- The pairs (earlier footprint, later footprint) of a footprint list: every unordered pair
of two footprints of the list once, in the order in which the overlap passes visit them. -/
def footprintPairs : List MODULE → List (MODULE × MODULE)
  | [] => []
  | footprint :: rest => rest.map (fun candidate => (footprint, candidate)) ++ footprintPairs rest

/-- The markers of an overlap pass of `doFootprintOverlappingDrc`. -/
def courtyardOverlapMarkers (env : Env) (side : MODULE → SHAPE_POLY_SET) (sideText : String)
    (modules : List MODULE) : List MARKER_PCB :=
  ((footprintPairs modules).filter (fun p => courtyardsOverlap env side p.1 p.2)).map
    (fun p => courtyardOverlapMarker env side sideText p.1 p.2)

/-- The markers of `doFootprintOverlappingDrc` on a board. -/
def courtyardMarkers (env : Env) (cfg : Toggles) (pcb : BOARD) : List MARKER_PCB :=
  pcb.m_Modules.flatMap (courtyardBuildMarkers env cfg) ++
  (if cfg.m_doFootprintOverlapping = true then
    courtyardOverlapMarkers env (fun m => m.m_poly_courtyard_front) "front (top) layer"
      (pcb.m_Modules.map (rebuildCourtyard env)) ++
    courtyardOverlapMarkers env (fun m => m.m_poly_courtyard_back) "back (bottom) layer"
      (pcb.m_Modules.map (rebuildCourtyard env))
   else [])

/-- The board after `doFootprintOverlappingDrc`: every footprint has its courtyards
rebuilt. -/
def courtyardBoard (env : Env) (pcb : BOARD) : BOARD :=
  { pcb with m_Modules := pcb.m_Modules.map (rebuildCourtyard env) }

/-! ## Closed form of the full run -/

/-- The netclasses that `testNetClasses` visits: the default one, then the named ones. -/
def boardNetclasses (pcb : BOARD) : List NETCLASS :=
  pcb.m_designSettings.m_NetClasses.m_Default ::
    pcb.m_designSettings.m_NetClasses.m_NetClasses.map Prod.snd

/-- The markers of `testNetClasses` on a board. -/
def netclassMarkers (env : Env) (pcb : BOARD) : List MARKER_PCB :=
  (boardNetclasses pcb).flatMap (netclassViolations env pcb.m_designSettings)

/-- The value of `testNetClasses` on a board: no netclass has an undersized field. -/
def netclassesPass (pcb : BOARD) : Bool :=
  (boardNetclasses pcb).all (fun nc => !decide (nc.undersized pcb.m_designSettings))

/-- The markers of `testPad2Pad` on a board. -/
def pad2padMarkers (env : Env) (pcb : BOARD) : List MARKER_PCB :=
  sweepMarkers env pcb (maxPadSize env (env.GetSortedPadListByXthenYCoord pcb) 0)
    (env.GetSortedPadListByXthenYCoord pcb)

/-- The markers of `testTracks` on a board: those of the reference items that the main loop
tests before it ends. -/
def trackMarkers (env : Env) (aShowProgressBar : Bool) (pcb : BOARD) : List MARKER_PCB :=
  ((trackItemResults env pcb pcb.m_Track).take
    (testTracksProcessed env 500
      (aShowProgressBar && decide (countTracks pcb.m_Track / 500 > 3))
      pcb.m_Track 0 0)).reduceOption

/-- The board after `Fill_All_Zones`. -/
def filledBoard (env : Env) (pcb : BOARD) : BOARD :=
  { pcb with
    m_ZoneDescriptorList := pcb.m_ZoneDescriptorList.map
      (fun zone => { zone with m_FilledPolysList := env.Fill_All_Zones pcb zone }) }

/-- The markers of `testZones` on a board. -/
def zoneMarkers (env : Env) (pcb : BOARD) : List MARKER_PCB :=
  (pcb.m_ZoneDescriptorList.filter (fun z => suspiciousZone env pcb z)).map
    (fun z => MARKER_PCB.ofZone z DRCE_SUSPICIOUS_NET_FOR_ZONE_OUTLINE)
  ++ env.Test_Drc_Areas_Outlines_To_Areas_Outlines pcb

/-- The record of `testUnconnected` for an unconnected edge. -/
def unconnectedRecord (edge : CN_EDGE) : DRC_ITEM :=
  { m_ErrorCode := DRCE_UNCONNECTED_ITEMS
    m_MainText := edge.sourceText
    m_AuxiliaryText := edge.targetText
    m_MainPosition := edge.sourcePos
    m_AuxiliaryPosition := edge.targetPos }

/-- The records of `testUnconnected` on a board: one for each unconnected edge of the
connectivity data, in their order. -/
def unconnectedRecords (env : Env) (pcb : BOARD) : List DRC_ITEM :=
  (env.GetUnconnectedEdges pcb).map unconnectedRecord

/-- The markers of `testKeepoutAreas` on a board. -/
def keepoutMarkers (env : Env) (pcb : BOARD) : List MARKER_PCB :=
  pcb.m_ZoneDescriptorList.flatMap (keepoutAreaMarkers env pcb.m_Track)

/-- The markers of `testTexts` on a board. -/
def textMarkers (env : Env) (pcb : BOARD) : List MARKER_PCB :=
  pcb.m_Drawings.flatMap (textItemMarkers env pcb)

/-- The markers of the sub-checks that `RunTests` runs after the netclass validation, in the
order of the run. -/
def stageMarkers (env : Env) (cfg : Toggles) (pcb : BOARD) : List MARKER_PCB :=
  (if cfg.m_doPad2PadTest = true then pad2padMarkers env pcb else []) ++
  trackMarkers env true pcb ++
  zoneMarkers env (filledBoard env pcb) ++
  (if cfg.m_doKeepoutTest = true then keepoutMarkers env (filledBoard env pcb) else []) ++
  textMarkers env (filledBoard env pcb) ++
  (if cfg.m_doFootprintOverlapping = true ∨ cfg.m_doNoCourtyardDefined = true then
    courtyardMarkers env cfg (filledBoard env pcb) else [])

/-- The markers of `RunTests` on a board under a configuration. -/
def runMarkers (env : Env) (cfg : Toggles) (pcb : BOARD) : List MARKER_PCB :=
  netclassMarkers env pcb ++ (if netclassesPass pcb = true then stageMarkers env cfg pcb else [])

/-- The unconnected records of `RunTests` on a board under a configuration. -/
def runUnconnected (env : Env) (cfg : Toggles) (pcb : BOARD) : List DRC_ITEM :=
  if netclassesPass pcb = true ∧ cfg.m_doUnconnectedTest = true then
    unconnectedRecords env (filledBoard env pcb)
  else []

/-- The board that `RunTests` leaves. -/
def runBoard (env : Env) (cfg : Toggles) (pcb : BOARD) : BOARD :=
  if netclassesPass pcb = true then
    if cfg.m_doFootprintOverlapping = true ∨ cfg.m_doNoCourtyardDefined = true then
      courtyardBoard env (filledBoard env pcb)
    else filledBoard env pcb
  else pcb

/-! ## Early exit of the pad scan -/

/-- The marker of the test of the candidate `pad` against the reference pad `aRefPad` in the
body of the loop of `doPadToPadsDrc`, with the dummy pad as it is before the loop: `none`
when the candidate is skipped or passes. -/
def padTestMarker (env : Env) (pcb : BOARD) (aRefPad pad : D_PAD) : Option MARKER_PCB :=
  match padPairTest env aRefPad (aRefPad.m_layerMask &&& env.AllCuMask)
      (initialDummyPad env pcb) pad with
  | .fail marker => some marker
  | _ => none

/-- The candidates that the loop of `doPadToPadsDrc` can reach for the reference pad
`aRefPad`: the pads of the range other than the reference pad itself, up to the first one
whose X is above the cutoff. -/
def scannedCandidates (aRefPad : D_PAD) (x_limit : Int) (pads : List D_PAD) : List D_PAD :=
  (pads.filter (fun pad => decide (pad.addr ≠ aRefPad.addr))).takeWhile
    (fun pad => decide (pad.m_Pos.x ≤ x_limit))

/-- The result of `doPadToPadsDrc` for every reference pad of the second loop of
`testPad2Pad`, in the order of the sorted vector: `none` where it returns true and the marker
of the slot where it returns false. -/
def padScanResults (env : Env) (pcb : BOARD) (max_size : Int) :
    List D_PAD → List (Option MARKER_PCB)
  | [] => []
  | pad :: rest => refPadMarker env pcb max_size pad rest :: padScanResults env pcb max_size rest

/-! ## Text shapes -/

/-- The calls of `progressDialog->Update` in the main loop of `testTracks`, in order: for
each call, the number of the item at which it is made (the head of the list has the number
`item`) and the value of `count` that is passed.  `ii` and `count` are the counters of the
loop; a call is made when `ii++ > delta` holds and the dialog exists, and the loop ends at
the first call that returns false. -/
def testTracksPolls (env : Env) (delta : Nat) (progressDialog : Bool) :
    List TRACK → Nat → Nat → Nat → List (Nat × Nat)
  | [], _, _, _ => []
  | _ :: next, item, ii, count =>
    let over := decide (ii > delta)
    let ii1 := if over then 0 else ii + 1
    let count1 := if over then count + 1 else count
    if over = true ∧ progressDialog = true then
      (item, count1) ::
        (if env.progressUpdate count1 = false then []
         else testTracksPolls env delta progressDialog next (item + 1) ii1 count1)
    else testTracksPolls env delta progressDialog next (item + 1) ii1 count1

/-! ## Results that a run stores in the board -/

/-- The zone without its filled polygons, which `Fill_All_Zones` computes and stores. -/
def withoutFill (zone : ZONE_CONTAINER) : ZONE_CONTAINER :=
  { zone with m_FilledPolysList := [] }

/-- The footprint without its courtyards, which `BuildPolyCourtyard` computes and stores. -/
def withoutCourtyard (footprint : MODULE) : MODULE :=
  { footprint with m_poly_courtyard_front := [], m_poly_courtyard_back := [] }

/-- The board without the stored courtyards of its footprints. -/
def withoutCourtyards (pcb : BOARD) : BOARD :=
  { pcb with m_Modules := pcb.m_Modules.map withoutCourtyard }

/-- The board without the results that a run stores in it: the filled polygons of its zones
and the courtyards of its footprints. -/
def withoutStoredResults (pcb : BOARD) : BOARD :=
  { pcb with
    m_Modules := pcb.m_Modules.map withoutCourtyard
    m_ZoneDescriptorList := pcb.m_ZoneDescriptorList.map withoutFill }

/-- The collaborators compute their results from the board itself and read none of the
results that an earlier run stored in it.  The sorted pad list, the dummy pad, the track
clearance test and the zone filler read neither the filled polygons nor the courtyards; the
pad count and the unconnected edges of the connectivity and the outline test of the zones,
which run after the zones are filled, do not read the courtyards; the courtyard builder does
not read the courtyards that the footprint holds. -/
structure RecomputesStoredResults (env : Env) : Prop where
  sortedPads : ∀ pcb, env.GetSortedPadListByXthenYCoord pcb
    = env.GetSortedPadListByXthenYCoord (withoutStoredResults pcb)
  newPad : ∀ pcb, env.newPad pcb = env.newPad (withoutStoredResults pcb)
  trackTest : ∀ pcb track list, env.doTrackDrc pcb track list
    = env.doTrackDrc (withoutStoredResults pcb) track list
  fill : ∀ pcb zone, env.Fill_All_Zones pcb zone
    = env.Fill_All_Zones (withoutStoredResults pcb) (withoutFill zone)
  padCount : ∀ pcb net, env.GetPadCount pcb net = env.GetPadCount (withoutCourtyards pcb) net
  outlines : ∀ pcb, env.Test_Drc_Areas_Outlines_To_Areas_Outlines pcb
    = env.Test_Drc_Areas_Outlines_To_Areas_Outlines (withoutCourtyards pcb)
  edges : ∀ pcb, env.GetUnconnectedEdges pcb = env.GetUnconnectedEdges (withoutCourtyards pcb)
  courtyard : ∀ footprint, env.BuildPolyCourtyard footprint
    = env.BuildPolyCourtyard (withoutCourtyard footprint)

/-! ## Sample collaborators and boards for the concrete instances -/

/-- Collaborators with simple integer geometry: the bounding radius of a pad is the width of
its size, its clearance is its local clearance, two pads keep their clearance when their X
distance exceeds the sum of the radii and of the clearance of the first, a distance to a zone
outline is the X distance to its first vertex, and every other test passes. -/
def sampleEnv : Env where
  AllCuMask := 0xFFFFFFFF
  StringFromValue := fun x => toString x
  GetSortedPadListByXthenYCoord := fun pcb => pcb.m_pads
  GetBoundingRadius := fun pad => pad.m_Size.x
  PadGetClearance := fun pad => pad.m_LocalClearance
  newPad := fun _ =>
    { addr := 0, m_Parent := 0, m_name := "", m_Pos := ⟨0, 0⟩, m_Size := ⟨0, 0⟩,
      m_padShape := PAD_SHAPE_CIRCLE, m_Drill := ⟨0, 0⟩,
      m_drillShape := PAD_DRILL_SHAPE_CIRCLE, m_Orient := 0, m_layerMask := 0,
      m_LocalClearance := 0, m_NetCode := 0 }
  checkClearancePadToPad := fun a b =>
    decide (a.m_Size.x + b.m_Size.x + a.m_LocalClearance < |b.m_Pos.x - a.m_Pos.x|)
  doTrackDrc := fun _ _ _ => none
  progressUpdate := fun _ => true
  Fill_All_Zones := fun _ zone => zone.m_Poly
  IsOnCopperLayer := fun zone => decide (zone.m_Layer < 32)
  GetPadCount := fun pcb net => (pcb.m_pads.filter (fun pad => pad.m_NetCode = net)).length
  GetUnconnectedEdges := fun _ => []
  Test_Drc_Areas_Outlines_To_Areas_Outlines := fun _ => []
  OutlineDistanceSeg := fun zone a _ _ =>
    match zone.m_Poly with
    | (v :: _) :: _ => |a.x - v.x|
    | _ => 1
  OutlineDistancePoint := fun zone a =>
    match zone.m_Poly with
    | (v :: _) :: _ => |a.x - v.x|
    | _ => 1
  IsCopperLayer := fun layer => decide (layer < 32)
  TransformTextShapeToSegmentList := fun _ => []
  TrackIsOnLayer := fun track layer => decide (track.m_Layer = layer)
  TrackGetClearance := fun _ => 0
  SegDistance := fun _ _ _ _ => 1
  PointCloserThan := fun _ _ _ _ => false
  PadIsOnLayer := fun pad layer => Nat.testBit pad.m_layerMask layer
  ShapePos := fun pad => pad.m_Pos
  PadGetClearanceNull := fun pad => pad.m_LocalClearance
  ArcTangente := fun _ _ => 0
  RotatePoint := fun p _ => p
  checkClearanceSegmToPad := fun _ _ _ _ _ _ _ => true
  BuildPolyCourtyard := fun m => (true, m.m_poly_courtyard_front, m.m_poly_courtyard_back)
  BooleanIntersection := fun _ _ => []
  Vertex := fun _ => ⟨0, 0⟩

/-- A netclass whose five sizes are given, named `name`. -/
def sampleNetclass (name : String) (trackWidth viaDia viaDrill uViaDia uViaDrill : Int) :
    NETCLASS :=
  { m_Name := name, m_Clearance := 200000, m_TrackWidth := trackWidth, m_ViaDia := viaDia,
    m_ViaDrill := viaDrill, m_uViaDia := uViaDia, m_uViaDrill := uViaDrill }

/-- Design settings with the minimum track width 0.2 mm (in nanometres) and a default
netclass whose track width is `defaultTrackWidth`. -/
def sampleSettings (defaultTrackWidth : Int) : BOARD_DESIGN_SETTINGS :=
  { m_TrackMinWidth := 200000, m_ViasMinSize := 400000, m_ViasMinDrill := 300000,
    m_MicroViasMinSize := 200000, m_MicroViasMinDrill := 100000,
    m_NetClasses :=
      { m_Default := sampleNetclass "Default" defaultTrackWidth 600000 400000 300000 100000,
        m_NetClasses := [("Power", sampleNetclass "Power" 500000 800000 400000 300000 100000)] } }

/-- A board with the given settings, pads, tracks and zones, and nothing else. -/
def sampleBoard (g : BOARD_DESIGN_SETTINGS) (pads : List D_PAD) (tracks : List TRACK)
    (zones : List ZONE_CONTAINER) : BOARD :=
  { m_designSettings := g, m_Track := tracks, m_Modules := [], m_pads := pads,
    m_ZoneDescriptorList := zones, m_Drawings := [] }

/-- The engine as its constructor leaves it (every toggle on, empty lists), on a board. -/
def newDRC (pcb : BOARD) : DRC :=
  { m_doPad2PadTest := true, m_doUnconnectedTest := true, m_doZonesTest := true,
    m_doKeepoutTest := true, m_doFootprintOverlapping := true, m_doNoCourtyardDefined := true,
    m_currentMarker := none, m_segmAngle := 0, m_segmLength := 0, m_segmEnd := ⟨0, 0⟩,
    m_padToTestPos := ⟨0, 0⟩, m_unconnected := [], m_pcb := pcb, markers := [] }

/-- A round pad of size 10 and local clearance 2 at (`x`, 0), with a round drill of diameter
`drill`, on the layers `layers`, in the net `net`; `parent` is its footprint. -/
def samplePad (addr parent : Nat) (name : String) (x : Int) (layers : LSET) (drill : Int)
    (net : Int) : D_PAD :=
  { addr := addr, m_Parent := parent, m_name := name, m_Pos := ⟨x, 0⟩, m_Size := ⟨10, 10⟩,
    m_padShape := PAD_SHAPE_CIRCLE, m_Drill := ⟨drill, drill⟩,
    m_drillShape := PAD_DRILL_SHAPE_CIRCLE, m_Orient := 0, m_layerMask := layers,
    m_LocalClearance := 2, m_NetCode := net }

/-- The engine on a board whose only content is the pads `pads`, sorted by X. -/
def padBoardDRC (pads : List D_PAD) : DRC :=
  newDRC (sampleBoard (sampleSettings 250000) pads [] [])

/-- A zone of the front copper layer with one outline vertex at (`x`, 0), in the net `net`;
the flags tell whether it is a keepout and what it disallows, `layers` is its layer set. -/
def sampleZone (addr : Nat) (net : Int) (keepout noTracks noVias : Bool) (layers : LSET)
    (x : Int) : ZONE_CONTAINER :=
  { addr := addr, m_NetCode := net, m_isKeepout := keepout, m_doNotAllowTracks := noTracks,
    m_doNotAllowVias := noVias, m_doNotAllowCopperPour := false, m_Layer := 0,
    m_layerSet := layers, m_Poly := [[⟨x, 0⟩]], m_FilledPolysList := [] }

/-- A track segment or via (as `type` tells) of width 10 that starts at (`x`, 0), on the
layer `layer` and with the layer set `layers`. -/
def sampleTrack (addr : Nat) (type : KICAD_T) (x : Int) (layer : PCB_LAYER_ID) (layers : LSET) :
    TRACK :=
  { addr := addr, m_StructType := type, m_Start := ⟨x, 0⟩, m_End := ⟨x + 50, 0⟩, m_Width := 10,
    m_Layer := layer, m_layerSet := layers, m_NetCode := 1 }

/-- The engine on a board with two pads of different nets that are closer than their
clearance and a copper zone in the net 5, which has no pad; the board has no zone fill to
refresh and no footprint. -/
def clashZoneDRC : DRC :=
  newDRC (sampleBoard (sampleSettings 250000)
    [samplePad 1 1 "1" 0 1 0 1, samplePad 2 2 "1" 5 1 0 2] []
    [sampleZone 1 5 false false false 1 0])

/-- An unconnected edge between two pads. -/
def sampleEdge : CN_EDGE :=
  { sourceText := "Pad 1 of R1", targetText := "Pad 2 of R2", sourcePos := ⟨0, 0⟩,
    targetPos := ⟨100, 0⟩ }

/-- The sample collaborators with a connectivity that reports one unconnected edge. -/
def edgeEnv : Env :=
  { sampleEnv with GetUnconnectedEdges := fun _ => [sampleEdge] }

/-- The engine on a board whose only content is two pads of different nets that are closer
than their clearance. -/
def clashDRC : DRC :=
  padBoardDRC [samplePad 1 1 "1" 0 1 0 1, samplePad 2 2 "1" 5 1 0 2]

/-- The engine on a board with a keepout of the front copper layer at X = 0 that disallows
tracks and vias, a via at X = 7 and a track segment that starts at X = 20, both outside the
keepout. -/
def keepoutClearDRC : DRC :=
  newDRC (sampleBoard (sampleSettings 250000) []
    [sampleTrack 1 PCB_VIA_T 7 0 1, sampleTrack 2 PCB_TRACE_T 20 0 1]
    [sampleZone 1 0 true true true 1 0])

/-- A pad like `samplePad 2 2 "1" 50 1 0 2` with the size 30. -/
def widePad : D_PAD :=
  { samplePad 2 2 "1" 50 1 0 2 with m_Size := ⟨30, 30⟩ }

/-- The sample collaborators with a pad clearance test that fails for every pair. -/
def allClashEnv : Env :=
  { sampleEnv with checkClearancePadToPad := fun _ _ => false }

/-- A via of width 5 at X = 2, on the front copper layer. -/
def oddVia : TRACK :=
  { sampleTrack 1 PCB_VIA_T 2 0 1 with m_Width := 5 }

/-- The engine on a board with the via `oddVia` and a keepout of the front copper layer
that disallows tracks and vias, with its outline at X = 0. -/
def oddViaDRC : DRC :=
  newDRC (sampleBoard (sampleSettings 250000) [] [oddVia] [sampleZone 1 0 true true true 1 0])

/-- Collaborators whose track clearance test fails for a track against the first item of the
given list that starts at the point where the track starts. -/
def sameStartEnv : Env :=
  { sampleEnv with
    doTrackDrc := fun _ track list =>
      (list.find? (fun other => decide (other.m_Start = track.m_Start))).map
        (fun other => MARKER_PCB.ofTrack track (some (BOARD_ITEM.track other)) (DRCE_OTHER 0)) }

/-- A board with two tracks that start at the same point. -/
def twinTracksDRC : DRC :=
  newDRC (sampleBoard (sampleSettings 250000) []
    [sampleTrack 1 PCB_TRACE_T 0 0 1, sampleTrack 2 PCB_TRACE_T 0 0 1] [])

/-- Collaborators with one unconnected edge and a courtyard builder that computes the front
courtyard from the graphic items of the footprint. -/
def recomputeEnv : Env :=
  { edgeEnv with
    BuildPolyCourtyard := fun footprint => (true, [footprint.m_graphics.map Prod.fst], []) }

/-- Collaborators whose zone filler adds the outline of the zone to the filled polygons that
the zone already holds. -/
def accumulatingFillEnv : Env :=
  { recomputeEnv with
    Fill_All_Zones := fun _ zone => zone.m_FilledPolysList ++ zone.m_Poly }

/-- Collaborators whose track clearance test fails for every track and whose progress dialog
gives the answers `answers`. -/
def failingTracksEnv (answers : Nat → Bool) : Env :=
  { sampleEnv with
    doTrackDrc := fun _ track _ => some (MARKER_PCB.ofTrack track none (DRCE_OTHER 0))
    progressUpdate := answers
    BuildPolyCourtyard := fun footprint => (true, [footprint.m_graphics.map Prod.fst], []) }

/-- The tracks of `manyTracksDRC`: 2600 segments. -/
@[irreducible]
def manyTracks : List TRACK :=
  (List.range 2600).map (fun i => sampleTrack i PCB_TRACE_T (100 * (i : Int)) 0 1)

/-- A board with 2600 tracks, enough for the progress dialog of `testTracks`. -/
def manyTracksDRC : DRC :=
  newDRC (sampleBoard (sampleSettings 250000) [] manyTracks [])

/-! # Part III: theorems -/

/-! ## Netclass validator: proofs -/

theorem emitted_append (s s1 : DRC) (l : List MARKER_PCB) (h : s1.markers = s.markers ++ l) :
    emitted s s1 = l := by
  simp [emitted, h]

theorem doNetClass_eq (env : Env) (nc : NETCLASS) (s : DRC) :
    doNetClass env nc s =
      (!decide (nc.undersized s.m_pcb.m_designSettings),
       { s with
         markers := s.markers ++ netclassViolations env s.m_pcb.m_designSettings nc,
         m_currentMarker :=
           if nc.undersized s.m_pcb.m_designSettings then none else s.m_currentMarker }) := by
  unfold doNetClass doNetClassField netclassViolations NETCLASS.undersized
  by_cases h1 : nc.m_TrackWidth < s.m_pcb.m_designSettings.m_TrackMinWidth <;>
  by_cases h2 : nc.m_ViaDia < s.m_pcb.m_designSettings.m_ViasMinSize <;>
  by_cases h3 : nc.m_ViaDrill < s.m_pcb.m_designSettings.m_ViasMinDrill <;>
  by_cases h4 : nc.m_uViaDia < s.m_pcb.m_designSettings.m_MicroViasMinSize <;>
  by_cases h5 : nc.m_uViaDrill < s.m_pcb.m_designSettings.m_MicroViasMinDrill <;>
  simp [h1, h2, h3, h4, h5, addMarkerToPcb]

theorem doNetClass_markers (env : Env) (nc : NETCLASS) (s : DRC) :
    (doNetClass env nc s).2.markers
      = s.markers ++ netclassViolations env s.m_pcb.m_designSettings nc := by
  rw [doNetClass_eq]

theorem doNetClass_ret (env : Env) (nc : NETCLASS) (s : DRC) :
    (doNetClass env nc s).1 = !decide (nc.undersized s.m_pcb.m_designSettings) := by
  rw [doNetClass_eq]

theorem testNetClassesLoop_eq (env : Env) (l : List (String × NETCLASS)) (ret : Bool)
    (s : DRC) :
    testNetClassesLoop env l ret s =
      (ret && (l.map Prod.snd).all (fun nc => !decide (nc.undersized s.m_pcb.m_designSettings)),
       { s with
         markers := s.markers ++
           (l.map Prod.snd).flatMap (netclassViolations env s.m_pcb.m_designSettings),
         m_currentMarker :=
           if (l.map Prod.snd).all (fun nc => !decide (nc.undersized s.m_pcb.m_designSettings))
           then s.m_currentMarker else none }) := by
  induction l generalizing ret s with
  | nil => simp [testNetClassesLoop]
  | cons i rest ih =>
    simp only [testNetClassesLoop]
    rw [ih, doNetClass_eq]
    by_cases h : i.2.undersized s.m_pcb.m_designSettings
    · simp [h, List.flatMap_cons, List.append_assoc]
    · have hd : decide (i.2.undersized s.m_pcb.m_designSettings) = false := decide_eq_false h
      simp [h, List.flatMap_cons, List.append_assoc]
      rw [hd]
      rfl

theorem testNetClasses_eq (env : Env) (s : DRC) :
    testNetClasses env s =
      ((s.m_pcb.m_designSettings.m_NetClasses.m_Default ::
          s.m_pcb.m_designSettings.m_NetClasses.m_NetClasses.map Prod.snd).all
          (fun nc => !decide (nc.undersized s.m_pcb.m_designSettings)),
       { s with
         markers := s.markers ++
           (s.m_pcb.m_designSettings.m_NetClasses.m_Default ::
             s.m_pcb.m_designSettings.m_NetClasses.m_NetClasses.map Prod.snd).flatMap
             (netclassViolations env s.m_pcb.m_designSettings),
         m_currentMarker :=
           if (s.m_pcb.m_designSettings.m_NetClasses.m_Default ::
             s.m_pcb.m_designSettings.m_NetClasses.m_NetClasses.map Prod.snd).all
             (fun nc => !decide (nc.undersized s.m_pcb.m_designSettings))
           then s.m_currentMarker else none }) := by
  unfold testNetClasses
  simp only []
  rw [doNetClass_eq, testNetClassesLoop_eq]
  by_cases h : s.m_pcb.m_designSettings.m_NetClasses.m_Default.undersized
    s.m_pcb.m_designSettings
  · simp [h, List.flatMap_cons, List.append_assoc]
  · have hd : decide (s.m_pcb.m_designSettings.m_NetClasses.m_Default.undersized
      s.m_pcb.m_designSettings) = false := decide_eq_false h
    simp [h, List.flatMap_cons, List.append_assoc]
    rw [hd]
    rfl

theorem testNetClasses_markers (env : Env) (s : DRC) :
    (testNetClasses env s).2.markers = s.markers ++
      (s.m_pcb.m_designSettings.m_NetClasses.m_Default ::
        s.m_pcb.m_designSettings.m_NetClasses.m_NetClasses.map Prod.snd).flatMap
        (netclassViolations env s.m_pcb.m_designSettings) := by
  rw [testNetClasses_eq]

theorem testNetClasses_ret (env : Env) (s : DRC) :
    (testNetClasses env s).1 = true ↔
      ∀ nc ∈ (s.m_pcb.m_designSettings.m_NetClasses.m_Default ::
        s.m_pcb.m_designSettings.m_NetClasses.m_NetClasses.map Prod.snd),
        ¬ nc.undersized s.m_pcb.m_designSettings := by
  rw [testNetClasses_eq]
  simp only [List.all_eq_true, Bool.not_eq_true', decide_eq_false_iff_not]

theorem netclassViolations_code (env : Env) (g : BOARD_DESIGN_SETTINGS) (nc : NETCLASS)
    (m : MARKER_PCB) (hm : m ∈ netclassViolations env g nc) :
    m.code = DRCE_NETCLASS_TRACKWIDTH ∨ m.code = DRCE_NETCLASS_VIASIZE ∨
    m.code = DRCE_NETCLASS_VIADRILLSIZE ∨ m.code = DRCE_NETCLASS_uVIASIZE ∨
    m.code = DRCE_NETCLASS_uVIADRILLSIZE := by
  unfold netclassViolations at hm
  simp only [List.mem_append] at hm
  rcases hm with (((h | h) | h) | h) | h <;>
    split at h <;> simp at h <;> subst h <;> simp [MARKER_PCB.code]

/-! ## Claims on the netclass validator -/

/-- C1: for every netclass and every set of global minimums, `doNetClass` adds to the sink,
for each of the five size fields, one violation of the matching kind (naming the netclass and
both values) when the field is strictly below its global minimum and none when it is equal or
above; it adds nothing else (the number of added violations is the number of undersized
fields), and it returns failure exactly when at least one field is undersized. -/
theorem doNetClass_one_violation_per_undersized_field (env : Env) (nc : NETCLASS) (s : DRC) :
    (doNetClass env nc s).2.markers = s.markers ++ emitted s (doNetClass env nc s).2 ∧
    (emitted s (doNetClass env nc s).2).filter (fun m => m.code = DRCE_NETCLASS_TRACKWIDTH) =
      (if nc.m_TrackWidth < s.m_pcb.m_designSettings.m_TrackMinWidth then
        [MARKER_PCB.ofMessage DRCE_NETCLASS_TRACKWIDTH (netclassMsg env nc "TrackWidth"
          nc.m_TrackWidth s.m_pcb.m_designSettings.m_TrackMinWidth)] else []) ∧
    (emitted s (doNetClass env nc s).2).filter (fun m => m.code = DRCE_NETCLASS_VIASIZE) =
      (if nc.m_ViaDia < s.m_pcb.m_designSettings.m_ViasMinSize then
        [MARKER_PCB.ofMessage DRCE_NETCLASS_VIASIZE (netclassMsg env nc "Via Dia"
          nc.m_ViaDia s.m_pcb.m_designSettings.m_ViasMinSize)] else []) ∧
    (emitted s (doNetClass env nc s).2).filter (fun m => m.code = DRCE_NETCLASS_VIADRILLSIZE) =
      (if nc.m_ViaDrill < s.m_pcb.m_designSettings.m_ViasMinDrill then
        [MARKER_PCB.ofMessage DRCE_NETCLASS_VIADRILLSIZE (netclassMsg env nc "Via Drill"
          nc.m_ViaDrill s.m_pcb.m_designSettings.m_ViasMinDrill)] else []) ∧
    (emitted s (doNetClass env nc s).2).filter (fun m => m.code = DRCE_NETCLASS_uVIASIZE) =
      (if nc.m_uViaDia < s.m_pcb.m_designSettings.m_MicroViasMinSize then
        [MARKER_PCB.ofMessage DRCE_NETCLASS_uVIASIZE (netclassMsg env nc "uVia Dia"
          nc.m_uViaDia s.m_pcb.m_designSettings.m_MicroViasMinSize)] else []) ∧
    (emitted s (doNetClass env nc s).2).filter (fun m => m.code = DRCE_NETCLASS_uVIADRILLSIZE) =
      (if nc.m_uViaDrill < s.m_pcb.m_designSettings.m_MicroViasMinDrill then
        [MARKER_PCB.ofMessage DRCE_NETCLASS_uVIADRILLSIZE (netclassMsg env nc "uVia Drill"
          nc.m_uViaDrill s.m_pcb.m_designSettings.m_MicroViasMinDrill)] else []) ∧
    (emitted s (doNetClass env nc s).2).length = nc.undersizedCount s.m_pcb.m_designSettings ∧
    ((doNetClass env nc s).1 = false ↔ nc.undersized s.m_pcb.m_designSettings) := by
  have hm := doNetClass_markers env nc s
  have he := emitted_append s _ _ hm
  rw [he]
  refine ⟨hm, ?_, ?_, ?_, ?_, ?_, ?_, ?_⟩
  · unfold netclassViolations
    simp only [List.filter_append]
    repeat' split
    all_goals simp [MARKER_PCB.code]
  · unfold netclassViolations
    simp only [List.filter_append]
    repeat' split
    all_goals simp [MARKER_PCB.code]
  · unfold netclassViolations
    simp only [List.filter_append]
    repeat' split
    all_goals simp [MARKER_PCB.code]
  · unfold netclassViolations
    simp only [List.filter_append]
    repeat' split
    all_goals simp [MARKER_PCB.code]
  · unfold netclassViolations
    simp only [List.filter_append]
    repeat' split
    all_goals simp [MARKER_PCB.code]
  · unfold netclassViolations NETCLASS.undersizedCount
    simp only [List.length_append]
    repeat' split
    all_goals simp
  · rw [doNetClass_ret]
    simp

/-- C2: for every board, `testNetClasses` examines the default netclass and then every named
netclass, without stopping at a failure: the violations it adds to the sink are the
violations of `doNetClass` for the default netclass followed by those for each named
netclass in table order, and it returns pass exactly when no netclass has an undersized
field. -/
theorem testNetClasses_reports_every_netclass (env : Env) (s : DRC) :
    (testNetClasses env s).2.markers = s.markers ++
      (s.m_pcb.m_designSettings.m_NetClasses.m_Default ::
        s.m_pcb.m_designSettings.m_NetClasses.m_NetClasses.map Prod.snd).flatMap
        (fun nc => emitted s (doNetClass env nc s).2) ∧
    ((testNetClasses env s).1 = true ↔
      ∀ nc ∈ (s.m_pcb.m_designSettings.m_NetClasses.m_Default ::
        s.m_pcb.m_designSettings.m_NetClasses.m_NetClasses.map Prod.snd),
        ¬ nc.undersized s.m_pcb.m_designSettings) := by
  refine ⟨?_, testNetClasses_ret env s⟩
  rw [testNetClasses_markers]
  congr 2
  funext nc
  exact (emitted_append s _ _ (doNetClass_markers env nc s)).symm

/-- C3: for every board and every toggle configuration, when the netclass validator fails
`RunTests` stops there: its final state is the state that `testNetClasses` left, so the
violations of the run are exactly those of `testNetClasses`, each of them of a netclass kind,
and the unconnected list and the board are unchanged. -/
theorem RunTests_stops_after_failed_netclasses (env : Env) (s : DRC)
    (hfail : (testNetClasses env s).1 = false) :
    RunTests env s = (testNetClasses env s).2 ∧
    emitted s (RunTests env s) = emitted s (testNetClasses env s).2 ∧
    (∀ m ∈ emitted s (RunTests env s),
      m.code = DRCE_NETCLASS_TRACKWIDTH ∨ m.code = DRCE_NETCLASS_VIASIZE ∨
      m.code = DRCE_NETCLASS_VIADRILLSIZE ∨ m.code = DRCE_NETCLASS_uVIASIZE ∨
      m.code = DRCE_NETCLASS_uVIADRILLSIZE) ∧
    (RunTests env s).m_unconnected = s.m_unconnected ∧
    (RunTests env s).m_pcb = s.m_pcb := by
  have hrun : RunTests env s = (testNetClasses env s).2 := by
    unfold RunTests
    simp [hfail]
  refine ⟨hrun, by rw [hrun], ?_, ?_, ?_⟩
  · intro m hm
    rw [hrun, emitted_append s _ _ (testNetClasses_markers env s)] at hm
    obtain ⟨nc, _, hnc⟩ := List.mem_flatMap.mp hm
    exact netclassViolations_code env _ nc m hnc
  · rw [hrun, testNetClasses_eq]
  · rw [hrun, testNetClasses_eq]

/-- C3, instance: the default netclass has track width 0.15 mm under a global minimum of
0.2 mm, on a board with two clashing pads and every toggle on: the run reports the track
width of the netclass and nothing else (with a track width of 0.25 mm the same board gets
its pad violation). -/
theorem RunTests_stops_after_failed_netclasses_witness :
    (testNetClasses sampleEnv (newDRC (sampleBoard (sampleSettings 150000)
      [samplePad 1 1 "1" 0 1 0 0, samplePad 2 2 "2" 5 1 0 0] [] []))).1 = false ∧
    RunTests sampleEnv (newDRC (sampleBoard (sampleSettings 150000)
        [samplePad 1 1 "1" 0 1 0 0, samplePad 2 2 "2" 5 1 0 0] [] []))
      = (testNetClasses sampleEnv (newDRC (sampleBoard (sampleSettings 150000)
        [samplePad 1 1 "1" 0 1 0 0, samplePad 2 2 "2" 5 1 0 0] [] []))).2 ∧
    (emitted (newDRC (sampleBoard (sampleSettings 150000)
        [samplePad 1 1 "1" 0 1 0 0, samplePad 2 2 "2" 5 1 0 0] [] []))
      (RunTests sampleEnv (newDRC (sampleBoard (sampleSettings 150000)
        [samplePad 1 1 "1" 0 1 0 0, samplePad 2 2 "2" 5 1 0 0] [] [])))).map MARKER_PCB.code
      = [DRCE_NETCLASS_TRACKWIDTH] ∧
    (emitted (newDRC (sampleBoard (sampleSettings 250000)
        [samplePad 1 1 "1" 0 1 0 0, samplePad 2 2 "2" 5 1 0 0] [] []))
      (RunTests sampleEnv (newDRC (sampleBoard (sampleSettings 250000)
        [samplePad 1 1 "1" 0 1 0 0, samplePad 2 2 "2" 5 1 0 0] [] [])))).map MARKER_PCB.code
      = [DRCE_PAD_NEAR_PAD1] :=
  ⟨by decide,
   (RunTests_stops_after_failed_netclasses sampleEnv
      (newDRC (sampleBoard (sampleSettings 150000)
        [samplePad 1 1 "1" 0 1 0 0, samplePad 2 2 "2" 5 1 0 0] [] [])) (by decide)).1,
   by decide, by decide⟩

/-! ## Pad to pad clearance tester: proofs -/

theorem doPadToPadsDrcLoop_eq (env : Env) (aRefPad : D_PAD) (layerMask : LSET) (x_limit : Int)
    (dummypad : D_PAD) (pads : List D_PAD) (s : DRC) :
    doPadToPadsDrcLoop env aRefPad layerMask x_limit dummypad pads s =
      match padSweep env aRefPad layerMask x_limit dummypad pads with
      | none => (true, s)
      | some marker => (false, { s with m_currentMarker := some marker }) := by
  induction pads generalizing dummypad with
  | nil => simp [doPadToPadsDrcLoop, padSweep]
  | cons pad rest ih =>
    simp only [doPadToPadsDrcLoop, padSweep]
    cases hb : doPadToPadsDrcBody env aRefPad layerMask x_limit dummypad pad with
    | next d => simpa using ih d
    | stop => simp
    | fail marker => simp

theorem doPadToPadsDrc_eq (env : Env) (aRefPad : D_PAD) (pads : List D_PAD) (x_limit : Int)
    (s : DRC) :
    doPadToPadsDrc env aRefPad pads x_limit s =
      match padSweep env aRefPad (aRefPad.m_layerMask &&& env.AllCuMask) x_limit
          (initialDummyPad env s.m_pcb) pads with
      | none => (true, s)
      | some marker => (false, { s with m_currentMarker := some marker }) := by
  unfold doPadToPadsDrc
  exact doPadToPadsDrcLoop_eq _ _ _ _ _ _ _

theorem testPad2PadLoop_eq (env : Env) (max_size : Int) (pads : List D_PAD) (s : DRC) :
    testPad2PadLoop env max_size pads s =
      { s with
        markers := s.markers ++ sweepMarkers env s.m_pcb max_size pads
        m_currentMarker :=
          if sweepMarkers env s.m_pcb max_size pads = [] then s.m_currentMarker else none } := by
  induction pads generalizing s with
  | nil => simp [testPad2PadLoop, sweepMarkers]
  | cons pad rest ih =>
    simp only [testPad2PadLoop, sweepMarkers, refPadMarker]
    rw [doPadToPadsDrc_eq]
    obtain hm | ⟨marker, hm⟩ :
        padSweep env pad (pad.m_layerMask &&& env.AllCuMask) (padCutoff env max_size pad)
          (initialDummyPad env s.m_pcb) (pad :: rest) = none ∨
        ∃ marker, padSweep env pad (pad.m_layerMask &&& env.AllCuMask)
          (padCutoff env max_size pad)
          (initialDummyPad env s.m_pcb) (pad :: rest) = some marker := by
      cases padSweep env pad (pad.m_layerMask &&& env.AllCuMask) (padCutoff env max_size pad)
          (initialDummyPad env s.m_pcb) (pad :: rest) <;> simp
    · simp only [hm]
      simp [ih]
    · simp only [hm]
      simp [ih, flushCurrentMarker, addMarkerToPcb, List.append_assoc]

theorem testPad2Pad_emitted (env : Env) (s : DRC) :
    emitted s (testPad2Pad env s) =
      sweepMarkers env s.m_pcb (maxPadSize env (env.GetSortedPadListByXthenYCoord s.m_pcb) 0)
        (env.GetSortedPadListByXthenYCoord s.m_pcb) := by
  apply emitted_append
  unfold testPad2Pad
  rw [testPad2PadLoop_eq]

theorem padPairTest_fail (env : Env) (aRefPad : D_PAD) (dummypad pad : D_PAD)
    (marker : MARKER_PCB)
    (h : padPairTest env aRefPad (aRefPad.m_layerMask &&& env.AllCuMask) dummypad pad
      = .fail marker) :
    ((marker = MARKER_PCB.ofPad pad (BOARD_ITEM.pad aRefPad) DRCE_HOLE_NEAR_PAD
        ∨ marker = MARKER_PCB.ofPad aRefPad (BOARD_ITEM.pad pad) DRCE_HOLE_NEAR_PAD)
      ∧ holeTestApplies env pad aRefPad ∧ holesAccepted pad aRefPad = false) ∨
    (marker = MARKER_PCB.ofPad aRefPad (BOARD_ITEM.pad pad) DRCE_PAD_NEAR_PAD1
      ∧ ¬ holeTestApplies env pad aRefPad
      ∧ ¬ (pad.m_NetCode ≠ 0 ∧ aRefPad.m_NetCode = pad.m_NetCode)
      ∧ ¬ (pad.m_Parent = aRefPad.m_Parent ∧ pad.m_name = aRefPad.m_name)
      ∧ env.checkClearancePadToPad aRefPad pad = false) := by
  unfold padPairTest at h
  unfold holeTestApplies
  by_cases hb : (pad.m_layerMask &&& (aRefPad.m_layerMask &&& env.AllCuMask)) = 0
      ∧ (pad.m_layerMask &&& env.AllCuMask) ≠ 0 ∧ (aRefPad.m_layerMask &&& env.AllCuMask) ≠ 0
  · left
    rw [if_pos hb] at h
    by_cases ha : holesAccepted pad aRefPad = true
    · simp [ha] at h
    · simp only [Bool.not_eq_true] at ha
      refine ⟨?_, hb, ha⟩
      simp only [ha] at h
      repeat' split at h
      all_goals first
        | (injection h with h; subst h; simp)
        | (cases h)
  · right
    rw [if_neg hb] at h
    split_ifs at h with h1 h2 h3 h4
    simp only [PadFlow.fail.injEq] at h
    refine ⟨h.symm, hb, h1, ?_, h4⟩
    simpa [PadNameEqual] using h2

theorem padSweep_some (env : Env) (aRefPad : D_PAD) (layerMask : LSET) (x_limit : Int)
    (dummypad : D_PAD) (pads : List D_PAD) (marker : MARKER_PCB)
    (h : padSweep env aRefPad layerMask x_limit dummypad pads = some marker) :
    ∃ pad ∈ pads, ∃ d, padPairTest env aRefPad layerMask d pad = .fail marker := by
  induction pads generalizing dummypad with
  | nil => simp [padSweep] at h
  | cons pad rest ih =>
    simp only [padSweep] at h
    cases hb : doPadToPadsDrcBody env aRefPad layerMask x_limit dummypad pad with
    | next d =>
      rw [hb] at h
      obtain ⟨q, hq, d1, hd⟩ := ih d h
      exact ⟨q, List.mem_cons_of_mem _ hq, d1, hd⟩
    | stop => rw [hb] at h; simp at h
    | fail m =>
      rw [hb] at h
      simp only [Option.some.injEq] at h
      subst h
      refine ⟨pad, List.mem_cons_self _ _, dummypad, ?_⟩
      unfold doPadToPadsDrcBody at hb
      split_ifs at hb
      exact hb

theorem sweepMarkers_mem (env : Env) (pcb : BOARD) (max_size : Int) (pads : List D_PAD)
    (marker : MARKER_PCB) (h : marker ∈ sweepMarkers env pcb max_size pads) :
    ∃ aRefPad ∈ pads, ∃ pad ∈ pads, ∃ d,
      padPairTest env aRefPad (aRefPad.m_layerMask &&& env.AllCuMask) d pad = .fail marker := by
  induction pads with
  | nil => simp [sweepMarkers] at h
  | cons p rest ih =>
    simp only [sweepMarkers, List.mem_append, Option.mem_toList] at h
    rcases h with h | h
    · obtain ⟨q, hq, d, hd⟩ := padSweep_some _ _ _ _ _ _ _ h
      exact ⟨p, List.mem_cons_self _ _, q, hq, d, hd⟩
    · obtain ⟨r, hr, q, hq, d, hd⟩ := ih h
      exact ⟨r, List.mem_cons_of_mem _ hr, q, List.mem_cons_of_mem _ hq, d, hd⟩

theorem doPadToPadsDrc_fail_marker (env : Env) (aRefPad : D_PAD) (pads : List D_PAD)
    (x_limit : Int) (s : DRC) (h : (doPadToPadsDrc env aRefPad pads x_limit s).1 = false) :
    ∃ marker, (doPadToPadsDrc env aRefPad pads x_limit s).2.m_currentMarker = some marker ∧
      ∃ pad ∈ pads, ∃ d,
        padPairTest env aRefPad (aRefPad.m_layerMask &&& env.AllCuMask) d pad = .fail marker := by
  rw [doPadToPadsDrc_eq] at h ⊢
  cases hm : padSweep env aRefPad (aRefPad.m_layerMask &&& env.AllCuMask) x_limit
      (initialDummyPad env s.m_pcb) pads with
  | none => rw [hm] at h; simp at h
  | some marker =>
    exact ⟨marker, by simp, padSweep_some _ _ _ _ _ _ _ hm⟩

theorem holeTestApplies_symm (env : Env) (a b : D_PAD) (h : holeTestApplies env a b) :
    holeTestApplies env b a := by
  unfold holeTestApplies at h ⊢
  refine ⟨?_, h.2.2, h.2.1⟩
  rw [← h.1, ← Nat.land_assoc, ← Nat.land_assoc, Nat.land_comm b.m_layerMask]

/-- What a failed pair test tells about a marker of two pads `X` and `Y`: the pair is the
reference pad and the candidate, in one of the two orders; a marker of kind
`DRCE_PAD_NEAR_PAD1` needs two pads that are not in one non zero net and not equally named
pads of one footprint, and a marker of kind `DRCE_HOLE_NEAR_PAD` needs two pads on disjoint
copper layers whose holes are not accepted. -/
theorem pair_marker_conditions (env : Env) (aRefPad dummypad pad X Y : D_PAD) (code : DRCE)
    (h : padPairTest env aRefPad (aRefPad.m_layerMask &&& env.AllCuMask) dummypad pad
      = .fail (MARKER_PCB.ofPad X (BOARD_ITEM.pad Y) code)) :
    (code = DRCE_PAD_NEAR_PAD1 ∧ ¬ holeTestApplies env X Y
      ∧ ¬ (X.m_NetCode ≠ 0 ∧ X.m_NetCode = Y.m_NetCode)
      ∧ ¬ (X.m_Parent = Y.m_Parent ∧ X.m_name = Y.m_name)) ∨
    (code = DRCE_HOLE_NEAR_PAD ∧ holeTestApplies env X Y
      ∧ (holesAccepted X Y = false ∨ holesAccepted Y X = false)) := by
  rcases padPairTest_fail env aRefPad dummypad pad _ h with ⟨hm, ha, hacc⟩ | ⟨hm, hb, hn, hp, _⟩
  · right
    rcases hm with hm | hm
    · simp only [MARKER_PCB.ofPad.injEq, BOARD_ITEM.pad.injEq] at hm
      obtain ⟨rfl, rfl, rfl⟩ := hm
      exact ⟨rfl, ha, Or.inl hacc⟩
    · simp only [MARKER_PCB.ofPad.injEq, BOARD_ITEM.pad.injEq] at hm
      obtain ⟨rfl, rfl, rfl⟩ := hm
      exact ⟨rfl, holeTestApplies_symm env _ _ ha, Or.inr hacc⟩
  · left
    simp only [MARKER_PCB.ofPad.injEq, BOARD_ITEM.pad.injEq] at hm
    obtain ⟨rfl, rfl, rfl⟩ := hm
    refine ⟨rfl, fun hc => hb (holeTestApplies_symm env _ _ hc), ?_, ?_⟩
    · rintro ⟨h1, h2⟩
      exact hn ⟨fun h0 => h1 (h2.trans h0), h2⟩
    · rintro ⟨h1, h2⟩
      exact hp ⟨h1.symm, h2.symm⟩

theorem testPad2Pad_pair_marker (env : Env) (s : DRC) (X Y : D_PAD) (code : DRCE)
    (h : MARKER_PCB.ofPad X (BOARD_ITEM.pad Y) code ∈ emitted s (testPad2Pad env s)) :
    (code = DRCE_PAD_NEAR_PAD1 ∧ ¬ holeTestApplies env X Y
      ∧ ¬ (X.m_NetCode ≠ 0 ∧ X.m_NetCode = Y.m_NetCode)
      ∧ ¬ (X.m_Parent = Y.m_Parent ∧ X.m_name = Y.m_name)) ∨
    (code = DRCE_HOLE_NEAR_PAD ∧ holeTestApplies env X Y
      ∧ (holesAccepted X Y = false ∨ holesAccepted Y X = false)) := by
  rw [testPad2Pad_emitted] at h
  obtain ⟨r, _, q, _, d, hd⟩ := sweepMarkers_mem _ _ _ _ _ h
  exact pair_marker_conditions env r d q X Y code hd

theorem doPadToPadsDrc_pair_marker (env : Env) (aRefPad : D_PAD) (pads : List D_PAD)
    (x_limit : Int) (s : DRC) (X Y : D_PAD) (code : DRCE)
    (hfail : (doPadToPadsDrc env aRefPad pads x_limit s).1 = false)
    (h : (doPadToPadsDrc env aRefPad pads x_limit s).2.m_currentMarker
      = some (MARKER_PCB.ofPad X (BOARD_ITEM.pad Y) code)) :
    (code = DRCE_PAD_NEAR_PAD1 ∧ ¬ holeTestApplies env X Y
      ∧ ¬ (X.m_NetCode ≠ 0 ∧ X.m_NetCode = Y.m_NetCode)
      ∧ ¬ (X.m_Parent = Y.m_Parent ∧ X.m_name = Y.m_name)) ∨
    (code = DRCE_HOLE_NEAR_PAD ∧ holeTestApplies env X Y
      ∧ (holesAccepted X Y = false ∨ holesAccepted Y X = false)) := by
  obtain ⟨marker, hm, q, _, d, hd⟩ := doPadToPadsDrc_fail_marker env aRefPad pads x_limit s hfail
  rw [hm] at h
  simp only [Option.some.injEq] at h
  subst h
  exact pair_marker_conditions env aRefPad d q X Y code hd

/-! ## Claims on the pad to pad clearance tester -/

/-- C4, counterexample: two pads of different footprints on the same copper layer, 5 units
apart, both with net code 0: the sweep reports a `DRCE_PAD_NEAR_PAD1` violation for this pair
of equal net codes. -/
theorem pads_of_net_code_zero_clash :
    (samplePad 1 1 "1" 0 1 0 0).m_NetCode = (samplePad 2 2 "2" 5 1 0 0).m_NetCode ∧
    emitted (padBoardDRC [samplePad 1 1 "1" 0 1 0 0, samplePad 2 2 "2" 5 1 0 0])
      (testPad2Pad sampleEnv (padBoardDRC [samplePad 1 1 "1" 0 1 0 0, samplePad 2 2 "2" 5 1 0 0]))
      = [MARKER_PCB.ofPad (samplePad 1 1 "1" 0 1 0 0)
          (BOARD_ITEM.pad (samplePad 2 2 "2" 5 1 0 0)) DRCE_PAD_NEAR_PAD1] := by
  decide

/-- C4 (amended): for every pair of pads with the same non zero net code, and whatever the
clearance predicate returns, the pad to pad tester never reports a `DRCE_PAD_NEAR_PAD1`
violation for that pair, in either order: `doPadToPadsDrc` never leaves such a marker in the
slot when it fails, and `testPad2Pad` never adds one to the sink. -/
theorem same_net_pads_never_clash (env : Env) (s : DRC) (A B : D_PAD)
    (hnet : A.m_NetCode = B.m_NetCode) (hnz : A.m_NetCode ≠ 0) :
    (∀ (aRefPad : D_PAD) (pads : List D_PAD) (x_limit : Int),
      (doPadToPadsDrc env aRefPad pads x_limit s).1 = false →
        (doPadToPadsDrc env aRefPad pads x_limit s).2.m_currentMarker
          ≠ some (MARKER_PCB.ofPad A (BOARD_ITEM.pad B) DRCE_PAD_NEAR_PAD1) ∧
        (doPadToPadsDrc env aRefPad pads x_limit s).2.m_currentMarker
          ≠ some (MARKER_PCB.ofPad B (BOARD_ITEM.pad A) DRCE_PAD_NEAR_PAD1)) ∧
    MARKER_PCB.ofPad A (BOARD_ITEM.pad B) DRCE_PAD_NEAR_PAD1 ∉ emitted s (testPad2Pad env s) ∧
    MARKER_PCB.ofPad B (BOARD_ITEM.pad A) DRCE_PAD_NEAR_PAD1 ∉ emitted s (testPad2Pad env s) := by
  have hnzB : B.m_NetCode ≠ 0 := hnet ▸ hnz
  refine ⟨fun aRefPad pads x_limit hfail => ⟨fun h => ?_, fun h => ?_⟩, fun h => ?_, fun h => ?_⟩
  · rcases doPadToPadsDrc_pair_marker env aRefPad pads x_limit s A B _ hfail h with
      ⟨_, _, hn, _⟩ | ⟨hc, _⟩
    · exact hn ⟨hnz, hnet⟩
    · cases hc
  · rcases doPadToPadsDrc_pair_marker env aRefPad pads x_limit s B A _ hfail h with
      ⟨_, _, hn, _⟩ | ⟨hc, _⟩
    · exact hn ⟨hnzB, hnet.symm⟩
    · cases hc
  · rcases testPad2Pad_pair_marker env s A B _ h with ⟨_, _, hn, _⟩ | ⟨hc, _⟩
    · exact hn ⟨hnz, hnet⟩
    · cases hc
  · rcases testPad2Pad_pair_marker env s B A _ h with ⟨_, _, hn, _⟩ | ⟨hc, _⟩
    · exact hn ⟨hnzB, hnet.symm⟩
    · cases hc

/-- C4 (amended), instance: the two pads of the counterexample, now both in net 7. -/
theorem same_net_pads_never_clash_witness :
    (samplePad 1 1 "1" 0 1 0 7).m_NetCode = (samplePad 2 2 "2" 5 1 0 7).m_NetCode ∧
    (samplePad 1 1 "1" 0 1 0 7).m_NetCode ≠ 0 ∧
    MARKER_PCB.ofPad (samplePad 1 1 "1" 0 1 0 7) (BOARD_ITEM.pad (samplePad 2 2 "2" 5 1 0 7))
      DRCE_PAD_NEAR_PAD1 ∉
      emitted (padBoardDRC [samplePad 1 1 "1" 0 1 0 7, samplePad 2 2 "2" 5 1 0 7])
        (testPad2Pad sampleEnv
          (padBoardDRC [samplePad 1 1 "1" 0 1 0 7, samplePad 2 2 "2" 5 1 0 7])) :=
  ⟨by decide, by decide,
   (same_net_pads_never_clash sampleEnv
      (padBoardDRC [samplePad 1 1 "1" 0 1 0 7, samplePad 2 2 "2" 5 1 0 7])
      (samplePad 1 1 "1" 0 1 0 7) (samplePad 2 2 "2" 5 1 0 7) (by decide) (by decide)).2.1⟩

theorem holesAccepted_of_same_hole (A B : D_PAD) (hpos : A.m_Pos = B.m_Pos)
    (hdrill : A.m_Drill = B.m_Drill) (hshape : A.m_drillShape = B.m_drillShape)
    (horient : A.m_drillShape ≠ PAD_DRILL_SHAPE_CIRCLE → A.m_Orient = B.m_Orient) :
    holesAccepted A B = true ∧ holesAccepted B A = true := by
  unfold holesAccepted
  by_cases hc : A.m_drillShape = PAD_DRILL_SHAPE_CIRCLE
  · have hcB : B.m_drillShape = PAD_DRILL_SHAPE_CIRCLE := hshape ▸ hc
    simp [hpos, hdrill, hshape, hc, hcB]
  · have hcB : ¬ B.m_drillShape = PAD_DRILL_SHAPE_CIRCLE := hshape ▸ hc
    simp [hpos, hdrill, hshape, hcB, horient hc]

/-- C5: for every pair of pads with identical position, identical drill size and identical
drill shape, and with identical orientation when the drill shape is not circular, and whatever
the clearance predicate returns, no `DRCE_HOLE_NEAR_PAD` violation is reported for the pair,
in either order: `doPadToPadsDrc` never leaves such a marker in the slot when it fails, and
`testPad2Pad` never adds one to the sink. -/
theorem coincident_holes_never_reported (env : Env) (s : DRC) (A B : D_PAD)
    (hpos : A.m_Pos = B.m_Pos) (hdrill : A.m_Drill = B.m_Drill)
    (hshape : A.m_drillShape = B.m_drillShape)
    (horient : A.m_drillShape ≠ PAD_DRILL_SHAPE_CIRCLE → A.m_Orient = B.m_Orient) :
    (∀ (aRefPad : D_PAD) (pads : List D_PAD) (x_limit : Int),
      (doPadToPadsDrc env aRefPad pads x_limit s).1 = false →
        (doPadToPadsDrc env aRefPad pads x_limit s).2.m_currentMarker
          ≠ some (MARKER_PCB.ofPad A (BOARD_ITEM.pad B) DRCE_HOLE_NEAR_PAD) ∧
        (doPadToPadsDrc env aRefPad pads x_limit s).2.m_currentMarker
          ≠ some (MARKER_PCB.ofPad B (BOARD_ITEM.pad A) DRCE_HOLE_NEAR_PAD)) ∧
    MARKER_PCB.ofPad A (BOARD_ITEM.pad B) DRCE_HOLE_NEAR_PAD ∉ emitted s (testPad2Pad env s) ∧
    MARKER_PCB.ofPad B (BOARD_ITEM.pad A) DRCE_HOLE_NEAR_PAD ∉ emitted s (testPad2Pad env s) := by
  obtain ⟨hAB, hBA⟩ := holesAccepted_of_same_hole A B hpos hdrill hshape horient
  refine ⟨fun aRefPad pads x_limit hfail => ⟨fun h => ?_, fun h => ?_⟩, fun h => ?_, fun h => ?_⟩
  · rcases doPadToPadsDrc_pair_marker env aRefPad pads x_limit s A B _ hfail h with
      ⟨hc, _⟩ | ⟨_, _, hacc⟩
    · cases hc
    · rcases hacc with hacc | hacc <;> simp_all
  · rcases doPadToPadsDrc_pair_marker env aRefPad pads x_limit s B A _ hfail h with
      ⟨hc, _⟩ | ⟨_, _, hacc⟩
    · cases hc
    · rcases hacc with hacc | hacc <;> simp_all
  · rcases testPad2Pad_pair_marker env s A B _ h with ⟨hc, _⟩ | ⟨_, _, hacc⟩
    · cases hc
    · rcases hacc with hacc | hacc <;> simp_all
  · rcases testPad2Pad_pair_marker env s B A _ h with ⟨hc, _⟩ | ⟨_, _, hacc⟩
    · cases hc
    · rcases hacc with hacc | hacc <;> simp_all

/-- C5, instance: a pad on the front copper layer and a pad on the back copper layer of
another footprint, at the same position and with the same round drill of diameter 4. -/
theorem coincident_holes_never_reported_witness :
    (samplePad 1 1 "1" 0 1 4 0).m_Pos = (samplePad 2 2 "2" 0 2147483648 4 0).m_Pos ∧
    (samplePad 1 1 "1" 0 1 4 0).m_Drill = (samplePad 2 2 "2" 0 2147483648 4 0).m_Drill ∧
    (samplePad 1 1 "1" 0 1 4 0).m_drillShape
      = (samplePad 2 2 "2" 0 2147483648 4 0).m_drillShape ∧
    MARKER_PCB.ofPad (samplePad 2 2 "2" 0 2147483648 4 0)
      (BOARD_ITEM.pad (samplePad 1 1 "1" 0 1 4 0)) DRCE_HOLE_NEAR_PAD ∉
      emitted (padBoardDRC [samplePad 1 1 "1" 0 1 4 0, samplePad 2 2 "2" 0 2147483648 4 0])
        (testPad2Pad sampleEnv
          (padBoardDRC [samplePad 1 1 "1" 0 1 4 0, samplePad 2 2 "2" 0 2147483648 4 0])) :=
  ⟨by decide, by decide, by decide,
   (coincident_holes_never_reported sampleEnv
      (padBoardDRC [samplePad 1 1 "1" 0 1 4 0, samplePad 2 2 "2" 0 2147483648 4 0])
      (samplePad 1 1 "1" 0 1 4 0) (samplePad 2 2 "2" 0 2147483648 4 0)
      (by decide) (by decide) (by decide) (by decide)).2.2⟩

/-- C6, counterexample: two pads of one footprint with the same pad name, the first on the
front copper layer only, the second on the back copper layer only with a drill of
diameter 4, 5 units apart: the sweep reports a `DRCE_HOLE_NEAR_PAD` violation for the pair,
because the hole tests of pads on disjoint copper layers come before the skip rule of
equally named pads. -/
theorem equally_named_pads_hole_clash :
    (samplePad 1 1 "1" 0 1 0 0).m_Parent = (samplePad 2 1 "1" 5 2147483648 4 0).m_Parent ∧
    PadNameEqual (samplePad 1 1 "1" 0 1 0 0) (samplePad 2 1 "1" 5 2147483648 4 0) = true ∧
    emitted (padBoardDRC [samplePad 1 1 "1" 0 1 0 0, samplePad 2 1 "1" 5 2147483648 4 0])
      (testPad2Pad sampleEnv
        (padBoardDRC [samplePad 1 1 "1" 0 1 0 0, samplePad 2 1 "1" 5 2147483648 4 0]))
      = [MARKER_PCB.ofPad (samplePad 2 1 "1" 5 2147483648 4 0)
          (BOARD_ITEM.pad (samplePad 1 1 "1" 0 1 0 0)) DRCE_HOLE_NEAR_PAD] := by
  decide

/-- C6 (amended): for every pair of pads of the same footprint with equal pad names, whatever
their positions, drills and nets and whatever the clearance predicate returns, the pad to pad
tester reports no `DRCE_PAD_NEAR_PAD1` violation for the pair, and it reports no violation of
any kind for the pair when the two pads share a copper layer or one of them is on no copper
layer; this holds for the marker that a failed `doPadToPadsDrc` leaves in the slot and for
the markers that `testPad2Pad` adds to the sink, in either order of the pair. -/
theorem equally_named_pads_of_a_footprint (env : Env) (s : DRC) (A B : D_PAD)
    (hparent : A.m_Parent = B.m_Parent) (hname : PadNameEqual A B = true) :
    (∀ (aRefPad : D_PAD) (pads : List D_PAD) (x_limit : Int),
      (doPadToPadsDrc env aRefPad pads x_limit s).1 = false →
        (doPadToPadsDrc env aRefPad pads x_limit s).2.m_currentMarker
          ≠ some (MARKER_PCB.ofPad A (BOARD_ITEM.pad B) DRCE_PAD_NEAR_PAD1) ∧
        (doPadToPadsDrc env aRefPad pads x_limit s).2.m_currentMarker
          ≠ some (MARKER_PCB.ofPad B (BOARD_ITEM.pad A) DRCE_PAD_NEAR_PAD1)) ∧
    MARKER_PCB.ofPad A (BOARD_ITEM.pad B) DRCE_PAD_NEAR_PAD1 ∉ emitted s (testPad2Pad env s) ∧
    MARKER_PCB.ofPad B (BOARD_ITEM.pad A) DRCE_PAD_NEAR_PAD1 ∉ emitted s (testPad2Pad env s) ∧
    (((A.m_layerMask &&& B.m_layerMask &&& env.AllCuMask) ≠ 0
        ∨ (A.m_layerMask &&& env.AllCuMask) = 0 ∨ (B.m_layerMask &&& env.AllCuMask) = 0) →
      ∀ code : DRCE,
        (∀ (aRefPad : D_PAD) (pads : List D_PAD) (x_limit : Int),
          (doPadToPadsDrc env aRefPad pads x_limit s).1 = false →
            (doPadToPadsDrc env aRefPad pads x_limit s).2.m_currentMarker
              ≠ some (MARKER_PCB.ofPad A (BOARD_ITEM.pad B) code) ∧
            (doPadToPadsDrc env aRefPad pads x_limit s).2.m_currentMarker
              ≠ some (MARKER_PCB.ofPad B (BOARD_ITEM.pad A) code)) ∧
        MARKER_PCB.ofPad A (BOARD_ITEM.pad B) code ∉ emitted s (testPad2Pad env s) ∧
        MARKER_PCB.ofPad B (BOARD_ITEM.pad A) code ∉ emitted s (testPad2Pad env s)) := by
  have hn : A.m_name = B.m_name := by simpa [PadNameEqual] using hname
  have key : ∀ code, ∀ X Y : D_PAD, (X = A ∧ Y = B) ∨ (X = B ∧ Y = A) →
      ((code = DRCE_PAD_NEAR_PAD1 ∧ ¬ holeTestApplies env X Y
        ∧ ¬ (X.m_NetCode ≠ 0 ∧ X.m_NetCode = Y.m_NetCode)
        ∧ ¬ (X.m_Parent = Y.m_Parent ∧ X.m_name = Y.m_name)) ∨
      (code = DRCE_HOLE_NEAR_PAD ∧ holeTestApplies env X Y
        ∧ (holesAccepted X Y = false ∨ holesAccepted Y X = false))) →
      code = DRCE_HOLE_NEAR_PAD ∧ holeTestApplies env A B := by
    intro code X Y hXY hc
    rcases hc with ⟨_, _, _, hp⟩ | ⟨hc, ha, _⟩
    · rcases hXY with ⟨rfl, rfl⟩ | ⟨rfl, rfl⟩
      · exact absurd ⟨hparent, hn⟩ hp
      · exact absurd ⟨hparent.symm, hn.symm⟩ hp
    · rcases hXY with ⟨rfl, rfl⟩ | ⟨rfl, rfl⟩
      · exact ⟨hc, ha⟩
      · exact ⟨hc, holeTestApplies_symm env _ _ ha⟩
  refine ⟨fun aRefPad pads x_limit hfail => ⟨fun h => ?_, fun h => ?_⟩, fun h => ?_, fun h => ?_,
    fun hshare code => ?_⟩
  · have := (key _ A B (Or.inl ⟨rfl, rfl⟩)
      (doPadToPadsDrc_pair_marker env aRefPad pads x_limit s A B _ hfail h)).1
    cases this
  · have := (key _ B A (Or.inr ⟨rfl, rfl⟩)
      (doPadToPadsDrc_pair_marker env aRefPad pads x_limit s B A _ hfail h)).1
    cases this
  · have := (key _ A B (Or.inl ⟨rfl, rfl⟩) (testPad2Pad_pair_marker env s A B _ h)).1
    cases this
  · have := (key _ B A (Or.inr ⟨rfl, rfl⟩) (testPad2Pad_pair_marker env s B A _ h)).1
    cases this
  · have hno : ¬ holeTestApplies env A B := by
      unfold holeTestApplies
      rintro ⟨h1, h2, h3⟩
      rcases hshare with h | h | h
      · exact h (by rw [Nat.land_assoc]; exact h1)
      · exact h2 h
      · exact h3 h
    refine ⟨fun aRefPad pads x_limit hfail => ⟨fun h => ?_, fun h => ?_⟩, fun h => ?_, fun h => ?_⟩
    · exact hno (key _ A B (Or.inl ⟨rfl, rfl⟩)
        (doPadToPadsDrc_pair_marker env aRefPad pads x_limit s A B _ hfail h)).2
    · exact hno (key _ B A (Or.inr ⟨rfl, rfl⟩)
        (doPadToPadsDrc_pair_marker env aRefPad pads x_limit s B A _ hfail h)).2
    · exact hno (key _ A B (Or.inl ⟨rfl, rfl⟩) (testPad2Pad_pair_marker env s A B _ h)).2
    · exact hno (key _ B A (Or.inr ⟨rfl, rfl⟩) (testPad2Pad_pair_marker env s B A _ h)).2

/-- C6 (amended), instance: two overlapping pads of one footprint with the pad name 1, both
on the front copper layer, 5 units apart, in no net. -/
theorem equally_named_pads_of_a_footprint_witness :
    (samplePad 1 1 "1" 0 1 0 0).m_Parent = (samplePad 2 1 "1" 5 1 0 0).m_Parent ∧
    PadNameEqual (samplePad 1 1 "1" 0 1 0 0) (samplePad 2 1 "1" 5 1 0 0) = true ∧
    MARKER_PCB.ofPad (samplePad 1 1 "1" 0 1 0 0) (BOARD_ITEM.pad (samplePad 2 1 "1" 5 1 0 0))
      DRCE_PAD_NEAR_PAD1 ∉
      emitted (padBoardDRC [samplePad 1 1 "1" 0 1 0 0, samplePad 2 1 "1" 5 1 0 0])
        (testPad2Pad sampleEnv
          (padBoardDRC [samplePad 1 1 "1" 0 1 0 0, samplePad 2 1 "1" 5 1 0 0])) :=
  ⟨by decide, by decide,
   (equally_named_pads_of_a_footprint sampleEnv
      (padBoardDRC [samplePad 1 1 "1" 0 1 0 0, samplePad 2 1 "1" 5 1 0 0])
      (samplePad 1 1 "1" 0 1 0 0) (samplePad 2 1 "1" 5 1 0 0) (by decide) (by decide)).2.1⟩

/-! ## The cutoff of the pad sweep: proofs -/

theorem setHoleProbe_setHoleProbe (d p q : D_PAD) :
    setHoleProbe (setHoleProbe d p) q = setHoleProbe d q := rfl

theorem padPairTest_next_probe (env : Env) (aRefPad : D_PAD) (layerMask : LSET)
    (d0 d pad d1 : D_PAD) (hP : ∀ q, setHoleProbe d q = setHoleProbe d0 q)
    (h : padPairTest env aRefPad layerMask d pad = .next d1) :
    ∀ q, setHoleProbe d1 q = setHoleProbe d0 q := by
  unfold padPairTest at h
  simp only [] at h
  repeat' split at h
  all_goals first
    | (injection h with h; subst h; intro q
       simp only [setHoleProbe_setHoleProbe, hP])
    | (cases h)

theorem padPairTest_fail_check (env : Env) (aRefPad : D_PAD) (layerMask : LSET)
    (d0 d pad : D_PAD) (marker : MARKER_PCB) (hP : ∀ q, setHoleProbe d q = setHoleProbe d0 q)
    (h : padPairTest env aRefPad layerMask d pad = .fail marker) :
    env.checkClearancePadToPad aRefPad pad = false
      ∨ env.checkClearancePadToPad aRefPad (setHoleProbe d0 pad) = false
      ∨ env.checkClearancePadToPad pad (setHoleProbe d0 aRefPad) = false := by
  unfold padPairTest at h
  simp only [] at h
  repeat' split at h
  all_goals first
    | (injection h with h; simp only [setHoleProbe_setHoleProbe, hP] at *; tauto)
    | (cases h)

theorem padPairTest_ne_stop (env : Env) (aRefPad : D_PAD) (layerMask : LSET) (d pad : D_PAD) :
    padPairTest env aRefPad layerMask d pad ≠ .stop := by
  intro h
  unfold padPairTest at h
  simp only [] at h
  repeat' split at h
  all_goals cases h

theorem le_maxPadSize (env : Env) (pads : List D_PAD) (m0 : Int) :
    m0 ≤ maxPadSize env pads m0 ∧ ∀ p ∈ pads, env.GetBoundingRadius p ≤ maxPadSize env pads m0 := by
  induction pads generalizing m0 with
  | nil => simp [maxPadSize]
  | cons p rest ih =>
    simp only [maxPadSize, List.mem_cons, forall_eq_or_imp]
    by_cases hr : env.GetBoundingRadius p > m0
    · obtain ⟨h1, h2⟩ := ih (env.GetBoundingRadius p)
      simp only [hr, if_true]
      exact ⟨by omega, h1, h2⟩
    · obtain ⟨h1, h2⟩ := ih m0
      simp only [hr, if_false]
      exact ⟨h1, by omega, h2⟩

theorem maxPadSize_attained (env : Env) (pads : List D_PAD) (m0 : Int) :
    maxPadSize env pads m0 = m0
      ∨ ∃ p ∈ pads, env.GetBoundingRadius p = maxPadSize env pads m0 := by
  induction pads generalizing m0 with
  | nil => exact Or.inl rfl
  | cons p rest ih =>
    simp only [maxPadSize]
    by_cases hr : env.GetBoundingRadius p > m0
    · simp only [hr, if_true]
      rcases ih (env.GetBoundingRadius p) with h | ⟨q, hq, h⟩
      · exact Or.inr ⟨p, List.mem_cons_self _ _, h.symm⟩
      · exact Or.inr ⟨q, List.mem_cons_of_mem _ hq, h⟩
    · simp only [hr, if_false]
      rcases ih m0 with h | ⟨q, hq, h⟩
      · exact Or.inl h
      · exact Or.inr ⟨q, List.mem_cons_of_mem _ hq, h⟩

theorem unprunedPadScan_none (env : Env) (aRefPad : D_PAD) (layerMask : LSET) (d0 : D_PAD)
    (cs : List D_PAD)
    (hpass : ∀ c ∈ cs, ∀ d, (∀ q, setHoleProbe d q = setHoleProbe d0 q) →
      ∀ marker, padPairTest env aRefPad layerMask d c ≠ .fail marker)
    (d : D_PAD) (hP : ∀ q, setHoleProbe d q = setHoleProbe d0 q) :
    unprunedPadScan env aRefPad layerMask d cs = none := by
  induction cs generalizing d with
  | nil => rfl
  | cons c rest ih =>
    have ihr := ih (fun c1 hc1 => hpass c1 (List.mem_cons_of_mem _ hc1))
    simp only [unprunedPadScan]
    split_ifs with ha
    · exact ihr d hP
    · cases hb : padPairTest env aRefPad layerMask d c with
      | next d1 => exact ihr d1 (padPairTest_next_probe env aRefPad layerMask d0 d c d1 hP hb)
      | stop => rfl
      | fail marker => exact absurd hb (hpass c (List.mem_cons_self _ _) d hP marker)

theorem padSweep_eq_unprunedPadScan (env : Env) (aRefPad : D_PAD) (layerMask : LSET)
    (x_limit : Int) (d0 : D_PAD) (cs : List D_PAD)
    (hsorted : cs.Pairwise (fun a b => a.m_Pos.x ≤ b.m_Pos.x))
    (hfar : ∀ c ∈ cs, x_limit < c.m_Pos.x → ∀ d, (∀ q, setHoleProbe d q = setHoleProbe d0 q) →
      ∀ marker, padPairTest env aRefPad layerMask d c ≠ .fail marker)
    (d : D_PAD) (hP : ∀ q, setHoleProbe d q = setHoleProbe d0 q) :
    padSweep env aRefPad layerMask x_limit d cs
      = unprunedPadScan env aRefPad layerMask d cs := by
  induction cs generalizing d with
  | nil => rfl
  | cons c rest ih =>
    have hsr := (List.pairwise_cons.mp hsorted).2
    have hc := (List.pairwise_cons.mp hsorted).1
    have ihr := ih hsr (fun c1 hc1 => hfar c1 (List.mem_cons_of_mem _ hc1))
    by_cases ha : c.addr = aRefPad.addr
    · simp only [padSweep, unprunedPadScan, doPadToPadsDrcBody, ha, if_true]
      exact ihr d hP
    · by_cases hx : c.m_Pos.x > x_limit
      · have hnone : unprunedPadScan env aRefPad layerMask d (c :: rest) = none := by
          apply unprunedPadScan_none env aRefPad layerMask d0 (c :: rest) _ d hP
          intro c1 hc1
          apply hfar c1 hc1
          rcases List.mem_cons.mp hc1 with rfl | hc1
          · exact hx
          · have := hc c1 hc1
            omega
        rw [hnone]
        simp only [padSweep, doPadToPadsDrcBody, ha, hx, if_true, if_false]
      · simp only [padSweep, unprunedPadScan, doPadToPadsDrcBody, ha, hx, if_false]
        cases hb : padPairTest env aRefPad layerMask d c with
        | next d1 => exact ihr d1 (padPairTest_next_probe env aRefPad layerMask d0 d c d1 hP hb)
        | stop => rfl
        | fail marker => rfl

theorem wrapInt32_of_inRange (x : Int) (h1 : -2147483648 ≤ x) (h2 : x ≤ 2147483647) :
    wrapInt32 x = x := by
  unfold wrapInt32
  omega

theorem wrapInt32_ge (x : Int) (h : x ≤ 2147483647) : x ≤ wrapInt32 x := by
  unfold wrapInt32
  omega

theorem wrapInt32_range (x : Int) : -2147483648 ≤ wrapInt32 x ∧ wrapInt32 x ≤ 2147483647 := by
  unfold wrapInt32
  omega

theorem padCutoff_eq_wrap (env : Env) (max_size : Int) (pad : D_PAD) :
    padCutoff env max_size pad
      = wrapInt32
          (max_size + env.PadGetClearance pad + env.GetBoundingRadius pad + pad.m_Pos.x) := by
  unfold padCutoff addInt32 wrapInt32
  omega

theorem padCutoff_of_inRange (env : Env) (max_size : Int) (pad : D_PAD)
    (h1 : -2147483648
      ≤ max_size + env.PadGetClearance pad + env.GetBoundingRadius pad + pad.m_Pos.x)
    (h2 : max_size + env.PadGetClearance pad + env.GetBoundingRadius pad + pad.m_Pos.x
      ≤ 2147483647) :
    padCutoff env max_size pad
      = max_size + env.PadGetClearance pad + env.GetBoundingRadius pad + pad.m_Pos.x := by
  rw [padCutoff_eq_wrap]
  exact wrapInt32_of_inRange _ h1 h2

theorem padCutoff_ge (env : Env) (max_size : Int) (pad : D_PAD)
    (h : max_size + env.PadGetClearance pad + env.GetBoundingRadius pad + pad.m_Pos.x
      ≤ 2147483647) :
    max_size + env.PadGetClearance pad + env.GetBoundingRadius pad + pad.m_Pos.x
      ≤ padCutoff env max_size pad := by
  rw [padCutoff_eq_wrap]
  exact wrapInt32_ge _ h

theorem sweepMarkers_eq_unprunedSweep (env : Env) (pcb : BOARD) (max_size : Int)
    (pads : List D_PAD) (hmax : ∀ p ∈ pads, env.GetBoundingRadius p ≤ max_size)
    (hrange : ∀ i ∈ pads,
      max_size + env.PadGetClearance i + env.GetBoundingRadius i + i.m_Pos.x ≤ 2147483647)
    (hcut : ∀ i ∈ pads, ∀ c ∈ pads,
      (env.checkClearancePadToPad i c = false
        ∨ env.checkClearancePadToPad i (setHoleProbe (initialDummyPad env pcb) c) = false
        ∨ env.checkClearancePadToPad c (setHoleProbe (initialDummyPad env pcb) i) = false) →
      |c.m_Pos.x - i.m_Pos.x|
        ≤ env.GetBoundingRadius i + env.GetBoundingRadius c + env.PadGetClearance i)
    (l : List D_PAD) (hsub : ∀ p ∈ l, p ∈ pads)
    (hsorted : l.Pairwise (fun a b => a.m_Pos.x ≤ b.m_Pos.x)) :
    sweepMarkers env pcb max_size l = unprunedSweep env pcb l := by
  induction l with
  | nil => rfl
  | cons p rest ih =>
    simp only [sweepMarkers, unprunedSweep, refPadMarker]
    rw [ih (fun q hq => hsub q (List.mem_cons_of_mem _ hq)) (List.pairwise_cons.mp hsorted).2]
    congr 2
    apply padSweep_eq_unprunedPadScan env p _ _ (initialDummyPad env pcb) (p :: rest) _ _ _
      (fun _ => rfl)
    · exact hsorted
    · intro c hc hx d hP marker hfail
      have hchk := padPairTest_fail_check env p _ (initialDummyPad env pcb) d c marker hP hfail
      have hb := hcut p (hsub p (List.mem_cons_self _ _)) c (hsub c hc) hchk
      have hR := hmax c (hsub c hc)
      have habs := le_abs_self (c.m_Pos.x - p.m_Pos.x)
      have hge := padCutoff_ge env max_size p (hrange p (hsub p (List.mem_cons_self _ _)))
      omega

/-- C7, where the cutoff stays inside the range of `int`: for every board whose pad list is
sorted by ascending X then Y and on which the sum
`max_size + clearance(i) + boundingRadius(i) + i.X` of no reference pad `i` exceeds the
largest `int`, and for every clearance predicate that, for a reference pad `i` and a
candidate `c` of the list, can fail (in the direct test or in one of the two hole tests of
the pair) only when `|c.X - i.X| <= boundingRadius(i) + boundingRadius(c) + clearance(i)`,
the sweep of `testPad2Pad` with the cutoff `x_limit` adds to the sink exactly the ordered
list of violations of the same forward sweep with no cutoff. -/
theorem pad_sweep_cutoff_loses_nothing (env : Env) (s : DRC)
    (hsorted : (env.GetSortedPadListByXthenYCoord s.m_pcb).Pairwise
      (fun a b => a.m_Pos.x < b.m_Pos.x ∨ (a.m_Pos.x = b.m_Pos.x ∧ a.m_Pos.y ≤ b.m_Pos.y)))
    (hrange : ∀ i ∈ env.GetSortedPadListByXthenYCoord s.m_pcb,
      maxPadSize env (env.GetSortedPadListByXthenYCoord s.m_pcb) 0 + env.PadGetClearance i
        + env.GetBoundingRadius i + i.m_Pos.x ≤ 2147483647)
    (hcut : ∀ i ∈ env.GetSortedPadListByXthenYCoord s.m_pcb,
      ∀ c ∈ env.GetSortedPadListByXthenYCoord s.m_pcb,
      (env.checkClearancePadToPad i c = false
        ∨ env.checkClearancePadToPad i (setHoleProbe (initialDummyPad env s.m_pcb) c) = false
        ∨ env.checkClearancePadToPad c (setHoleProbe (initialDummyPad env s.m_pcb) i) = false) →
      |c.m_Pos.x - i.m_Pos.x|
        ≤ env.GetBoundingRadius i + env.GetBoundingRadius c + env.PadGetClearance i) :
    emitted s (testPad2Pad env s)
      = unprunedSweep env s.m_pcb (env.GetSortedPadListByXthenYCoord s.m_pcb) := by
  rw [testPad2Pad_emitted]
  apply sweepMarkers_eq_unprunedSweep env s.m_pcb _ (env.GetSortedPadListByXthenYCoord s.m_pcb)
    (le_maxPadSize env _ 0).2 hrange hcut _ (fun _ h => h)
  exact hsorted.imp (fun h => by omega)

/-- C7, instance: three pads of different nets on the front copper layer at X = 0, 5 and 100;
the first two clash, the third is beyond the cutoff of both. -/
theorem pad_sweep_cutoff_loses_nothing_witness :
    ([samplePad 1 1 "1" 0 1 0 1, samplePad 2 2 "1" 5 1 4 2, samplePad 3 3 "1" 100 1 0 3].Pairwise
      (fun a b => a.m_Pos.x < b.m_Pos.x ∨ (a.m_Pos.x = b.m_Pos.x ∧ a.m_Pos.y ≤ b.m_Pos.y))) ∧
    emitted
      (padBoardDRC [samplePad 1 1 "1" 0 1 0 1, samplePad 2 2 "1" 5 1 4 2,
        samplePad 3 3 "1" 100 1 0 3])
      (testPad2Pad sampleEnv
        (padBoardDRC [samplePad 1 1 "1" 0 1 0 1, samplePad 2 2 "1" 5 1 4 2,
          samplePad 3 3 "1" 100 1 0 3]))
      = unprunedSweep sampleEnv
          (padBoardDRC [samplePad 1 1 "1" 0 1 0 1, samplePad 2 2 "1" 5 1 4 2,
            samplePad 3 3 "1" 100 1 0 3]).m_pcb
          [samplePad 1 1 "1" 0 1 0 1, samplePad 2 2 "1" 5 1 4 2, samplePad 3 3 "1" 100 1 0 3] :=
  ⟨by decide,
   pad_sweep_cutoff_loses_nothing sampleEnv
     (padBoardDRC [samplePad 1 1 "1" 0 1 0 1, samplePad 2 2 "1" 5 1 4 2,
       samplePad 3 3 "1" 100 1 0 3])
     (by decide) (by decide) (by decide)⟩

/-- C7, the failing board: two pads of bounding radius 10 and clearance 2, of different nets
on the front copper layer, at X = 2147483640 and X = 2147483645.  The list is sorted and the
clearance predicate fails only for pads at most 22 apart, inside the stated bound, yet the
32-bit sum `10 + 2 + 10 + 2147483640` of the cutoff of the first pad wraps around to
-2147483634: the scan of the first pad stops at the second pad before testing it, and the
sweep with the cutoff reports nothing, where the sweep with no cutoff reports the pair. -/
theorem pad_sweep_cutoff_overflow_loses_violation :
    ([samplePad 1 1 "1" 2147483640 1 0 1, samplePad 2 2 "1" 2147483645 1 0 2].Pairwise
      (fun a b => a.m_Pos.x < b.m_Pos.x ∨ (a.m_Pos.x = b.m_Pos.x ∧ a.m_Pos.y ≤ b.m_Pos.y))) ∧
    (∀ i ∈ [samplePad 1 1 "1" 2147483640 1 0 1, samplePad 2 2 "1" 2147483645 1 0 2],
      ∀ c ∈ [samplePad 1 1 "1" 2147483640 1 0 1, samplePad 2 2 "1" 2147483645 1 0 2],
      (sampleEnv.checkClearancePadToPad i c = false
        ∨ sampleEnv.checkClearancePadToPad i
            (setHoleProbe (initialDummyPad sampleEnv
              (padBoardDRC [samplePad 1 1 "1" 2147483640 1 0 1,
                samplePad 2 2 "1" 2147483645 1 0 2]).m_pcb) c) = false
        ∨ sampleEnv.checkClearancePadToPad c
            (setHoleProbe (initialDummyPad sampleEnv
              (padBoardDRC [samplePad 1 1 "1" 2147483640 1 0 1,
                samplePad 2 2 "1" 2147483645 1 0 2]).m_pcb) i) = false) →
      |c.m_Pos.x - i.m_Pos.x|
        ≤ sampleEnv.GetBoundingRadius i + sampleEnv.GetBoundingRadius c
          + sampleEnv.PadGetClearance i) ∧
    padCutoff sampleEnv 10 (samplePad 1 1 "1" 2147483640 1 0 1) = -2147483634 ∧
    emitted
      (padBoardDRC [samplePad 1 1 "1" 2147483640 1 0 1, samplePad 2 2 "1" 2147483645 1 0 2])
      (testPad2Pad sampleEnv
        (padBoardDRC [samplePad 1 1 "1" 2147483640 1 0 1,
          samplePad 2 2 "1" 2147483645 1 0 2])) = [] ∧
    unprunedSweep sampleEnv
        (padBoardDRC [samplePad 1 1 "1" 2147483640 1 0 1,
          samplePad 2 2 "1" 2147483645 1 0 2]).m_pcb
        [samplePad 1 1 "1" 2147483640 1 0 1, samplePad 2 2 "1" 2147483645 1 0 2]
      = [MARKER_PCB.ofPad (samplePad 1 1 "1" 2147483640 1 0 1)
          (BOARD_ITEM.pad (samplePad 2 2 "1" 2147483645 1 0 2)) DRCE_PAD_NEAR_PAD1] := by
  refine ⟨by decide, by decide, by decide, by decide, by decide⟩

/-! ## Zone outline validator: proofs -/

theorem testZonesLoop_eq (env : Env) (zones : List ZONE_CONTAINER) (s : DRC) :
    testZonesLoop env zones s =
      { s with
        markers := s.markers ++ (zones.filter (fun z => suspiciousZone env s.m_pcb z)).map
          (fun z => MARKER_PCB.ofZone z DRCE_SUSPICIOUS_NET_FOR_ZONE_OUTLINE)
        m_currentMarker :=
          if zones.filter (fun z => suspiciousZone env s.m_pcb z) = [] then s.m_currentMarker
          else none } := by
  induction zones generalizing s with
  | nil => simp [testZonesLoop]
  | cons z rest ih =>
    simp only [testZonesLoop]
    by_cases hcu : env.IsOnCopperLayer z = false
    · have hns : ¬ suspiciousZone env s.m_pcb z := by
        unfold suspiciousZone; simp [hcu]
      simp [hcu, ih, hns]
    · simp only [Bool.not_eq_false] at hcu
      by_cases hneg : z.m_NetCode < 0
      · have hs : suspiciousZone env s.m_pcb z := ⟨hcu, Or.inl hneg⟩
        simp [hcu, hneg, ih, hs, addMarkerToPcb]
      · by_cases hpos : z.m_NetCode > 0
        · by_cases hcount : env.GetPadCount s.m_pcb z.m_NetCode = 0
          · have hs : suspiciousZone env s.m_pcb z := ⟨hcu, Or.inr ⟨hpos, hcount⟩⟩
            simp [hcu, hneg, hpos, hcount, ih, hs, addMarkerToPcb]
          · have hns : ¬ suspiciousZone env s.m_pcb z := by
              unfold suspiciousZone; simp [hneg, hcount]
            simp [hcu, hneg, hpos, hcount, ih, hns]
        · have hns : ¬ suspiciousZone env s.m_pcb z := by
            unfold suspiciousZone; simp [hneg, hpos]
          simp [hcu, hneg, hpos, ih, hns]

theorem testZones_emitted (env : Env) (s : DRC) :
    emitted s (testZones env s) =
      (s.m_pcb.m_ZoneDescriptorList.filter (fun z => suspiciousZone env s.m_pcb z)).map
        (fun z => MARKER_PCB.ofZone z DRCE_SUSPICIOUS_NET_FOR_ZONE_OUTLINE)
      ++ env.Test_Drc_Areas_Outlines_To_Areas_Outlines s.m_pcb := by
  apply emitted_append
  unfold testZones
  rw [testZonesLoop_eq]
  simp [List.append_assoc]

/-! ## Claim on the zone outline validator -/

/-- C8: for every board, the violations that `testZones` adds to the sink are one
`DRCE_SUSPICIOUS_NET_FOR_ZONE_OUTLINE` violation for each zone, in board order, that is on a
copper layer and whose net code is negative, or positive with zero pads on the net according
to the connectivity, followed by the markers of the outline test of the board; so when the
outline test adds no marker of this kind, the violations of this kind are exactly one per
such zone, and there is none for a zone that is not on a copper layer, for a copper zone
with net code 0, or for a copper zone with a positive net code and at least one pad. -/
theorem testZones_flags_suspicious_zones (env : Env) (s : DRC) :
    emitted s (testZones env s) =
      (s.m_pcb.m_ZoneDescriptorList.filter (fun z => suspiciousZone env s.m_pcb z)).map
        (fun z => MARKER_PCB.ofZone z DRCE_SUSPICIOUS_NET_FOR_ZONE_OUTLINE)
      ++ env.Test_Drc_Areas_Outlines_To_Areas_Outlines s.m_pcb ∧
    ((∀ m ∈ env.Test_Drc_Areas_Outlines_To_Areas_Outlines s.m_pcb,
        m.code ≠ DRCE_SUSPICIOUS_NET_FOR_ZONE_OUTLINE) →
      (emitted s (testZones env s)).filter
          (fun m => m.code = DRCE_SUSPICIOUS_NET_FOR_ZONE_OUTLINE) =
        (s.m_pcb.m_ZoneDescriptorList.filter (fun z => suspiciousZone env s.m_pcb z)).map
          (fun z => MARKER_PCB.ofZone z DRCE_SUSPICIOUS_NET_FOR_ZONE_OUTLINE)) ∧
    (∀ z : ZONE_CONTAINER, suspiciousZone env s.m_pcb z ↔
      (env.IsOnCopperLayer z = true ∧ ¬ (z.m_NetCode = 0) ∧
        ¬ (z.m_NetCode > 0 ∧ env.GetPadCount s.m_pcb z.m_NetCode ≥ 1))) := by
  refine ⟨testZones_emitted env s, fun hext => ?_, fun z => ?_⟩
  · rw [testZones_emitted, List.filter_append]
    have h1 : ∀ l : List ZONE_CONTAINER,
        (l.map (fun z => MARKER_PCB.ofZone z DRCE_SUSPICIOUS_NET_FOR_ZONE_OUTLINE)).filter
          (fun m => m.code = DRCE_SUSPICIOUS_NET_FOR_ZONE_OUTLINE)
        = l.map (fun z => MARKER_PCB.ofZone z DRCE_SUSPICIOUS_NET_FOR_ZONE_OUTLINE) := by
      intro l
      apply List.filter_eq_self.mpr
      intro m hm
      obtain ⟨z, _, rfl⟩ := List.mem_map.mp hm
      simp [MARKER_PCB.code]
    have h2 : (env.Test_Drc_Areas_Outlines_To_Areas_Outlines s.m_pcb).filter
        (fun m => m.code = DRCE_SUSPICIOUS_NET_FOR_ZONE_OUTLINE) = [] := by
      apply List.filter_eq_nil_iff.mpr
      intro m hm
      simpa using hext m hm
    rw [h1, h2, List.append_nil]
  · unfold suspiciousZone
    constructor
    · rintro ⟨hcu, h | ⟨h1, h2⟩⟩
      · exact ⟨hcu, by omega, by omega⟩
      · exact ⟨hcu, by omega, by omega⟩
    · rintro ⟨hcu, h1, h2⟩
      refine ⟨hcu, ?_⟩
      by_cases hneg : z.m_NetCode < 0
      · exact Or.inl hneg
      · right
        have hpos : z.m_NetCode > 0 := by omega
        exact ⟨hpos, by
          by_contra hc
          exact h2 ⟨hpos, by omega⟩⟩

/-- C8, instance: a zone on a copper layer with net code 5 on a board with no pad in net 5,
beside a copper zone with net code 0: one violation, for the first zone. -/
theorem testZones_flags_suspicious_zones_witness :
    (∀ m ∈ sampleEnv.Test_Drc_Areas_Outlines_To_Areas_Outlines
        (sampleBoard (sampleSettings 250000) [] []
          [sampleZone 1 5 false false false 1 0, sampleZone 2 0 false false false 1 0]),
      m.code ≠ DRCE_SUSPICIOUS_NET_FOR_ZONE_OUTLINE) ∧
    (emitted
      (newDRC (sampleBoard (sampleSettings 250000) [] []
        [sampleZone 1 5 false false false 1 0, sampleZone 2 0 false false false 1 0]))
      (testZones sampleEnv
        (newDRC (sampleBoard (sampleSettings 250000) [] []
          [sampleZone 1 5 false false false 1 0, sampleZone 2 0 false false false 1 0])))).filter
        (fun m => m.code = DRCE_SUSPICIOUS_NET_FOR_ZONE_OUTLINE)
      = [MARKER_PCB.ofZone (sampleZone 1 5 false false false 1 0)
          DRCE_SUSPICIOUS_NET_FOR_ZONE_OUTLINE] :=
  ⟨by decide,
   ((testZones_flags_suspicious_zones sampleEnv
      (newDRC (sampleBoard (sampleSettings 250000) [] []
        [sampleZone 1 5 false false false 1 0, sampleZone 2 0 false false false 1 0]))).2.1
      (by decide)).trans (by decide)⟩

/-! ## Keepout area tester: proofs -/

theorem testKeepoutAreasTracks_eq (env : Env) (area : ZONE_CONTAINER) (tracks : List TRACK)
    (s : DRC) :
    testKeepoutAreasTracks env area tracks s =
      { s with
        markers := s.markers ++ tracks.filterMap (keepoutMarker env area)
        m_currentMarker :=
          if tracks.filterMap (keepoutMarker env area) = [] then s.m_currentMarker else none } := by
  induction tracks generalizing s with
  | nil => simp [testKeepoutAreasTracks]
  | cons segm rest ih =>
    simp only [testKeepoutAreasTracks, List.filterMap_cons, keepoutMarker]
    split_ifs <;> simp_all [addMarkerToPcb, List.append_assoc]

theorem testKeepoutAreasLoop_eq (env : Env) (areas : List ZONE_CONTAINER) (s : DRC) :
    testKeepoutAreasLoop env areas s =
      { s with
        markers := s.markers ++ areas.flatMap (keepoutAreaMarkers env s.m_pcb.m_Track)
        m_currentMarker :=
          if areas.flatMap (keepoutAreaMarkers env s.m_pcb.m_Track) = [] then s.m_currentMarker
          else none } := by
  induction areas generalizing s with
  | nil => simp [testKeepoutAreasLoop]
  | cons area rest ih =>
    simp only [testKeepoutAreasLoop, List.flatMap_cons, keepoutAreaMarkers]
    by_cases hk : area.m_isKeepout = false
    · simp [hk, ih, keepoutAreaMarkers]
    · simp only [Bool.not_eq_false] at hk
      simp only [hk, if_true, Bool.true_eq_false, if_false]
      rw [ih, testKeepoutAreasTracks_eq]
      by_cases he : List.filterMap (keepoutMarker env area) s.m_pcb.m_Track = []
      · simp [he, keepoutAreaMarkers]
      · simp [he, keepoutAreaMarkers, List.append_assoc]

theorem testKeepoutAreas_emitted (env : Env) (s : DRC) :
    emitted s (testKeepoutAreas env s) =
      s.m_pcb.m_ZoneDescriptorList.flatMap (keepoutAreaMarkers env s.m_pcb.m_Track) := by
  apply emitted_append
  unfold testKeepoutAreas
  rw [testKeepoutAreasLoop_eq]

theorem doTrackKeepoutDrcLoop_eq (env : Env) (aRefSeg : TRACK) (areas : List ZONE_CONTAINER)
    (s : DRC) :
    doTrackKeepoutDrcLoop env aRefSeg areas s =
      match areas.findSome?
          (fun a => if a.m_isKeepout = true then keepoutMarker env a aRefSeg else none) with
      | none => (true, s)
      | some marker => (false, { s with m_currentMarker := some marker }) := by
  induction areas with
  | nil => simp [doTrackKeepoutDrcLoop]
  | cons area rest ih =>
    rw [List.findSome?_cons]
    simp only [doTrackKeepoutDrcLoop]
    rw [ih]
    generalize List.findSome?
      (fun a => if a.m_isKeepout = true then keepoutMarker env a aRefSeg else none) rest = r
    unfold keepoutMarker
    split_ifs <;> simp_all

theorem keepout_zone_removal (env : Env) (s : DRC) (pre post : List ZONE_CONTAINER)
    (A : ZONE_CONTAINER) (p : MARKER_PCB → Bool)
    (hA : (keepoutAreaMarkers env s.m_pcb.m_Track A).filter p = []) :
    (emitted (withZones s (pre ++ A :: post))
        (testKeepoutAreas env (withZones s (pre ++ A :: post)))).filter p
      = (emitted (withZones s (pre ++ post))
        (testKeepoutAreas env (withZones s (pre ++ post)))).filter p := by
  rw [testKeepoutAreas_emitted, testKeepoutAreas_emitted]
  simp only [withZones, List.flatMap_append, List.flatMap_cons, List.filter_append, hA,
    List.nil_append]

theorem keepoutMarker_track (env : Env) (area : ZONE_CONTAINER) (segm : TRACK)
    (marker : MARKER_PCB) (h : keepoutMarker env area segm = some marker) :
    (marker = MARKER_PCB.ofTrack segm none DRCE_TRACK_INSIDE_KEEPOUT
      ∧ segm.m_StructType = PCB_TRACE_T ∧ area.m_doNotAllowTracks = true
      ∧ area.IsOnLayer segm.m_Layer = true) ∨
    (marker = MARKER_PCB.ofTrack segm none DRCE_VIA_INSIDE_KEEPOUT
      ∧ segm.m_StructType = PCB_VIA_T ∧ area.m_doNotAllowVias = true
      ∧ area.CommonLayerExists segm.m_layerSet = true) := by
  unfold keepoutMarker at h
  split_ifs at h with h1 h2 h3 h4
  · left
    simp only [Option.some.injEq] at h
    exact ⟨h.symm, h1, h2.1, h2.2.1⟩
  · right
    simp only [Option.some.injEq] at h
    exact ⟨h.symm, h3, h4.1, h4.2.1⟩

theorem keepoutMarker_off_layer (env : Env) (A : ZONE_CONTAINER) (T : TRACK)
    (hT : (T.m_StructType = PCB_TRACE_T ∧ A.IsOnLayer T.m_Layer = false)
      ∨ (T.m_StructType = PCB_VIA_T ∧ A.CommonLayerExists T.m_layerSet = false)) :
    keepoutMarker env A T = none := by
  cases hm : keepoutMarker env A T with
  | none => rfl
  | some marker =>
    exfalso
    rcases keepoutMarker_track env A T marker hm with ⟨_, h1, _, h2⟩ | ⟨_, h1, _, h2⟩ <;>
      rcases hT with ⟨h3, h4⟩ | ⟨h3, h4⟩ <;> simp_all

/-! ## Claims on the keepout area tester -/

/-- C9: for every zone `A` of a board and every track segment `T` whose layer is not in the
layer set of `A` (and every via `T` whose layer set has no layer in common with that of
`A`), whatever the distance functions return, the zone contributes nothing for the item: the
violations of `T` that `testKeepoutAreas` adds to the sink are the same with the zone on the
board and without it (so none on a board with this zone alone), and `doTrackKeepoutDrc`
returns the same value and leaves the same marker in the slot with and without the zone. -/
theorem keepout_ignores_items_off_its_layers (env : Env) (s : DRC)
    (pre post : List ZONE_CONTAINER) (A : ZONE_CONTAINER) (T : TRACK)
    (hT : (T.m_StructType = PCB_TRACE_T ∧ A.IsOnLayer T.m_Layer = false)
      ∨ (T.m_StructType = PCB_VIA_T ∧ A.CommonLayerExists T.m_layerSet = false)) :
    (emitted (withZones s (pre ++ A :: post))
        (testKeepoutAreas env (withZones s (pre ++ A :: post)))).filter (aboutItem T)
      = (emitted (withZones s (pre ++ post))
        (testKeepoutAreas env (withZones s (pre ++ post)))).filter (aboutItem T) ∧
    (emitted (withZones s [A]) (testKeepoutAreas env (withZones s [A]))).filter (aboutItem T)
      = [] ∧
    (doTrackKeepoutDrc env T (withZones s (pre ++ A :: post))).1
      = (doTrackKeepoutDrc env T (withZones s (pre ++ post))).1 ∧
    (doTrackKeepoutDrc env T (withZones s (pre ++ A :: post))).2.m_currentMarker
      = (doTrackKeepoutDrc env T (withZones s (pre ++ post))).2.m_currentMarker ∧
    (doTrackKeepoutDrc env T (withZones s [A])).1 = true := by
  have hnone := keepoutMarker_off_layer env A T hT
  have hA : (keepoutAreaMarkers env s.m_pcb.m_Track A).filter (aboutItem T) = [] := by
    apply List.filter_eq_nil_iff.mpr
    intro m hm
    unfold keepoutAreaMarkers at hm
    split_ifs at hm
    · obtain ⟨segm, _, hsegm⟩ := List.mem_filterMap.mp hm
      rcases keepoutMarker_track env A segm m hsegm with ⟨rfl, _⟩ | ⟨rfl, _⟩
      · simp only [aboutItem, decide_eq_true_eq]
        rintro rfl
        rw [hnone] at hsegm
        cases hsegm
      · simp only [aboutItem, decide_eq_true_eq]
        rintro rfl
        rw [hnone] at hsegm
        cases hsegm
    · simp at hm
  have hfind : ∀ l : List ZONE_CONTAINER,
      (l ++ A :: post).findSome?
          (fun a => if a.m_isKeepout = true then keepoutMarker env a T else none)
        = (l ++ post).findSome?
          (fun a => if a.m_isKeepout = true then keepoutMarker env a T else none) := by
    intro l
    induction l with
    | nil => simp [List.findSome?_cons, hnone]
    | cons a rest ih => simp only [List.cons_append, List.findSome?_cons, ih]
  have hdrc : ∀ zones, doTrackKeepoutDrc env T (withZones s zones) =
      match zones.findSome?
          (fun a => if a.m_isKeepout = true then keepoutMarker env a T else none) with
      | none => (true, withZones s zones)
      | some marker => (false, { withZones s zones with m_currentMarker := some marker }) := by
    intro zones
    unfold doTrackKeepoutDrc
    rw [doTrackKeepoutDrcLoop_eq]
    rfl
  refine ⟨keepout_zone_removal env s pre post A _ hA, ?_, ?_, ?_, ?_⟩
  · have := keepout_zone_removal env s [] [] A _ hA
    simp only [List.nil_append] at this
    rw [this, testKeepoutAreas_emitted]
    simp [withZones]
  · rw [hdrc, hdrc, hfind]
    cases (pre ++ post).findSome?
      (fun a => if a.m_isKeepout = true then keepoutMarker env a T else none) <;> rfl
  · rw [hdrc, hdrc, hfind]
    cases (pre ++ post).findSome?
      (fun a => if a.m_isKeepout = true then keepoutMarker env a T else none) <;> rfl
  · rw [hdrc]
    simp [List.findSome?_cons, hnone]

/-- C9, instance: a keepout of the front copper layer that disallows tracks and vias, and a
track segment of the back copper layer that starts on its outline. -/
theorem keepout_ignores_items_off_its_layers_witness :
    ((sampleTrack 1 PCB_TRACE_T 0 31 2147483648).m_StructType = PCB_TRACE_T ∧
      (sampleZone 1 0 true true true 1 0).IsOnLayer
        (sampleTrack 1 PCB_TRACE_T 0 31 2147483648).m_Layer = false) ∧
    (emitted
      (withZones
        (newDRC (sampleBoard (sampleSettings 250000) []
          [sampleTrack 1 PCB_TRACE_T 0 31 2147483648] []))
        [sampleZone 1 0 true true true 1 0])
      (testKeepoutAreas sampleEnv
        (withZones
          (newDRC (sampleBoard (sampleSettings 250000) []
            [sampleTrack 1 PCB_TRACE_T 0 31 2147483648] []))
          [sampleZone 1 0 true true true 1 0]))).filter
        (aboutItem (sampleTrack 1 PCB_TRACE_T 0 31 2147483648)) = [] :=
  ⟨by decide,
   (keepout_ignores_items_off_its_layers sampleEnv
      (newDRC (sampleBoard (sampleSettings 250000) []
        [sampleTrack 1 PCB_TRACE_T 0 31 2147483648] []))
      [] [] (sampleZone 1 0 true true true 1 0) (sampleTrack 1 PCB_TRACE_T 0 31 2147483648)
      (Or.inl (by decide))).2.1⟩

theorem keepoutAreaMarkers_no_track_kind (env : Env) (tracks : List TRACK) (A : ZONE_CONTAINER)
    (h : A.m_doNotAllowTracks = false) :
    (keepoutAreaMarkers env tracks A).filter
      (fun m => m.code = DRCE_TRACK_INSIDE_KEEPOUT) = [] := by
  apply List.filter_eq_nil_iff.mpr
  intro m hm
  unfold keepoutAreaMarkers at hm
  split_ifs at hm
  · obtain ⟨segm, _, hsegm⟩ := List.mem_filterMap.mp hm
    rcases keepoutMarker_track env A segm m hsegm with ⟨_, _, h1, _⟩ | ⟨rfl, _⟩
    · rw [h] at h1
      cases h1
    · simp [MARKER_PCB.code]
  · simp at hm

theorem keepoutAreaMarkers_no_via_kind (env : Env) (tracks : List TRACK) (A : ZONE_CONTAINER)
    (h : A.m_doNotAllowVias = false) :
    (keepoutAreaMarkers env tracks A).filter
      (fun m => m.code = DRCE_VIA_INSIDE_KEEPOUT) = [] := by
  apply List.filter_eq_nil_iff.mpr
  intro m hm
  unfold keepoutAreaMarkers at hm
  split_ifs at hm
  · obtain ⟨segm, _, hsegm⟩ := List.mem_filterMap.mp hm
    rcases keepoutMarker_track env A segm m hsegm with ⟨rfl, _⟩ | ⟨_, _, h1, _⟩
    · simp [MARKER_PCB.code]
    · rw [h] at h1
      cases h1
  · simp at hm

theorem keepout_single_zone_none (env : Env) (s : DRC) (A : ZONE_CONTAINER)
    (p : MARKER_PCB → Bool)
    (hA : (keepoutAreaMarkers env s.m_pcb.m_Track A).filter p = []) :
    (emitted (withZones s [A]) (testKeepoutAreas env (withZones s [A]))).filter p = [] := by
  have := keepout_zone_removal env s [] [] A p hA
  simp only [List.nil_append] at this
  rw [this, testKeepoutAreas_emitted]
  simp [withZones]

/-- C10: the two flags of a keepout are independent.  For every board, a zone that does not
disallow tracks contributes no `DRCE_TRACK_INSIDE_KEEPOUT` violation to `testKeepoutAreas`
(the violations of this kind are the same with the zone on the board and without it, and
there is none on a board with this zone alone), and a zone that does not disallow vias
contributes no `DRCE_VIA_INSIDE_KEEPOUT` violation.  In particular, on a board with one
keepout that disallows vias only, one via and one track segment (in either order), both on a
layer of the keepout and both inside it, `testKeepoutAreas` adds exactly one violation, the
`DRCE_VIA_INSIDE_KEEPOUT` violation of the via. -/
theorem keepout_flags_are_independent (env : Env) (s : DRC) :
    (∀ (pre post : List ZONE_CONTAINER) (A : ZONE_CONTAINER), A.m_doNotAllowTracks = false →
      (emitted (withZones s (pre ++ A :: post))
          (testKeepoutAreas env (withZones s (pre ++ A :: post)))).filter
          (fun m => m.code = DRCE_TRACK_INSIDE_KEEPOUT)
        = (emitted (withZones s (pre ++ post))
          (testKeepoutAreas env (withZones s (pre ++ post)))).filter
          (fun m => m.code = DRCE_TRACK_INSIDE_KEEPOUT) ∧
      (emitted (withZones s [A]) (testKeepoutAreas env (withZones s [A]))).filter
          (fun m => m.code = DRCE_TRACK_INSIDE_KEEPOUT) = []) ∧
    (∀ (pre post : List ZONE_CONTAINER) (A : ZONE_CONTAINER), A.m_doNotAllowVias = false →
      (emitted (withZones s (pre ++ A :: post))
          (testKeepoutAreas env (withZones s (pre ++ A :: post)))).filter
          (fun m => m.code = DRCE_VIA_INSIDE_KEEPOUT)
        = (emitted (withZones s (pre ++ post))
          (testKeepoutAreas env (withZones s (pre ++ post)))).filter
          (fun m => m.code = DRCE_VIA_INSIDE_KEEPOUT) ∧
      (emitted (withZones s [A]) (testKeepoutAreas env (withZones s [A]))).filter
          (fun m => m.code = DRCE_VIA_INSIDE_KEEPOUT) = []) ∧
    (∀ (A : ZONE_CONTAINER) (track via : TRACK) (tracks : List TRACK),
      A.m_isKeepout = true → A.m_doNotAllowVias = true → A.m_doNotAllowTracks = false →
      track.m_StructType = PCB_TRACE_T → via.m_StructType = PCB_VIA_T →
      A.IsOnLayer track.m_Layer = true → A.CommonLayerExists via.m_layerSet = true →
      env.OutlineDistanceSeg A track.m_Start track.m_End track.m_Width = 0 →
      env.OutlineDistancePoint A via.m_Start < Int.tdiv via.m_Width 2 →
      (tracks = [track, via] ∨ tracks = [via, track]) →
      emitted (withTracks (withZones s [A]) tracks)
          (testKeepoutAreas env (withTracks (withZones s [A]) tracks))
        = [MARKER_PCB.ofTrack via none DRCE_VIA_INSIDE_KEEPOUT]) := by
  refine ⟨fun pre post A h => ⟨?_, ?_⟩, fun pre post A h => ⟨?_, ?_⟩, ?_⟩
  · exact keepout_zone_removal env s pre post A _ (keepoutAreaMarkers_no_track_kind env _ A h)
  · exact keepout_single_zone_none env s A _ (keepoutAreaMarkers_no_track_kind env _ A h)
  · exact keepout_zone_removal env s pre post A _ (keepoutAreaMarkers_no_via_kind env _ A h)
  · exact keepout_single_zone_none env s A _ (keepoutAreaMarkers_no_via_kind env _ A h)
  · intro A track via tracks hk hv ht htt hvt hlt hlv hdt hdv htracks
    rw [testKeepoutAreas_emitted]
    have hv2 : ¬ via.m_StructType = PCB_TRACE_T := by rw [hvt]; decide
    rcases htracks with rfl | rfl <;>
      simp [withTracks, withZones, keepoutAreaMarkers, keepoutMarker, hk, hv, ht, htt, hvt, hv2,
        hlv, hdv]

/-- C10, instance: a keepout of the front copper layer that disallows vias only, with a via
and a track segment of that layer that both start on its outline. -/
theorem keepout_flags_are_independent_witness :
    (sampleZone 1 0 true false true 1 0).m_isKeepout = true ∧
    (sampleZone 1 0 true false true 1 0).m_doNotAllowVias = true ∧
    (sampleZone 1 0 true false true 1 0).m_doNotAllowTracks = false ∧
    emitted
      (withTracks (withZones (newDRC (sampleBoard (sampleSettings 250000) [] [] []))
        [sampleZone 1 0 true false true 1 0])
        [sampleTrack 1 PCB_TRACE_T 0 0 1, sampleTrack 2 PCB_VIA_T 0 0 1])
      (testKeepoutAreas sampleEnv
        (withTracks (withZones (newDRC (sampleBoard (sampleSettings 250000) [] [] []))
          [sampleZone 1 0 true false true 1 0])
          [sampleTrack 1 PCB_TRACE_T 0 0 1, sampleTrack 2 PCB_VIA_T 0 0 1]))
      = [MARKER_PCB.ofTrack (sampleTrack 2 PCB_VIA_T 0 0 1) none DRCE_VIA_INSIDE_KEEPOUT] :=
  ⟨by decide, by decide, by decide,
   (keepout_flags_are_independent sampleEnv
      (newDRC (sampleBoard (sampleSettings 250000) [] [] []))).2.2
      (sampleZone 1 0 true false true 1 0) (sampleTrack 1 PCB_TRACE_T 0 0 1)
      (sampleTrack 2 PCB_VIA_T 0 0 1) _ (by decide) (by decide) (by decide) (by decide)
      (by decide) (by decide) (by decide) (by decide) (by decide) (Or.inl rfl)⟩

/-! ## The incremental and the batch keepout test -/

theorem doTrackKeepoutDrc_eq (env : Env) (aRefSeg : TRACK) (s : DRC) :
    doTrackKeepoutDrc env aRefSeg s =
      match s.m_pcb.m_ZoneDescriptorList.findSome?
          (fun a => if a.m_isKeepout = true then keepoutMarker env a aRefSeg else none) with
      | none => (true, s)
      | some marker => (false, { s with m_currentMarker := some marker }) := by
  unfold doTrackKeepoutDrc
  rw [doTrackKeepoutDrcLoop_eq]

theorem keepoutMarker_same_item (env : Env) (a b : ZONE_CONTAINER) (T : TRACK)
    (m1 m2 : MARKER_PCB) (h1 : keepoutMarker env a T = some m1)
    (h2 : keepoutMarker env b T = some m2) : m1 = m2 := by
  rcases keepoutMarker_track env a T m1 h1 with ⟨rfl, ht1, _⟩ | ⟨rfl, ht1, _⟩ <;>
    rcases keepoutMarker_track env b T m2 h2 with ⟨rfl, ht2, _⟩ | ⟨rfl, ht2, _⟩ <;>
    first
      | rfl
      | (rw [ht1] at ht2; cases ht2)

theorem keepout_batch_marker_of (env : Env) (s : DRC) (T : TRACK) (m : MARKER_PCB)
    (hm : m ∈ emitted s (testKeepoutAreas env s)) (hT : aboutItem T m = true) :
    ∃ area ∈ s.m_pcb.m_ZoneDescriptorList,
      area.m_isKeepout = true ∧ keepoutMarker env area T = some m := by
  rw [testKeepoutAreas_emitted] at hm
  obtain ⟨area, harea, hma⟩ := List.mem_flatMap.mp hm
  unfold keepoutAreaMarkers at hma
  split_ifs at hma with hk
  · obtain ⟨segm, _, hsegm⟩ := List.mem_filterMap.mp hma
    have hseg : segm = T := by
      rcases keepoutMarker_track env area segm m hsegm with ⟨rfl, _⟩ | ⟨rfl, _⟩ <;>
        simpa [aboutItem] using hT
    subst hseg
    exact ⟨area, harea, hk, hsegm⟩
  · simp at hma

/-- C11: the incremental and the batch keepout test agree.  For every board and every track
or via `T` of the board, `doTrackKeepoutDrc` fails for `T` exactly when `testKeepoutAreas`
adds at least one violation of `T` to the sink; the marker that the incremental test then
leaves in the slot is one of the batch violations, every batch violation of `T` is equal to
it, and its kind is `DRCE_TRACK_INSIDE_KEEPOUT` for a track segment and
`DRCE_VIA_INSIDE_KEEPOUT` for a via. -/
theorem keepout_incremental_agrees_with_batch (env : Env) (s : DRC) (T : TRACK)
    (hT : T ∈ s.m_pcb.m_Track) :
    ((doTrackKeepoutDrc env T s).1 = false ↔
      ∃ m ∈ emitted s (testKeepoutAreas env s), aboutItem T m = true) ∧
    ((doTrackKeepoutDrc env T s).1 = false →
      ∃ marker, (doTrackKeepoutDrc env T s).2.m_currentMarker = some marker ∧
        marker ∈ emitted s (testKeepoutAreas env s) ∧
        (∀ m ∈ emitted s (testKeepoutAreas env s), aboutItem T m = true → m = marker) ∧
        ((marker = MARKER_PCB.ofTrack T none DRCE_TRACK_INSIDE_KEEPOUT
            ∧ T.m_StructType = PCB_TRACE_T) ∨
          (marker = MARKER_PCB.ofTrack T none DRCE_VIA_INSIDE_KEEPOUT
            ∧ T.m_StructType = PCB_VIA_T))) := by
  have hbatch : ∀ area ∈ s.m_pcb.m_ZoneDescriptorList, ∀ m, area.m_isKeepout = true →
      keepoutMarker env area T = some m → m ∈ emitted s (testKeepoutAreas env s) := by
    intro area harea m hk hm
    rw [testKeepoutAreas_emitted]
    refine List.mem_flatMap.mpr ⟨area, harea, ?_⟩
    unfold keepoutAreaMarkers
    rw [if_pos hk]
    exact List.mem_filterMap.mpr ⟨T, hT, hm⟩
  have hfail : (doTrackKeepoutDrc env T s).1 = false →
      ∃ marker, (doTrackKeepoutDrc env T s).2.m_currentMarker = some marker ∧
        ∃ area ∈ s.m_pcb.m_ZoneDescriptorList,
          area.m_isKeepout = true ∧ keepoutMarker env area T = some marker := by
    intro h
    rw [doTrackKeepoutDrc_eq] at h ⊢
    cases hf : s.m_pcb.m_ZoneDescriptorList.findSome?
        (fun a => if a.m_isKeepout = true then keepoutMarker env a T else none) with
    | none => rw [hf] at h; simp at h
    | some marker =>
      obtain ⟨area, harea, hg⟩ := List.exists_of_findSome?_eq_some hf
      refine ⟨marker, by simp, area, harea, ?_⟩
      split_ifs at hg with hk
      exact ⟨hk, hg⟩
  refine ⟨⟨fun h => ?_, fun h => ?_⟩, fun h => ?_⟩
  · obtain ⟨marker, _, area, harea, hk, hm⟩ := hfail h
    refine ⟨marker, hbatch area harea marker hk hm, ?_⟩
    rcases keepoutMarker_track env area T marker hm with ⟨rfl, _⟩ | ⟨rfl, _⟩ <;>
      simp [aboutItem]
  · obtain ⟨m, hm, hTm⟩ := h
    obtain ⟨area, harea, hk, hma⟩ := keepout_batch_marker_of env s T m hm hTm
    rw [doTrackKeepoutDrc_eq]
    cases hf : s.m_pcb.m_ZoneDescriptorList.findSome?
        (fun a => if a.m_isKeepout = true then keepoutMarker env a T else none) with
    | none =>
      have := List.findSome?_eq_none_iff.mp hf area harea
      simp [hk, hma] at this
    | some marker => rfl
  · obtain ⟨marker, hslot, area, harea, hk, hm⟩ := hfail h
    refine ⟨marker, hslot, hbatch area harea marker hk hm, ?_, ?_⟩
    · intro m hmem hTm
      obtain ⟨area2, _, _, hma⟩ := keepout_batch_marker_of env s T m hmem hTm
      exact keepoutMarker_same_item env area2 area T m marker hma hm
    · rcases keepoutMarker_track env area T marker hm with ⟨h1, h2, _⟩ | ⟨h1, h2, _⟩
      · exact Or.inl ⟨h1, h2⟩
      · exact Or.inr ⟨h1, h2⟩

/-- C11, instance: a keepout of the front copper layer that disallows tracks and vias, with
a via and a track segment of that layer that both start on its outline; the incremental test
of the via fails. -/
theorem keepout_incremental_agrees_with_batch_witness :
    sampleTrack 2 PCB_VIA_T 0 0 1 ∈
      (newDRC (sampleBoard (sampleSettings 250000) []
        [sampleTrack 1 PCB_TRACE_T 0 0 1, sampleTrack 2 PCB_VIA_T 0 0 1]
        [sampleZone 1 0 true true true 1 0])).m_pcb.m_Track ∧
    ((doTrackKeepoutDrc sampleEnv (sampleTrack 2 PCB_VIA_T 0 0 1)
        (newDRC (sampleBoard (sampleSettings 250000) []
          [sampleTrack 1 PCB_TRACE_T 0 0 1, sampleTrack 2 PCB_VIA_T 0 0 1]
          [sampleZone 1 0 true true true 1 0]))).1 = false ↔
      ∃ m ∈ emitted
          (newDRC (sampleBoard (sampleSettings 250000) []
            [sampleTrack 1 PCB_TRACE_T 0 0 1, sampleTrack 2 PCB_VIA_T 0 0 1]
            [sampleZone 1 0 true true true 1 0]))
          (testKeepoutAreas sampleEnv
            (newDRC (sampleBoard (sampleSettings 250000) []
              [sampleTrack 1 PCB_TRACE_T 0 0 1, sampleTrack 2 PCB_VIA_T 0 0 1]
              [sampleZone 1 0 true true true 1 0]))),
        aboutItem (sampleTrack 2 PCB_VIA_T 0 0 1) m = true) ∧
    (doTrackKeepoutDrc sampleEnv (sampleTrack 2 PCB_VIA_T 0 0 1)
        (newDRC (sampleBoard (sampleSettings 250000) []
          [sampleTrack 1 PCB_TRACE_T 0 0 1, sampleTrack 2 PCB_VIA_T 0 0 1]
          [sampleZone 1 0 true true true 1 0]))).1 = false :=
  ⟨by decide,
   (keepout_incremental_agrees_with_batch sampleEnv
      (newDRC (sampleBoard (sampleSettings 250000) []
        [sampleTrack 1 PCB_TRACE_T 0 0 1, sampleTrack 2 PCB_VIA_T 0 0 1]
        [sampleZone 1 0 true true true 1 0]))
      (sampleTrack 2 PCB_VIA_T 0 0 1) (by decide)).1,
   by decide⟩

/-! ## Steps of the engine: proofs -/

theorem Step.refl (s : DRC) : Step s s [] [] s.m_pcb :=
  ⟨by simp, by simp, rfl, rfl⟩

theorem Step.trans {s s1 s2 : DRC} {l1 l2 : List MARKER_PCB} {u1 u2 : List DRC_ITEM}
    {p1 p2 : BOARD} (h1 : Step s s1 l1 u1 p1) (h2 : Step s1 s2 l2 u2 p2) :
    Step s s2 (l1 ++ l2) (u1 ++ u2) p2 :=
  ⟨by rw [h2.markers, h1.markers, List.append_assoc],
   by rw [h2.unconnected, h1.unconnected, List.append_assoc],
   h2.pcb, h2.toggles.trans h1.toggles⟩

theorem Step.emitted_eq {s s1 : DRC} {l : List MARKER_PCB} {u : List DRC_ITEM} {p : BOARD}
    (h : Step s s1 l u p) : emitted s s1 = l :=
  emitted_append s s1 l h.markers

theorem Step.cast {s s1 : DRC} {l l1 : List MARKER_PCB} {u u1 : List DRC_ITEM} {p p1 : BOARD}
    (h : Step s s1 l u p) (hl : l = l1) (hu : u = u1) (hp : p = p1) : Step s s1 l1 u1 p1 := by
  subst hl hu hp
  exact h

theorem step_addMarker (m : MARKER_PCB) (s : DRC) :
    Step s { addMarkerToPcb m s with m_currentMarker := none } [m] [] s.m_pcb :=
  ⟨rfl, by simp [addMarkerToPcb], rfl, rfl⟩

theorem step_setSlot (c : Option MARKER_PCB) (s : DRC) :
    Step s { s with m_currentMarker := c } [] [] s.m_pcb :=
  ⟨by simp, by simp, rfl, rfl⟩

theorem step_flush (m : MARKER_PCB) (s : DRC) :
    Step s (flushCurrentMarker { s with m_currentMarker := some m }) [m] [] s.m_pcb :=
  ⟨rfl, by simp [flushCurrentMarker, addMarkerToPcb], rfl, rfl⟩

/-! ## Track and via clearance tester: proofs -/

theorem testTracksLoop_step (env : Env) (delta : Nat) (dialog : Bool) (tracks : List TRACK)
    (ii count : Nat) (s : DRC) :
    Step s (testTracksLoop env delta dialog tracks ii count s)
      ((trackItemResults env s.m_pcb tracks).take
        (testTracksProcessed env delta dialog tracks ii count)).reduceOption [] s.m_pcb := by
  induction tracks generalizing ii count s with
  | nil => exact Step.refl s
  | cons segm next ih =>
    simp only [testTracksLoop, testTracksProcessed, trackItemResults]
    generalize (if decide (ii > delta) = true then 0 else ii + 1) = ii1
    generalize (if decide (ii > delta) = true then count + 1 else count) = count1
    by_cases hbreak : decide (ii > delta) = true ∧ dialog = true
        ∧ env.progressUpdate count1 = false
    · rw [if_pos hbreak, if_pos hbreak]
      exact Step.refl s
    · rw [if_neg hbreak, if_neg hbreak]
      cases hd : env.doTrackDrc s.m_pcb segm next with
      | none =>
        simp only [List.take_succ_cons, List.reduceOption_cons_of_none]
        exact ih _ _ s
      | some marker =>
        simp only [List.take_succ_cons, List.reduceOption_cons_of_some]
        have h1 := step_flush marker s
        have h2 := ih ii1 count1 (flushCurrentMarker { s with m_currentMarker := some marker })
        rw [h1.pcb] at h2
        exact (h1.trans h2).cast rfl rfl rfl

theorem testTracks_step (env : Env) (aShowProgressBar : Bool) (s : DRC) :
    Step s (testTracks env aShowProgressBar s)
      ((trackItemResults env s.m_pcb s.m_pcb.m_Track).take
        (testTracksProcessed env 500
          (aShowProgressBar && decide (countTracks s.m_pcb.m_Track / 500 > 3))
          s.m_pcb.m_Track 0 0)).reduceOption [] s.m_pcb := by
  unfold testTracks
  exact testTracksLoop_step env 500 _ _ 0 0 s

theorem testTracksProcessed_le (env : Env) (delta : Nat) (dialog : Bool) (tracks : List TRACK)
    (ii count : Nat) : testTracksProcessed env delta dialog tracks ii count ≤ tracks.length := by
  induction tracks generalizing ii count with
  | nil => simp [testTracksProcessed]
  | cons segm next ih =>
    simp only [testTracksProcessed, List.length_cons]
    generalize (if decide (ii > delta) = true then 0 else ii + 1) = ii1
    generalize (if decide (ii > delta) = true then count + 1 else count) = count1
    have := ih ii1 count1
    split_ifs <;> omega

theorem testTracksProcessed_neverAborted (env : Env) (delta : Nat) (dialog : Bool)
    (tracks : List TRACK) (ii count : Nat) :
    testTracksProcessed (neverAborted env) delta dialog tracks ii count = tracks.length := by
  induction tracks generalizing ii count with
  | nil => simp [testTracksProcessed]
  | cons segm next ih =>
    simp only [testTracksProcessed, List.length_cons]
    rw [ih]
    simp [neverAborted]

theorem trackItemResults_neverAborted (env : Env) (pcb : BOARD) (tracks : List TRACK) :
    trackItemResults (neverAborted env) pcb tracks = trackItemResults env pcb tracks := by
  induction tracks with
  | nil => rfl
  | cons segm next ih =>
    simp only [trackItemResults, ih]
    rfl

theorem trackItemResults_length (env : Env) (pcb : BOARD) (tracks : List TRACK) :
    (trackItemResults env pcb tracks).length = tracks.length := by
  induction tracks with
  | nil => rfl
  | cons segm next ih => simp [trackItemResults, ih]

/-- C18: cancelling the track sweep yields a partial result.  For every track sequence and
every behaviour of the progress dialog, the violations that `testTracks` adds to the sink are
the violations of the reference items it tested before it ended (the first `k` items of the
sequence, `k` being the number of items tested, each with the result of its own `doTrackDrc`),
the sweep that is never aborted adds the violations of all the items, and so the violations
of the cancelled sweep are an initial part of those of the uncancelled sweep: what was
emitted before the abort stays, and only the items after the abort are missing. -/
theorem testTracks_cancelled_is_partial (env : Env) (aShowProgressBar : Bool) (s : DRC) :
    testTracksProcessed env 500
        (aShowProgressBar && decide (countTracks s.m_pcb.m_Track / 500 > 3))
        s.m_pcb.m_Track 0 0 ≤ s.m_pcb.m_Track.length ∧
    emitted s (testTracks env aShowProgressBar s) =
      ((trackItemResults env s.m_pcb s.m_pcb.m_Track).take
        (testTracksProcessed env 500
          (aShowProgressBar && decide (countTracks s.m_pcb.m_Track / 500 > 3))
          s.m_pcb.m_Track 0 0)).reduceOption ∧
    emitted s (testTracks (neverAborted env) aShowProgressBar s) =
      (trackItemResults env s.m_pcb s.m_pcb.m_Track).reduceOption ∧
    emitted s (testTracks (neverAborted env) aShowProgressBar s) =
      emitted s (testTracks env aShowProgressBar s) ++
        ((trackItemResults env s.m_pcb s.m_pcb.m_Track).drop
          (testTracksProcessed env 500
            (aShowProgressBar && decide (countTracks s.m_pcb.m_Track / 500 > 3))
            s.m_pcb.m_Track 0 0)).reduceOption := by
  have h1 := (testTracks_step env aShowProgressBar s).emitted_eq
  have h2 := (testTracks_step (neverAborted env) aShowProgressBar s).emitted_eq
  rw [testTracksProcessed_neverAborted, trackItemResults_neverAborted,
    ← trackItemResults_length env s.m_pcb, List.take_length] at h2
  refine ⟨testTracksProcessed_le _ _ _ _ _ _, h1, h2, ?_⟩
  rw [h1, h2, ← List.reduceOption_append, List.take_append_drop]

/-! ## Text proximity tester: proofs -/

theorem testTextsTrackSegments_step (env : Env) (track : TRACK) (text : TEXTE_PCB)
    (min_dist : Int) (shape : List wxPoint) (s : DRC) :
    Step s (testTextsTrackSegments env track text min_dist shape s)
      (if textTrackHit env track min_dist shape = true then
        [MARKER_PCB.ofTrack track (some (BOARD_ITEM.text text)) DRCE_TRACK_INSIDE_TEXT]
       else []) [] s.m_pcb := by
  induction shape using textTrackHit.induct env track min_dist with
  | case1 a b rest h =>
    simp only [testTextsTrackSegments, textTrackHit, h, if_true]
    exact step_addMarker _ s
  | case2 a b rest h ih =>
    simp only [testTextsTrackSegments, textTrackHit, h, if_false]
    exact ih
  | case3 l hl =>
    rcases l with _ | ⟨a, _ | ⟨b, rest⟩⟩
    · exact Step.refl s
    · exact Step.refl s
    · exact absurd rfl (hl a b rest)

theorem testTextsViaSegments_step (env : Env) (track : TRACK) (text : TEXTE_PCB)
    (min_dist : Int) (shape : List wxPoint) (s : DRC) :
    Step s (testTextsViaSegments env track text min_dist shape s)
      (if textViaHit env track min_dist shape = true then
        [MARKER_PCB.ofTrack track (some (BOARD_ITEM.text text)) DRCE_VIA_INSIDE_TEXT]
       else []) [] s.m_pcb := by
  induction shape using textViaHit.induct env track min_dist with
  | case1 a b rest h =>
    simp only [testTextsViaSegments, textViaHit, h, if_true]
    exact step_addMarker _ s
  | case2 a b rest h ih =>
    simp only [testTextsViaSegments, textViaHit, h, if_false]
    exact ih
  | case3 l hl =>
    rcases l with _ | ⟨a, _ | ⟨b, rest⟩⟩
    · exact Step.refl s
    · exact Step.refl s
    · exact absurd rfl (hl a b rest)

theorem testTextsTracks_step (env : Env) (text : TEXTE_PCB) (shape : List wxPoint)
    (tracks : List TRACK) (s : DRC) :
    Step s (testTextsTracks env text shape tracks s)
      (tracks.filterMap (textTrackMarker env text shape)) [] s.m_pcb := by
  induction tracks generalizing s with
  | nil => exact Step.refl s
  | cons track rest ih =>
    simp only [testTextsTracks]
    by_cases hl : env.TrackIsOnLayer track text.m_Layer = false
    · rw [if_pos hl]
      have hm : textTrackMarker env text shape track = none := by
        simp [textTrackMarker, hl]
      simp only [List.filterMap_cons, hm]
      exact ih s
    · rw [if_neg hl]
      by_cases ht : track.m_StructType = PCB_TRACE_T
      · rw [if_pos ht]
        have h1 := testTextsTrackSegments_step env track text
          (Int.tdiv (track.m_Width + text.m_Thickness) 2 + env.TrackGetClearance track) shape s
        have h2 := ih (testTextsTrackSegments env track text
          (Int.tdiv (track.m_Width + text.m_Thickness) 2 + env.TrackGetClearance track) shape s)
        rw [h1.pcb] at h2
        refine (h1.trans h2).cast ?_ rfl rfl
        by_cases hh : textTrackHit env track
            (Int.tdiv (track.m_Width + text.m_Thickness) 2 + env.TrackGetClearance track)
            shape = true
        · simp [List.filterMap_cons, textTrackMarker, hl, ht, hh]
        · simp [List.filterMap_cons, textTrackMarker, hl, ht, hh]
      · rw [if_neg ht]
        by_cases hv : track.m_StructType = PCB_VIA_T
        · rw [if_pos hv]
          have h1 := testTextsViaSegments_step env track text
            (Int.tdiv (track.m_Width + text.m_Thickness) 2 + env.TrackGetClearance track) shape s
          have h2 := ih (testTextsViaSegments env track text
            (Int.tdiv (track.m_Width + text.m_Thickness) 2 + env.TrackGetClearance track)
            shape s)
          rw [h1.pcb] at h2
          refine (h1.trans h2).cast ?_ rfl rfl
          by_cases hh : textViaHit env track
              (Int.tdiv (track.m_Width + text.m_Thickness) 2 + env.TrackGetClearance track)
              shape = true
          · simp [List.filterMap_cons, textTrackMarker, hl, ht, hv, hh]
          · simp [List.filterMap_cons, textTrackMarker, hl, ht, hv, hh]
        · rw [if_neg hv]
          have hm : textTrackMarker env text shape track = none := by
            simp [textTrackMarker, hl, ht, hv]
          simp only [List.filterMap_cons, hm]
          exact ih s

theorem step_scratch (s : DRC) (e : wxPoint) (a l : Int) (p : wxPoint) :
    Step s { s with m_segmEnd := e, m_segmAngle := a, m_segmLength := l, m_padToTestPos := p }
      [] [] s.m_pcb :=
  ⟨by simp, by simp, rfl, rfl⟩

theorem list_pairs_induction {α : Type} (P : List α → Prop) (h0 : P []) (h1 : ∀ a, P [a])
    (h2 : ∀ a b rest, P rest → P (a :: b :: rest)) : ∀ l, P l
  | [] => h0
  | [a] => h1 a
  | a :: b :: rest => h2 a b rest (list_pairs_induction P h0 h1 h2 rest)

theorem testTextsPadSegments_step (env : Env) (pad : D_PAD) (text : TEXTE_PCB)
    (shape_pos : wxPoint) (shape : List wxPoint) :
    ∀ s : DRC, Step s (testTextsPadSegments env pad text shape_pos shape s)
      (if textPadHit env pad text shape_pos shape = true then
        [MARKER_PCB.ofPad pad (BOARD_ITEM.text text) DRCE_PAD_INSIDE_TEXT]
       else []) [] s.m_pcb := by
  induction shape using list_pairs_induction with
  | h0 => intro s; exact Step.refl s
  | h1 a => intro s; exact Step.refl s
  | h2 a b rest ih =>
    intro s
    simp only [testTextsPadSegments, textPadHit]
    generalize hck : env.checkClearanceSegmToPad _ _ _ _ _ _ _ = ck
    cases ck with
    | false =>
      simp only [if_true]
      exact ((step_scratch s _ _ _ _).trans (step_addMarker _ _)).cast rfl rfl rfl
    | true =>
      simp only [Bool.true_eq_false, if_false]
      exact ((step_scratch s _ _ _ _).trans (ih _)).cast rfl rfl rfl

theorem testTextsPads_step (env : Env) (text : TEXTE_PCB) (shape : List wxPoint)
    (pads : List D_PAD) (s : DRC) :
    Step s (testTextsPads env text shape pads s)
      (pads.filterMap (textPadMarker env text shape)) [] s.m_pcb := by
  induction pads generalizing s with
  | nil => exact Step.refl s
  | cons pad rest ih =>
    simp only [testTextsPads]
    by_cases hl : env.PadIsOnLayer pad text.m_Layer = false
    · rw [if_pos hl]
      have hm : textPadMarker env text shape pad = none := by
        simp [textPadMarker, hl]
      simp only [List.filterMap_cons, hm]
      exact ih s
    · rw [if_neg hl]
      have h1 := testTextsPadSegments_step env pad text (env.ShapePos pad) shape s
      have h2 := ih (testTextsPadSegments env pad text (env.ShapePos pad) shape s)
      rw [h1.pcb] at h2
      refine (h1.trans h2).cast ?_ rfl rfl
      by_cases hh : textPadHit env pad text (env.ShapePos pad) shape = true
      · simp [List.filterMap_cons, textPadMarker, hl, hh]
      · simp [List.filterMap_cons, textPadMarker, hl, hh]

theorem testTextsLoop_step (env : Env) (pcb : BOARD) (items : List TEXTE_PCB) (s : DRC)
    (hs : s.m_pcb = pcb) :
    Step s (testTextsLoop env pcb.m_pads items s)
      (items.flatMap (textItemMarkers env pcb)) [] pcb := by
  induction items generalizing s with
  | nil => subst hs; exact Step.refl s
  | cons item rest ih =>
    simp only [testTextsLoop, List.flatMap_cons]
    by_cases hc : env.IsCopperLayer item.m_Layer = false
    · rw [if_pos hc]
      have hm : textItemMarkers env pcb item = [] := by simp [textItemMarkers, hc]
      rw [hm, List.nil_append]
      exact ih s hs
    · rw [if_neg hc]
      by_cases ht : item.m_StructType ≠ PCB_TEXT_T
      · rw [if_pos ht]
        have hm : textItemMarkers env pcb item = [] := by simp [textItemMarkers, hc, ht]
        rw [hm, List.nil_append]
        exact ih s hs
      · rw [if_neg ht]
        by_cases he : (env.TransformTextShapeToSegmentList item).length = 0
        · rw [if_pos he]
          have hm : textItemMarkers env pcb item = [] := by
            simp [textItemMarkers, he]
          rw [hm, List.nil_append]
          exact ih s hs
        · rw [if_neg he]
          have h1 := testTextsTracks_step env item (env.TransformTextShapeToSegmentList item)
            s.m_pcb.m_Track s
          have h2 := testTextsPads_step env item (env.TransformTextShapeToSegmentList item)
            pcb.m_pads (testTextsTracks env item (env.TransformTextShapeToSegmentList item)
              s.m_pcb.m_Track s)
          rw [h1.pcb] at h2
          have h12 := h1.trans h2
          have h3 := ih _ (h12.pcb.trans hs)
          refine (h12.trans h3).cast ?_ rfl rfl
          have ht2 : item.m_StructType = PCB_TEXT_T := by simpa using ht
          simp [textItemMarkers, hc, ht2, he, hs, List.append_assoc]

theorem testTexts_step (env : Env) (s : DRC) :
    Step s (testTexts env s) (s.m_pcb.m_Drawings.flatMap (textItemMarkers env s.m_pcb)) []
      s.m_pcb := by
  unfold testTexts
  exact testTextsLoop_step env s.m_pcb _ s rfl

/-! ## Footprint courtyard validator: proofs -/

theorem courtyardBuildLoop_spec (env : Env) (cfg : Toggles) (mods : List MODULE)
    (success : Bool) (s : DRC) (hcfg : s.toggles = cfg) :
    (courtyardBuildLoop env mods success s).1 = mods.map (rebuildCourtyard env) ∧
    (courtyardBuildLoop env mods success s).2.1 =
      (if mods.flatMap (courtyardBuildMarkers env cfg) = [] then success else false) ∧
    Step s (courtyardBuildLoop env mods success s).2.2
      (mods.flatMap (courtyardBuildMarkers env cfg)) [] s.m_pcb := by
  induction mods generalizing success s with
  | nil => exact ⟨rfl, by simp [courtyardBuildLoop], Step.refl s⟩
  | cons footprint rest ih =>
    -- the state and the value of `success` after the tests of this footprint
    obtain ⟨r, hr, hr1, hstep⟩ : ∃ r : Bool × DRC,
        courtyardBuildLoop env (footprint :: rest) success s =
          (rebuildCourtyard env footprint :: (courtyardBuildLoop env rest r.1 r.2).1,
            (courtyardBuildLoop env rest r.1 r.2).2.1,
            (courtyardBuildLoop env rest r.1 r.2).2.2) ∧
        r.1 = (if courtyardBuildMarkers env cfg footprint = [] then success else false) ∧
        Step s r.2 (courtyardBuildMarkers env cfg footprint) [] s.m_pcb := by
      subst hcfg
      simp only [courtyardBuildLoop, courtyardBuildMarkers, rebuildCourtyard, DRC.toggles]
      have c1 : (env.BuildPolyCourtyard footprint).1 = true
          ∨ (env.BuildPolyCourtyard footprint).1 = false := by
        cases (env.BuildPolyCourtyard footprint).1 <;> simp
      have c2 : s.m_doFootprintOverlapping = true ∨ s.m_doFootprintOverlapping = false := by
        cases s.m_doFootprintOverlapping <;> simp
      have c3 : s.m_doNoCourtyardDefined = true ∨ s.m_doNoCourtyardDefined = false := by
        cases s.m_doNoCourtyardDefined <;> simp
      refine ⟨_, rfl, ?_, ?_⟩
      · rcases c1 with hok | hok <;> rcases c2 with hov | hov <;> rcases c3 with hnc | hnc <;>
          by_cases hf : (env.BuildPolyCourtyard footprint).2.1.length = 0 <;>
          by_cases hbk : (env.BuildPolyCourtyard footprint).2.2.length = 0 <;>
          simp [hok, hov, hnc, hf, hbk, addMarkerToPcb]
      · rcases c1 with hok | hok <;> rcases c2 with hov | hov <;> rcases c3 with hnc | hnc <;>
          by_cases hf : (env.BuildPolyCourtyard footprint).2.1.length = 0 <;>
          by_cases hbk : (env.BuildPolyCourtyard footprint).2.2.length = 0 <;>
          refine ⟨?_, ?_, ?_, ?_⟩ <;>
          simp [hok, hov, hnc, hf, hbk, addMarkerToPcb, DRC.toggles]
    have hcfg2 : r.2.toggles = cfg := hstep.toggles.trans hcfg
    obtain ⟨ih1, ih2, ih3⟩ := ih r.1 r.2 hcfg2
    rw [hr]
    refine ⟨by simp [ih1], ?_, ?_⟩
    · show (courtyardBuildLoop env rest r.1 r.2).2.1 = _
      rw [ih2, hr1]
      by_cases ha : courtyardBuildMarkers env cfg footprint = [] <;>
        by_cases hb : rest.flatMap (courtyardBuildMarkers env cfg) = [] <;>
        simp [ha, hb, List.flatMap_cons]
    · rw [hstep.pcb] at ih3
      exact (hstep.trans ih3).cast (by simp [List.flatMap_cons]) rfl rfl

theorem courtyardOverlapCandidates_spec (env : Env) (side : MODULE → SHAPE_POLY_SET)
    (sideText : String) (footprint : MODULE) (hfp : (side footprint).length ≠ 0)
    (cands : List MODULE) (success : Bool) (s : DRC) :
    (courtyardOverlapCandidates env side sideText footprint cands success s).1 =
      (if (cands.filter (courtyardsOverlap env side footprint)).map
          (courtyardOverlapMarker env side sideText footprint) = [] then success else false) ∧
    Step s (courtyardOverlapCandidates env side sideText footprint cands success s).2
      ((cands.filter (courtyardsOverlap env side footprint)).map
        (courtyardOverlapMarker env side sideText footprint)) [] s.m_pcb := by
  induction cands generalizing success s with
  | nil => exact ⟨by simp [courtyardOverlapCandidates], Step.refl s⟩
  | cons c rest ih =>
    simp only [courtyardOverlapCandidates]
    by_cases hc : (side c).length = 0
    · have ho : courtyardsOverlap env side footprint c = false := by
        simp [courtyardsOverlap, hc]
      rw [if_pos hc, List.filter_cons_of_neg (by simp [ho])]
      exact ih success s
    · rw [if_neg hc]
      by_cases hi : (env.BooleanIntersection (side footprint) (side c)).length ≠ 0
      · have ho : courtyardsOverlap env side footprint c = true := by
          simp only [courtyardsOverlap, decide_eq_true_eq]
          exact ⟨hfp, hc, hi⟩
        rw [if_pos hi, List.filter_cons_of_pos ho]
        obtain ⟨ih1, ih2⟩ := ih false
          { addMarkerToPcb (MARKER_PCB.ofPos
              (env.Vertex (env.BooleanIntersection (side footprint) (side c)))
              DRCE_OVERLAPPING_FOOTPRINTS
              ("footprints \x27" ++ footprint.m_Reference ++ "\x27 and \x27"
                ++ c.m_Reference ++ "\x27 overlap on " ++ sideText)) s
            with m_currentMarker := none }
        refine ⟨?_, ?_⟩
        · rw [ih1]
          simp
        · exact ((step_addMarker _ s).trans ih2).cast (by simp [courtyardOverlapMarker]) rfl rfl
      · have ho : courtyardsOverlap env side footprint c = false := by
          simp only [courtyardsOverlap, decide_eq_false_iff_not]
          exact fun h => hi h.2.2
        rw [if_neg hi, List.filter_cons_of_neg (by simp [ho])]
        exact ih success s

theorem courtyardOverlapMarkers_cons (env : Env) (side : MODULE → SHAPE_POLY_SET)
    (sideText : String) (footprint : MODULE) (rest : List MODULE) :
    courtyardOverlapMarkers env side sideText (footprint :: rest) =
      (rest.filter (courtyardsOverlap env side footprint)).map
        (courtyardOverlapMarker env side sideText footprint)
      ++ courtyardOverlapMarkers env side sideText rest := by
  simp only [courtyardOverlapMarkers, footprintPairs, List.filter_append, List.map_append,
    List.filter_map, List.map_map]
  rfl

theorem courtyardOverlapLoop_spec (env : Env) (side : MODULE → SHAPE_POLY_SET)
    (sideText : String) (mods : List MODULE) (success : Bool) (s : DRC) :
    (courtyardOverlapLoop env side sideText mods success s).1 =
      (if courtyardOverlapMarkers env side sideText mods = [] then success else false) ∧
    Step s (courtyardOverlapLoop env side sideText mods success s).2
      (courtyardOverlapMarkers env side sideText mods) [] s.m_pcb := by
  induction mods generalizing success s with
  | nil => exact ⟨by simp [courtyardOverlapLoop, courtyardOverlapMarkers, footprintPairs],
      Step.refl s⟩
  | cons footprint rest ih =>
    rw [courtyardOverlapMarkers_cons]
    simp only [courtyardOverlapLoop]
    by_cases hf : (side footprint).length = 0
    · have hnone : rest.filter (courtyardsOverlap env side footprint) = [] := by
        apply List.filter_eq_nil_iff.mpr
        intro c _
        simp [courtyardsOverlap, hf]
      rw [if_pos hf, hnone, List.map_nil, List.nil_append]
      exact ih success s
    · rw [if_neg hf]
      obtain ⟨h1, h2⟩ := courtyardOverlapCandidates_spec env side sideText footprint hf rest
        success s
      obtain ⟨ih1, ih2⟩ := ih
        (courtyardOverlapCandidates env side sideText footprint rest success s).1
        (courtyardOverlapCandidates env side sideText footprint rest success s).2
      rw [h2.pcb] at ih2
      refine ⟨?_, (h2.trans ih2).cast rfl rfl rfl⟩
      rw [ih1, h1]
      by_cases ha : (rest.filter (courtyardsOverlap env side footprint)).map
          (courtyardOverlapMarker env side sideText footprint) = [] <;>
        by_cases hb : courtyardOverlapMarkers env side sideText rest = [] <;>
        simp [ha, hb]

theorem doFootprintOverlappingDrc_spec (env : Env) (s : DRC) :
    (doFootprintOverlappingDrc env s).1 =
      decide (courtyardMarkers env s.toggles s.m_pcb = []) ∧
    Step s (doFootprintOverlappingDrc env s).2 (courtyardMarkers env s.toggles s.m_pcb) []
      (courtyardBoard env s.m_pcb) := by
  obtain ⟨b1, b2, b3⟩ := courtyardBuildLoop_spec env s.toggles s.m_pcb.m_Modules true s rfl
  obtain ⟨s1, hs1⟩ : ∃ s1 : DRC, s1 =
      { (courtyardBuildLoop env s.m_pcb.m_Modules true s).2.2 with
        m_pcb := { (courtyardBuildLoop env s.m_pcb.m_Modules true s).2.2.m_pcb with
          m_Modules := (courtyardBuildLoop env s.m_pcb.m_Modules true s).1 } } := ⟨_, rfl⟩
  have st1 : Step s s1 (s.m_pcb.m_Modules.flatMap (courtyardBuildMarkers env s.toggles)) []
      (courtyardBoard env s.m_pcb) := by
    subst hs1
    exact ⟨b3.markers, b3.unconnected, by simp [b3.pcb, b1, courtyardBoard], b3.toggles⟩
  have hov : s1.m_doFootprintOverlapping = s.toggles.m_doFootprintOverlapping :=
    congrArg Toggles.m_doFootprintOverlapping st1.toggles
  by_cases ho : s.toggles.m_doFootprintOverlapping = false
  · have key : doFootprintOverlappingDrc env s =
        ((courtyardBuildLoop env s.m_pcb.m_Modules true s).2.1, s1) := by
      subst hs1
      unfold doFootprintOverlappingDrc
      exact if_pos (hov.trans ho)
    rw [key]
    simp only [courtyardMarkers, ho, Bool.false_eq_true, if_false, List.append_nil]
    refine ⟨?_, st1⟩
    rw [b2]
    by_cases hb : s.m_pcb.m_Modules.flatMap (courtyardBuildMarkers env s.toggles) = [] <;>
      simp [hb]
  · have hot : s.toggles.m_doFootprintOverlapping = true := by simpa using ho
    obtain ⟨rf, hrf⟩ : ∃ rf, rf = courtyardOverlapLoop env (fun m => m.m_poly_courtyard_front)
        "front (top) layer" s1.m_pcb.m_Modules
        (courtyardBuildLoop env s.m_pcb.m_Modules true s).2.1 s1 := ⟨_, rfl⟩
    have key : doFootprintOverlappingDrc env s =
        courtyardOverlapLoop env (fun m => m.m_poly_courtyard_back)
          "back (bottom) layer" rf.2.m_pcb.m_Modules rf.1 rf.2 := by
      subst hrf hs1
      unfold doFootprintOverlappingDrc
      exact if_neg (fun h => ho (hov.symm.trans h))
    obtain ⟨f1, f2⟩ := courtyardOverlapLoop_spec env (fun m => m.m_poly_courtyard_front)
      "front (top) layer" s1.m_pcb.m_Modules
      (courtyardBuildLoop env s.m_pcb.m_Modules true s).2.1 s1
    rw [← hrf] at f1 f2
    obtain ⟨g1, g2⟩ := courtyardOverlapLoop_spec env (fun m => m.m_poly_courtyard_back)
      "back (bottom) layer" rf.2.m_pcb.m_Modules rf.1 rf.2
    have hp1 : s1.m_pcb = courtyardBoard env s.m_pcb := st1.pcb
    have hp2 : rf.2.m_pcb = courtyardBoard env s.m_pcb := f2.pcb.trans hp1
    rw [hp1] at f1 f2
    rw [hp2] at g1 g2 key
    rw [key]
    refine ⟨?_, ?_⟩
    · rw [g1, f1, b2]
      simp only [courtyardMarkers, hot, if_true, courtyardBoard]
      by_cases h1 : s.m_pcb.m_Modules.flatMap (courtyardBuildMarkers env s.toggles) = [] <;>
        by_cases h2 : courtyardOverlapMarkers env (fun m => m.m_poly_courtyard_front)
          "front (top) layer" (s.m_pcb.m_Modules.map (rebuildCourtyard env)) = [] <;>
        by_cases h3 : courtyardOverlapMarkers env (fun m => m.m_poly_courtyard_back)
          "back (bottom) layer" (s.m_pcb.m_Modules.map (rebuildCourtyard env)) = [] <;>
        simp [h1, h2, h3]
    · refine ((st1.trans f2).trans g2).cast ?_ rfl rfl
      simp [courtyardMarkers, hot, courtyardBoard, List.append_assoc]

theorem courtyardBuildMarkers_code (env : Env) (cfg : Toggles) (footprint : MODULE)
    (m : MARKER_PCB) (hm : m ∈ courtyardBuildMarkers env cfg footprint) :
    m.code = DRCE_MALFORMED_COURTYARD_IN_FOOTPRINT ∨
    m.code = DRCE_MISSING_COURTYARD_IN_FOOTPRINT := by
  unfold courtyardBuildMarkers at hm
  rcases List.mem_append.mp hm with h | h
  · split at h
    · rw [List.mem_singleton.mp h]
      exact Or.inl rfl
    · cases h
  · split at h
    · rw [List.mem_singleton.mp h]
      exact Or.inr rfl
    · cases h

theorem courtyardOverlapMarkers_code (env : Env) (side : MODULE → SHAPE_POLY_SET)
    (sideText : String) (mods : List MODULE) (m : MARKER_PCB)
    (hm : m ∈ courtyardOverlapMarkers env side sideText mods) :
    m.code = DRCE_OVERLAPPING_FOOTPRINTS := by
  unfold courtyardOverlapMarkers at hm
  obtain ⟨p, _, hp⟩ := List.mem_map.mp hm
  rw [← hp]
  rfl

theorem footprintPairs_length (l : List MODULE) :
    (footprintPairs l).length = l.length.choose 2 := by
  induction l with
  | nil => rfl
  | cons a rest ih =>
    simp only [footprintPairs, List.length_append, List.length_map, List.length_cons, ih,
      Nat.choose_succ_succ, Nat.choose_one_right]

theorem footprintPairs_sublist (l : List MODULE) (p : MODULE × MODULE)
    (hp : p ∈ footprintPairs l) : List.Sublist [p.1, p.2] l := by
  induction l with
  | nil => cases hp
  | cons a rest ih =>
    simp only [footprintPairs, List.mem_append, List.mem_map] at hp
    rcases hp with ⟨c, hc, rfl⟩ | h
    · exact List.Sublist.cons₂ a (List.singleton_sublist.mpr hc)
    · exact List.Sublist.cons a (ih h)

/-! ## Claims on the courtyard validator -/

/-- C12: for every board, the number of `DRCE_OVERLAPPING_FOOTPRINTS` violations that
`doFootprintOverlappingDrc` adds to the sink is, with overlap checking enabled, the number of
footprint pairs whose rebuilt front courtyards are both defined and have a non-empty
intersection plus the number of footprint pairs for which the same holds of the back
courtyards, and zero with overlap checking disabled.  The pairs are those of
`footprintPairs`: an earlier and a later footprint of the board, every choice of two
footprints once, so a pair adds at most one violation per side. -/
theorem overlap_violations_one_per_pair_and_side (env : Env) (s : DRC) :
    ((emitted s (doFootprintOverlappingDrc env s).2).filter
        (fun m => decide (m.code = DRCE_OVERLAPPING_FOOTPRINTS))).length =
      (if s.m_doFootprintOverlapping = true then
        ((footprintPairs (s.m_pcb.m_Modules.map (rebuildCourtyard env))).filter
          (fun p => courtyardsOverlap env (fun m => m.m_poly_courtyard_front) p.1 p.2)).length +
        ((footprintPairs (s.m_pcb.m_Modules.map (rebuildCourtyard env))).filter
          (fun p => courtyardsOverlap env (fun m => m.m_poly_courtyard_back) p.1 p.2)).length
       else 0) ∧
    (footprintPairs (s.m_pcb.m_Modules.map (rebuildCourtyard env))).length =
      s.m_pcb.m_Modules.length.choose 2 ∧
    (∀ p ∈ footprintPairs (s.m_pcb.m_Modules.map (rebuildCourtyard env)),
      List.Sublist [p.1, p.2] (s.m_pcb.m_Modules.map (rebuildCourtyard env))) ∧
    (∀ a b : MODULE,
      courtyardsOverlap env (fun m => m.m_poly_courtyard_front) a b = true ↔
        a.m_poly_courtyard_front.length ≠ 0 ∧ b.m_poly_courtyard_front.length ≠ 0 ∧
        (env.BooleanIntersection a.m_poly_courtyard_front b.m_poly_courtyard_front).length
          ≠ 0) ∧
    (∀ a b : MODULE,
      courtyardsOverlap env (fun m => m.m_poly_courtyard_back) a b = true ↔
        a.m_poly_courtyard_back.length ≠ 0 ∧ b.m_poly_courtyard_back.length ≠ 0 ∧
        (env.BooleanIntersection a.m_poly_courtyard_back b.m_poly_courtyard_back).length
          ≠ 0) := by
  refine ⟨?_, ?_, ?_, ?_, ?_⟩
  · rw [(doFootprintOverlappingDrc_spec env s).2.emitted_eq]
    have hb : (s.m_pcb.m_Modules.flatMap (courtyardBuildMarkers env s.toggles)).filter
        (fun m => decide (m.code = DRCE_OVERLAPPING_FOOTPRINTS)) = [] := by
      apply List.filter_eq_nil_iff.mpr
      intro m hm
      obtain ⟨fp, _, hfp⟩ := List.mem_flatMap.mp hm
      rcases courtyardBuildMarkers_code env _ fp m hfp with h | h <;> simp [h]
    have ho : ∀ (side : MODULE → SHAPE_POLY_SET) (sideText : String) (mods : List MODULE),
        ((courtyardOverlapMarkers env side sideText mods).filter
          (fun m => decide (m.code = DRCE_OVERLAPPING_FOOTPRINTS))).length =
        ((footprintPairs mods).filter
          (fun p => courtyardsOverlap env side p.1 p.2)).length := by
      intro side sideText mods
      rw [List.filter_eq_self.mpr]
      · simp [courtyardOverlapMarkers]
      · intro m hm
        simp [courtyardOverlapMarkers_code env side sideText mods m hm]
    unfold courtyardMarkers
    rw [List.filter_append, hb, List.nil_append]
    have ht : s.toggles.m_doFootprintOverlapping = s.m_doFootprintOverlapping := rfl
    rw [ht]
    by_cases hov : s.m_doFootprintOverlapping = true
    · rw [if_pos hov, if_pos hov, List.filter_append, List.length_append, ho, ho]
    · rw [if_neg hov, if_neg hov]
      rfl
  · rw [footprintPairs_length, List.length_map]
  · exact fun p hp => footprintPairs_sublist _ p hp
  · intro a b
    simp [courtyardsOverlap]
  · intro a b
    simp [courtyardsOverlap]

/-- C13: the first loop of `doFootprintOverlappingDrc` adds to the sink, footprint by
footprint in board order, the markers of `courtyardBuildMarkers`; for every footprint these
hold a `DRCE_MALFORMED_COURTYARD_IN_FOOTPRINT` violation exactly when the courtyard build
fails and overlap checking is enabled, a `DRCE_MISSING_COURTYARD_IN_FOOTPRINT` violation
exactly when the build succeeds, the front and the back courtyard are both empty and the
missing courtyard warning is enabled, at most one violation in all, and no violation of
another kind. -/
theorem courtyard_build_reports_malformed_and_missing (env : Env) (mods : List MODULE)
    (success : Bool) (s : DRC) :
    emitted s (courtyardBuildLoop env mods success s).2.2 =
      mods.flatMap (courtyardBuildMarkers env s.toggles) ∧
    ∀ footprint : MODULE,
      ((∃ m ∈ courtyardBuildMarkers env s.toggles footprint,
          m.code = DRCE_MALFORMED_COURTYARD_IN_FOOTPRINT) ↔
        ((env.BuildPolyCourtyard footprint).1 = false ∧ s.m_doFootprintOverlapping = true)) ∧
      ((∃ m ∈ courtyardBuildMarkers env s.toggles footprint,
          m.code = DRCE_MISSING_COURTYARD_IN_FOOTPRINT) ↔
        ((env.BuildPolyCourtyard footprint).1 = true ∧
          (env.BuildPolyCourtyard footprint).2.1.length = 0 ∧
          (env.BuildPolyCourtyard footprint).2.2.length = 0 ∧
          s.m_doNoCourtyardDefined = true)) ∧
      (courtyardBuildMarkers env s.toggles footprint).length ≤ 1 ∧
      (∀ m ∈ courtyardBuildMarkers env s.toggles footprint,
        m.code = DRCE_MALFORMED_COURTYARD_IN_FOOTPRINT ∨
        m.code = DRCE_MISSING_COURTYARD_IN_FOOTPRINT) := by
  refine ⟨(courtyardBuildLoop_spec env s.toggles mods success s rfl).2.2.emitted_eq, ?_⟩
  intro footprint
  have c1 : (env.BuildPolyCourtyard footprint).1 = true ∨
      (env.BuildPolyCourtyard footprint).1 = false := by
    cases (env.BuildPolyCourtyard footprint).1 <;> simp
  have c2 : s.m_doFootprintOverlapping = true ∨ s.m_doFootprintOverlapping = false := by
    cases s.m_doFootprintOverlapping <;> simp
  have c3 : s.m_doNoCourtyardDefined = true ∨ s.m_doNoCourtyardDefined = false := by
    cases s.m_doNoCourtyardDefined <;> simp
  refine ⟨?_, ?_, ?_, fun m hm => courtyardBuildMarkers_code env _ footprint m hm⟩
  · rcases c1 with h1 | h1 <;> rcases c2 with h2 | h2 <;> rcases c3 with h3 | h3 <;>
      by_cases hf : (env.BuildPolyCourtyard footprint).2.1.length = 0 <;>
      by_cases hbk : (env.BuildPolyCourtyard footprint).2.2.length = 0 <;>
      simp [courtyardBuildMarkers, DRC.toggles, h1, h2, h3, hf, hbk, MARKER_PCB.code]
  · rcases c1 with h1 | h1 <;> rcases c2 with h2 | h2 <;> rcases c3 with h3 | h3 <;>
      by_cases hf : (env.BuildPolyCourtyard footprint).2.1.length = 0 <;>
      by_cases hbk : (env.BuildPolyCourtyard footprint).2.2.length = 0 <;>
      simp [courtyardBuildMarkers, DRC.toggles, h1, h2, h3, hf, hbk, MARKER_PCB.code]
  · rcases c1 with h1 | h1 <;> rcases c2 with h2 | h2 <;> rcases c3 with h3 | h3 <;>
      by_cases hf : (env.BuildPolyCourtyard footprint).2.1.length = 0 <;>
      by_cases hbk : (env.BuildPolyCourtyard footprint).2.2.length = 0 <;>
      simp [courtyardBuildMarkers, DRC.toggles, h1, h2, h3, hf, hbk]

/-! ## The full run: closed form -/

theorem testNetClasses_step (env : Env) (s : DRC) :
    (testNetClasses env s).1 = netclassesPass s.m_pcb ∧
    Step s (testNetClasses env s).2 (netclassMarkers env s.m_pcb) [] s.m_pcb := by
  rw [testNetClasses_eq]
  exact ⟨rfl, rfl, by simp, rfl, rfl⟩

theorem netclassMarkers_of_pass (env : Env) (pcb : BOARD) (h : netclassesPass pcb = true) :
    netclassMarkers env pcb = [] := by
  unfold netclassMarkers
  apply List.flatMap_eq_nil_iff.mpr
  intro nc hnc
  have hu : ¬ nc.undersized pcb.m_designSettings := by
    have := List.all_eq_true.mp h nc hnc
    simpa using this
  unfold NETCLASS.undersized at hu
  simp only [not_or, not_lt] at hu
  obtain ⟨h1, h2, h3, h4, h5⟩ := hu
  simp [netclassViolations, not_lt.mpr h1, not_lt.mpr h2, not_lt.mpr h3, not_lt.mpr h4,
    not_lt.mpr h5]

theorem testPad2Pad_step (env : Env) (s : DRC) :
    Step s (testPad2Pad env s) (pad2padMarkers env s.m_pcb) [] s.m_pcb := by
  unfold testPad2Pad
  rw [testPad2PadLoop_eq]
  exact ⟨rfl, by simp, rfl, rfl⟩

theorem Fill_All_Zones_step (env : Env) (s : DRC) :
    Step s (Fill_All_Zones env s) [] [] (filledBoard env s.m_pcb) :=
  ⟨by simp [Fill_All_Zones], by simp [Fill_All_Zones], rfl, rfl⟩

theorem testZones_step (env : Env) (s : DRC) :
    Step s (testZones env s) (zoneMarkers env s.m_pcb) [] s.m_pcb := by
  unfold testZones
  rw [testZonesLoop_eq]
  exact ⟨by simp [zoneMarkers, List.append_assoc], by simp, rfl, rfl⟩

theorem testUnconnectedLoop_step (edges : List CN_EDGE) (s : DRC) :
    Step s (testUnconnectedLoop edges s) [] (edges.map unconnectedRecord) s.m_pcb := by
  induction edges generalizing s with
  | nil => exact Step.refl s
  | cons edge rest ih =>
    have h1 : Step s { s with m_unconnected := s.m_unconnected ++ [unconnectedRecord edge] }
        [] [unconnectedRecord edge] s.m_pcb := ⟨by simp, rfl, rfl, rfl⟩
    exact (h1.trans (ih _)).cast rfl rfl rfl

theorem testUnconnected_step (env : Env) (s : DRC) :
    Step s (testUnconnected env s) [] (unconnectedRecords env s.m_pcb) s.m_pcb :=
  testUnconnectedLoop_step _ s

theorem testKeepoutAreas_step (env : Env) (s : DRC) :
    Step s (testKeepoutAreas env s) (keepoutMarkers env s.m_pcb) [] s.m_pcb := by
  unfold testKeepoutAreas
  rw [testKeepoutAreasLoop_eq]
  exact ⟨rfl, by simp, rfl, rfl⟩

theorem Step.andThen {s s1 : DRC} {l : List MARKER_PCB} {u : List DRC_ITEM} {p : BOARD}
    (h : Step s s1 l u p) (f : DRC → DRC) (L : Toggles → BOARD → List MARKER_PCB)
    (U : Toggles → BOARD → List DRC_ITEM) (P : Toggles → BOARD → BOARD)
    (hf : ∀ t : DRC, Step t (f t) (L t.toggles t.m_pcb) (U t.toggles t.m_pcb)
      (P t.toggles t.m_pcb)) :
    Step s (f s1) (l ++ L s.toggles p) (u ++ U s.toggles p) (P s.toggles p) := by
  have h2 := hf s1
  rw [h.toggles, h.pcb] at h2
  exact h.trans h2

theorem stage_pad2pad (env : Env) (t : DRC) :
    Step t (if t.m_doPad2PadTest = true then testPad2Pad env t else t)
      (if t.toggles.m_doPad2PadTest = true then pad2padMarkers env t.m_pcb else []) []
      t.m_pcb := by
  have ht : t.toggles.m_doPad2PadTest = t.m_doPad2PadTest := rfl
  rw [ht]
  by_cases h : t.m_doPad2PadTest = true
  · rw [if_pos h, if_pos h]
    exact testPad2Pad_step env t
  · rw [if_neg h, if_neg h]
    exact Step.refl t

theorem stage_unconnected (env : Env) (t : DRC) :
    Step t (if t.m_doUnconnectedTest = true then testUnconnected env t else t) []
      (if t.toggles.m_doUnconnectedTest = true then unconnectedRecords env t.m_pcb else [])
      t.m_pcb := by
  have ht : t.toggles.m_doUnconnectedTest = t.m_doUnconnectedTest := rfl
  rw [ht]
  by_cases h : t.m_doUnconnectedTest = true
  · rw [if_pos h, if_pos h]
    exact testUnconnected_step env t
  · rw [if_neg h, if_neg h]
    exact Step.refl t

theorem stage_keepout (env : Env) (t : DRC) :
    Step t (if t.m_doKeepoutTest = true then testKeepoutAreas env t else t)
      (if t.toggles.m_doKeepoutTest = true then keepoutMarkers env t.m_pcb else []) []
      t.m_pcb := by
  have ht : t.toggles.m_doKeepoutTest = t.m_doKeepoutTest := rfl
  rw [ht]
  by_cases h : t.m_doKeepoutTest = true
  · rw [if_pos h, if_pos h]
    exact testKeepoutAreas_step env t
  · rw [if_neg h, if_neg h]
    exact Step.refl t

theorem stage_courtyard (env : Env) (t : DRC) :
    Step t
      (if t.m_doFootprintOverlapping = true ∨ t.m_doNoCourtyardDefined = true then
        (doFootprintOverlappingDrc env t).2 else t)
      (if t.toggles.m_doFootprintOverlapping = true ∨ t.toggles.m_doNoCourtyardDefined = true
        then courtyardMarkers env t.toggles t.m_pcb else []) []
      (if t.toggles.m_doFootprintOverlapping = true ∨ t.toggles.m_doNoCourtyardDefined = true
        then courtyardBoard env t.m_pcb else t.m_pcb) := by
  have h1 : t.toggles.m_doFootprintOverlapping = t.m_doFootprintOverlapping := rfl
  have h2 : t.toggles.m_doNoCourtyardDefined = t.m_doNoCourtyardDefined := rfl
  rw [h1, h2]
  by_cases h : t.m_doFootprintOverlapping = true ∨ t.m_doNoCourtyardDefined = true
  · rw [if_pos h, if_pos h, if_pos h]
    exact (doFootprintOverlappingDrc_spec env t).2
  · rw [if_neg h, if_neg h, if_neg h]
    exact Step.refl t

theorem RunTests_step (env : Env) (s : DRC) :
    Step s (RunTests env s) (runMarkers env s.toggles s.m_pcb)
      (runUnconnected env s.toggles s.m_pcb) (runBoard env s.toggles s.m_pcb) := by
  obtain ⟨n1, n2⟩ := testNetClasses_step env s
  by_cases hp : netclassesPass s.m_pcb = true
  · have hne : ¬ (testNetClasses env s).1 = false := by
      rw [n1, hp]
      simp
    have chain :=
      ((((((((n2.andThen
        (fun t => if t.m_doPad2PadTest = true then testPad2Pad env t else t)
        (fun cfg pcb => if cfg.m_doPad2PadTest = true then pad2padMarkers env pcb else [])
        (fun _ _ => []) (fun _ pcb => pcb) (stage_pad2pad env)).andThen
        (fun t => testTracks env true t)
        (fun _ pcb => trackMarkers env true pcb)
        (fun _ _ => []) (fun _ pcb => pcb) (testTracks_step env true)).andThen
        (fun t => Fill_All_Zones env t)
        (fun _ _ => []) (fun _ _ => []) (fun _ pcb => filledBoard env pcb)
        (Fill_All_Zones_step env)).andThen
        (fun t => testZones env t)
        (fun _ pcb => zoneMarkers env pcb)
        (fun _ _ => []) (fun _ pcb => pcb) (testZones_step env)).andThen
        (fun t => if t.m_doUnconnectedTest = true then testUnconnected env t else t)
        (fun _ _ => [])
        (fun cfg pcb => if cfg.m_doUnconnectedTest = true then unconnectedRecords env pcb
          else [])
        (fun _ pcb => pcb) (stage_unconnected env)).andThen
        (fun t => if t.m_doKeepoutTest = true then testKeepoutAreas env t else t)
        (fun cfg pcb => if cfg.m_doKeepoutTest = true then keepoutMarkers env pcb else [])
        (fun _ _ => []) (fun _ pcb => pcb) (stage_keepout env)).andThen
        (fun t => testTexts env t)
        (fun _ pcb => textMarkers env pcb)
        (fun _ _ => []) (fun _ pcb => pcb) (testTexts_step env)).andThen
        (fun t => if t.m_doFootprintOverlapping = true ∨ t.m_doNoCourtyardDefined = true then
          (doFootprintOverlappingDrc env t).2 else t)
        (fun cfg pcb =>
          if cfg.m_doFootprintOverlapping = true ∨ cfg.m_doNoCourtyardDefined = true
          then courtyardMarkers env cfg pcb else [])
        (fun _ _ => [])
        (fun cfg pcb =>
          if cfg.m_doFootprintOverlapping = true ∨ cfg.m_doNoCourtyardDefined = true
          then courtyardBoard env pcb else pcb) (stage_courtyard env))
    have key : RunTests env s = _ := if_neg hne
    rw [key]
    refine chain.cast ?_ ?_ ?_
    · simp [runMarkers, stageMarkers, hp, List.append_assoc]
    · simp [runUnconnected, hp]
    · simp [runBoard, hp]
  · have he : (testNetClasses env s).1 = false := by
      rw [n1]
      simpa using hp
    have key : RunTests env s = (testNetClasses env s).2 := if_pos he
    rw [key]
    refine n2.cast ?_ ?_ ?_
    · simp [runMarkers, hp]
    · simp [runUnconnected, hp]
    · simp [runBoard, hp]

/-! ## Claims on the full run -/

/-- C17: for every board whose netclasses pass and every configuration, the violations that
`RunTests` adds to the sink are, in this order, the violations of the pad to pad test (when
its toggle is on), of the track test, of the zone test on the refilled board, of the keepout
test (when its toggle is on), of the text test and of the courtyard validator (when one of
its two toggles is on); each of these lists is what the sub-check adds to the sink on any
engine state with that board, and the netclass validation, the zone refill and the
unconnected test add nothing to the sink. -/
theorem RunTests_emits_in_fixed_order (env : Env) (s : DRC)
    (hpass : (testNetClasses env s).1 = true) :
    emitted s (RunTests env s) =
      (if s.m_doPad2PadTest = true then pad2padMarkers env s.m_pcb else []) ++
      trackMarkers env true s.m_pcb ++
      zoneMarkers env (filledBoard env s.m_pcb) ++
      (if s.m_doKeepoutTest = true then keepoutMarkers env (filledBoard env s.m_pcb) else []) ++
      textMarkers env (filledBoard env s.m_pcb) ++
      (if s.m_doFootprintOverlapping = true ∨ s.m_doNoCourtyardDefined = true then
        courtyardMarkers env s.toggles (filledBoard env s.m_pcb) else []) ∧
    (∀ t : DRC, emitted t (testPad2Pad env t) = pad2padMarkers env t.m_pcb) ∧
    (∀ t : DRC, emitted t (testTracks env true t) = trackMarkers env true t.m_pcb) ∧
    (∀ t : DRC, emitted t (testZones env t) = zoneMarkers env t.m_pcb) ∧
    (∀ t : DRC, emitted t (testKeepoutAreas env t) = keepoutMarkers env t.m_pcb) ∧
    (∀ t : DRC, emitted t (testTexts env t) = textMarkers env t.m_pcb) ∧
    (∀ t : DRC, emitted t (doFootprintOverlappingDrc env t).2 =
      courtyardMarkers env t.toggles t.m_pcb) ∧
    (∀ t : DRC, emitted t (testUnconnected env t) = []) ∧
    (∀ t : DRC, emitted t (Fill_All_Zones env t) = []) ∧
    emitted s (testNetClasses env s).2 = [] := by
  have hp : netclassesPass s.m_pcb = true := by
    rw [← (testNetClasses_step env s).1]
    exact hpass
  refine ⟨?_, fun t => (testPad2Pad_step env t).emitted_eq,
    fun t => (testTracks_step env true t).emitted_eq,
    fun t => (testZones_step env t).emitted_eq,
    fun t => (testKeepoutAreas_step env t).emitted_eq,
    fun t => (testTexts_step env t).emitted_eq,
    fun t => (doFootprintOverlappingDrc_spec env t).2.emitted_eq,
    fun t => (testUnconnected_step env t).emitted_eq,
    fun t => (Fill_All_Zones_step env t).emitted_eq, ?_⟩
  · rw [(RunTests_step env s).emitted_eq]
    simp [runMarkers, stageMarkers, hp, netclassMarkers_of_pass, DRC.toggles,
      List.append_assoc]
  · rw [(testNetClasses_step env s).2.emitted_eq]
    exact netclassMarkers_of_pass env _ hp

/-- C17, instance: on the board of `clashZoneDRC` the run reports the pad clash first and
the zone of the net without pads second. -/
theorem RunTests_emits_in_fixed_order_witness :
    (testNetClasses sampleEnv clashZoneDRC).1 = true ∧
    emitted clashZoneDRC (RunTests sampleEnv clashZoneDRC) =
      (if clashZoneDRC.m_doPad2PadTest = true then
        pad2padMarkers sampleEnv clashZoneDRC.m_pcb else []) ++
      trackMarkers sampleEnv true clashZoneDRC.m_pcb ++
      zoneMarkers sampleEnv (filledBoard sampleEnv clashZoneDRC.m_pcb) ++
      (if clashZoneDRC.m_doKeepoutTest = true then
        keepoutMarkers sampleEnv (filledBoard sampleEnv clashZoneDRC.m_pcb) else []) ++
      textMarkers sampleEnv (filledBoard sampleEnv clashZoneDRC.m_pcb) ++
      (if clashZoneDRC.m_doFootprintOverlapping = true
          ∨ clashZoneDRC.m_doNoCourtyardDefined = true then
        courtyardMarkers sampleEnv clashZoneDRC.toggles
          (filledBoard sampleEnv clashZoneDRC.m_pcb) else []) ∧
    (emitted clashZoneDRC (RunTests sampleEnv clashZoneDRC)).map MARKER_PCB.code =
      [DRCE_PAD_NEAR_PAD1, DRCE_SUSPICIOUS_NET_FOR_ZONE_OUTLINE] :=
  ⟨by decide, (RunTests_emits_in_fixed_order sampleEnv clashZoneDRC (by decide)).1, by decide⟩

theorem courtyardMarkers_gated (env : Env) (cfg : Toggles) (pcb : BOARD) (m : MARKER_PCB)
    (hm : m ∈ courtyardMarkers env cfg pcb) :
    (m.code = DRCE_MALFORMED_COURTYARD_IN_FOOTPRINT ∧ cfg.m_doFootprintOverlapping = true) ∨
    (m.code = DRCE_OVERLAPPING_FOOTPRINTS ∧ cfg.m_doFootprintOverlapping = true) ∨
    (m.code = DRCE_MISSING_COURTYARD_IN_FOOTPRINT ∧ cfg.m_doNoCourtyardDefined = true) := by
  unfold courtyardMarkers at hm
  rcases List.mem_append.mp hm with h | h
  · obtain ⟨fp, _, hfp⟩ := List.mem_flatMap.mp h
    unfold courtyardBuildMarkers at hfp
    rcases List.mem_append.mp hfp with h1 | h1
    · split at h1
      · rename_i hc
        rw [List.mem_singleton.mp h1]
        exact Or.inl ⟨rfl, hc.2⟩
      · cases h1
    · split at h1
      · rename_i hc
        rw [List.mem_singleton.mp h1]
        exact Or.inr (Or.inr ⟨rfl, hc.1⟩)
      · cases h1
  · split at h
    · rename_i hc
      rcases List.mem_append.mp h with h1 | h1
      · exact Or.inr (Or.inl ⟨courtyardOverlapMarkers_code env _ _ _ m h1, hc⟩)
      · exact Or.inr (Or.inl ⟨courtyardOverlapMarkers_code env _ _ _ m h1, hc⟩)
    · cases h

theorem courtyardMarkers_zonesToggle (env : Env) (cfg : Toggles) (b : Bool) (pcb : BOARD) :
    courtyardMarkers env { cfg with m_doZonesTest := b } pcb = courtyardMarkers env cfg pcb := by
  have h : courtyardBuildMarkers env { cfg with m_doZonesTest := b } =
      courtyardBuildMarkers env cfg := by
    funext footprint
    rfl
  unfold courtyardMarkers
  rw [h]

/-- C14, counterexample: with the zones toggle off and passing netclasses, the run on the
board of `clashZoneDRC` still reports the zone of the net without pads. -/
theorem zones_toggle_off_still_reports_zone :
    ({ clashZoneDRC with m_doZonesTest := false } : DRC).m_doZonesTest = false ∧
    (testNetClasses sampleEnv { clashZoneDRC with m_doZonesTest := false }).1 = true ∧
    DRCE_SUSPICIOUS_NET_FOR_ZONE_OUTLINE ∈
      (emitted { clashZoneDRC with m_doZonesTest := false }
        (RunTests sampleEnv { clashZoneDRC with m_doZonesTest := false })).map
        MARKER_PCB.code := by
  decide

/-- C14, as the code has it: for every board with passing netclasses, with the pad to pad
toggle off the run adds no violation of the pad to pad test, with the keepout toggle off none
of the keepout test, with the unconnected toggle off it leaves the unconnected list as it
was, with the two courtyard toggles off it adds no violation of the courtyard validator; a
violation of the courtyard validator of the kind malformed courtyard or overlapping
footprints needs the footprint overlap toggle on and one of the kind missing courtyard needs
the missing courtyard toggle on.  The zones toggle gates nothing: the violations of the zone
test are part of the output in every configuration, and the run adds the same violations and
the same unconnected records whatever the value of `m_doZonesTest`. -/
theorem RunTests_toggles_gate_their_checks (env : Env) (s : DRC)
    (hpass : (testNetClasses env s).1 = true) :
    (s.m_doPad2PadTest = false →
      emitted s (RunTests env s) =
        trackMarkers env true s.m_pcb ++
        zoneMarkers env (filledBoard env s.m_pcb) ++
        (if s.m_doKeepoutTest = true then keepoutMarkers env (filledBoard env s.m_pcb)
          else []) ++
        textMarkers env (filledBoard env s.m_pcb) ++
        (if s.m_doFootprintOverlapping = true ∨ s.m_doNoCourtyardDefined = true then
          courtyardMarkers env s.toggles (filledBoard env s.m_pcb) else [])) ∧
    (s.m_doKeepoutTest = false →
      emitted s (RunTests env s) =
        (if s.m_doPad2PadTest = true then pad2padMarkers env s.m_pcb else []) ++
        trackMarkers env true s.m_pcb ++
        zoneMarkers env (filledBoard env s.m_pcb) ++
        textMarkers env (filledBoard env s.m_pcb) ++
        (if s.m_doFootprintOverlapping = true ∨ s.m_doNoCourtyardDefined = true then
          courtyardMarkers env s.toggles (filledBoard env s.m_pcb) else [])) ∧
    (s.m_doUnconnectedTest = false → (RunTests env s).m_unconnected = s.m_unconnected) ∧
    (s.m_doFootprintOverlapping = false → s.m_doNoCourtyardDefined = false →
      emitted s (RunTests env s) =
        (if s.m_doPad2PadTest = true then pad2padMarkers env s.m_pcb else []) ++
        trackMarkers env true s.m_pcb ++
        zoneMarkers env (filledBoard env s.m_pcb) ++
        (if s.m_doKeepoutTest = true then keepoutMarkers env (filledBoard env s.m_pcb)
          else []) ++
        textMarkers env (filledBoard env s.m_pcb)) ∧
    (∀ m ∈ courtyardMarkers env s.toggles (filledBoard env s.m_pcb),
      (m.code = DRCE_MALFORMED_COURTYARD_IN_FOOTPRINT ∧ s.m_doFootprintOverlapping = true) ∨
      (m.code = DRCE_OVERLAPPING_FOOTPRINTS ∧ s.m_doFootprintOverlapping = true) ∨
      (m.code = DRCE_MISSING_COURTYARD_IN_FOOTPRINT ∧ s.m_doNoCourtyardDefined = true)) ∧
    (∀ m ∈ zoneMarkers env (filledBoard env s.m_pcb), m ∈ emitted s (RunTests env s)) ∧
    (∀ b : Bool,
      emitted { s with m_doZonesTest := b } (RunTests env { s with m_doZonesTest := b }) =
        emitted s (RunTests env s) ∧
      (RunTests env { s with m_doZonesTest := b }).m_unconnected =
        (RunTests env s).m_unconnected) := by
  have hp : netclassesPass s.m_pcb = true := by
    rw [← (testNetClasses_step env s).1]
    exact hpass
  have hrun : emitted s (RunTests env s) = stageMarkers env s.toggles s.m_pcb := by
    rw [(RunTests_step env s).emitted_eq]
    simp [runMarkers, hp, netclassMarkers_of_pass]
  refine ⟨fun h => ?_, fun h => ?_, fun h => ?_, fun h1 h2 => ?_, ?_, fun m hm => ?_,
    fun b => ⟨?_, ?_⟩⟩
  · rw [hrun]
    simp [stageMarkers, DRC.toggles, h]
  · rw [hrun]
    simp [stageMarkers, DRC.toggles, h]
  · rw [(RunTests_step env s).unconnected]
    simp [runUnconnected, DRC.toggles, h]
  · rw [hrun]
    simp [stageMarkers, DRC.toggles, h1, h2]
  · exact fun m hm => courtyardMarkers_gated env _ _ m hm
  · rw [hrun]
    simp only [stageMarkers, List.mem_append]
    exact Or.inl (Or.inl (Or.inl (Or.inr hm)))
  · rw [(RunTests_step env s).emitted_eq, (RunTests_step env _).emitted_eq]
    show runMarkers env { s.toggles with m_doZonesTest := b } s.m_pcb =
      runMarkers env s.toggles s.m_pcb
    simp only [runMarkers, stageMarkers, courtyardMarkers_zonesToggle]
  · rw [(RunTests_step env s).unconnected, (RunTests_step env _).unconnected]
    simp [runUnconnected, DRC.toggles]

/-- C14, instance: on the board of `clashZoneDRC` with the pad to pad toggle off, the run
reports the zone only. -/
theorem RunTests_toggles_gate_their_checks_witness :
    (testNetClasses sampleEnv { clashZoneDRC with m_doPad2PadTest := false }).1 = true ∧
    (emitted { clashZoneDRC with m_doPad2PadTest := false }
      (RunTests sampleEnv { clashZoneDRC with m_doPad2PadTest := false })).map
        MARKER_PCB.code = [DRCE_SUSPICIOUS_NET_FOR_ZONE_OUTLINE] :=
  ⟨by decide,
   (congrArg (List.map MARKER_PCB.code)
     ((RunTests_toggles_gate_their_checks sampleEnv
       { clashZoneDRC with m_doPad2PadTest := false } (by decide)).1 rfl)).trans
     (by decide)⟩

/-! ## Claims on the unconnected list -/

/-- C16, counterexample: with one record in the list before the call and one unconnected
edge reported by the connectivity, the list holds two records after `testUnconnected`, the
old one first. -/
theorem testUnconnected_keeps_prior_records :
    (edgeEnv.GetUnconnectedEdges
      ({ clashDRC with m_unconnected := [unconnectedRecord sampleEdge] } : DRC).m_pcb).length
      = 1 ∧
    (testUnconnected edgeEnv
      { clashDRC with m_unconnected := [unconnectedRecord sampleEdge] }).m_unconnected =
      [unconnectedRecord sampleEdge, unconnectedRecord sampleEdge] := by
  decide

/-- C16, as the code has it: `testUnconnected` and `ListUnconnectedPads` append to the
unconnected list, after what it held before, one record for each edge that the connectivity
of the board reports, in that order, with the kind `DRCE_UNCONNECTED_ITEMS` and the texts and
positions of the two ends of the edge; nothing clears the list, so it holds exactly these
records only if it was empty before.  `RunTests` does the same with the edges of the refilled
board when the netclasses pass and the unconnected toggle is on, and leaves the list as it
was when the netclasses fail or the toggle is off. -/
theorem testUnconnected_appends_records (env : Env) (s : DRC) :
    (testUnconnected env s).m_unconnected =
      s.m_unconnected ++ (env.GetUnconnectedEdges s.m_pcb).map unconnectedRecord ∧
    (ListUnconnectedPads env s).m_unconnected =
      s.m_unconnected ++ (env.GetUnconnectedEdges s.m_pcb).map unconnectedRecord ∧
    (s.m_unconnected = [] →
      (testUnconnected env s).m_unconnected =
        (env.GetUnconnectedEdges s.m_pcb).map unconnectedRecord) ∧
    ((testNetClasses env s).1 = true → s.m_doUnconnectedTest = true →
      (RunTests env s).m_unconnected =
        s.m_unconnected ++
          (env.GetUnconnectedEdges (filledBoard env s.m_pcb)).map unconnectedRecord) ∧
    ((testNetClasses env s).1 = false ∨ s.m_doUnconnectedTest = false →
      (RunTests env s).m_unconnected = s.m_unconnected) ∧
    (∀ edge : CN_EDGE,
      (unconnectedRecord edge).m_ErrorCode = DRCE_UNCONNECTED_ITEMS ∧
      (unconnectedRecord edge).m_MainText = edge.sourceText ∧
      (unconnectedRecord edge).m_AuxiliaryText = edge.targetText ∧
      (unconnectedRecord edge).m_MainPosition = edge.sourcePos ∧
      (unconnectedRecord edge).m_AuxiliaryPosition = edge.targetPos) := by
  have hn := (testNetClasses_step env s).1
  refine ⟨(testUnconnected_step env s).unconnected, (testUnconnected_step env s).unconnected,
    fun h => ?_, fun h1 h2 => ?_, fun h => ?_, fun edge => ⟨rfl, rfl, rfl, rfl, rfl⟩⟩
  · rw [(testUnconnected_step env s).unconnected, h]
    rfl
  · rw [(RunTests_step env s).unconnected]
    rw [hn] at h1
    simp [runUnconnected, h1, DRC.toggles, h2, unconnectedRecords]
  · rw [(RunTests_step env s).unconnected]
    rw [hn] at h
    rcases h with h | h <;> simp [runUnconnected, h, DRC.toggles]

/-- C16, instance: on the board of `clashDRC`, whose list is empty before the run, the run
with one unconnected edge leaves one record. -/
theorem testUnconnected_appends_records_witness :
    (testNetClasses edgeEnv clashDRC).1 = true ∧ clashDRC.m_doUnconnectedTest = true ∧
    (RunTests edgeEnv clashDRC).m_unconnected = [unconnectedRecord sampleEdge] :=
  ⟨by decide, by decide,
   ((testUnconnected_appends_records edgeEnv clashDRC).2.2.2.1 (by decide) (by decide)).trans
     (by decide)⟩

/-! ## Claim on the single track entry point -/

theorem keepout_pass_no_batch_marker (env : Env) (s : DRC) (T : TRACK)
    (h : (doTrackKeepoutDrc env T s).1 = true) :
    ∀ m ∈ emitted s (testKeepoutAreas env s), aboutItem T m = false := by
  intro m hm
  by_contra hTm
  have hTm2 : aboutItem T m = true := by simpa using hTm
  obtain ⟨area, harea, hk, hma⟩ := keepout_batch_marker_of env s T m hm hTm2
  rw [doTrackKeepoutDrc_eq] at h
  cases hf : s.m_pcb.m_ZoneDescriptorList.findSome?
      (fun a => if a.m_isKeepout = true then keepoutMarker env a T else none) with
  | none =>
    have := List.findSome?_eq_none_iff.mp hf area harea
    simp [hk, hma] at this
  | some marker =>
    rw [hf] at h
    simp at h

theorem trackItemResults_at (env : Env) (pcb : BOARD) (pre next : List TRACK) (T : TRACK) :
    (trackItemResults env pcb (pre ++ T :: next))[pre.length]? =
      some (env.doTrackDrc pcb T next) := by
  induction pre with
  | nil => simp [trackItemResults]
  | cons a rest ih => simpa [trackItemResults] using ih

/-- C19, counterexample: two tracks that start at the same point, and a track clearance test
that fails for a track against the first item of the given list that starts where the track
starts.  `Drc` called for the first track with an empty list returns `OK_DRC`; the batch
tests the first track against the item after it and adds a violation of it. -/
theorem Drc_passes_a_track_that_the_batch_reports :
    (Drc sameStartEnv (sampleTrack 1 PCB_TRACE_T 0 0 1) [] twinTracksDRC).1 = OK_DRC ∧
    twinTracksDRC.m_pcb.m_Track
      = [sampleTrack 1 PCB_TRACE_T 0 0 1, sampleTrack 2 PCB_TRACE_T 0 0 1] ∧
    emitted twinTracksDRC (testTracks sameStartEnv true twinTracksDRC)
      = [MARKER_PCB.ofTrack (sampleTrack 1 PCB_TRACE_T 0 0 1)
          (some (BOARD_ITEM.track (sampleTrack 2 PCB_TRACE_T 0 0 1))) (DRCE_OTHER 0)] ∧
    aboutItem (sampleTrack 1 PCB_TRACE_T 0 0 1)
      (MARKER_PCB.ofTrack (sampleTrack 1 PCB_TRACE_T 0 0 1)
        (some (BOARD_ITEM.track (sampleTrack 2 PCB_TRACE_T 0 0 1))) (DRCE_OTHER 0)) = true := by
  decide

/-- C19, as the code has it: `Drc( aRefSegm, aList )` returns `BAD_DRC` exactly when
`doTrackDrc` fails for the track against the list, or passes and `doTrackKeepoutDrc` fails
for the track, and `OK_DRC` exactly when both pass.  The batch uses the same two predicates:
`testTracks` adds to the sink the results of `doTrackDrc` for the reference items it tests,
each against the items after it in the track sequence.  When `Drc` returns `OK_DRC` for a
track of the board against any list, `testKeepoutAreas` adds no violation of that track; when
it returns `OK_DRC` against the items after the track in the track sequence of the board,
the result of that track as a reference item of `testTracks` is a pass. -/
theorem Drc_agrees_with_batch_predicates (env : Env) (s : DRC) (T : TRACK)
    (list pre next : List TRACK) (hT : s.m_pcb.m_Track = pre ++ T :: next) :
    ((Drc env T list s).1 = BAD_DRC ↔
      (env.doTrackDrc s.m_pcb T list ≠ none ∨
        (env.doTrackDrc s.m_pcb T list = none ∧ (doTrackKeepoutDrc env T s).1 = false))) ∧
    ((Drc env T list s).1 = OK_DRC ↔
      (env.doTrackDrc s.m_pcb T list = none ∧ (doTrackKeepoutDrc env T s).1 = true)) ∧
    (∀ aShowProgressBar : Bool,
      emitted s (testTracks env aShowProgressBar s) =
        ((trackItemResults env s.m_pcb s.m_pcb.m_Track).take
          (testTracksProcessed env 500
            (aShowProgressBar && decide (countTracks s.m_pcb.m_Track / 500 > 3))
            s.m_pcb.m_Track 0 0)).reduceOption) ∧
    (trackItemResults env s.m_pcb s.m_pcb.m_Track)[pre.length]? =
      some (env.doTrackDrc s.m_pcb T next) ∧
    ((Drc env T list s).1 = OK_DRC →
      ∀ m ∈ emitted s (testKeepoutAreas env s), aboutItem T m = false) ∧
    ((Drc env T next s).1 = OK_DRC →
      (trackItemResults env s.m_pcb s.m_pcb.m_Track)[pre.length]? = some none) := by
  have hDrc : ∀ l : List TRACK,
      ((Drc env T l s).1 = BAD_DRC ↔
        (env.doTrackDrc s.m_pcb T l ≠ none ∨
          (env.doTrackDrc s.m_pcb T l = none ∧ (doTrackKeepoutDrc env T s).1 = false))) ∧
      ((Drc env T l s).1 = OK_DRC ↔
        (env.doTrackDrc s.m_pcb T l = none ∧ (doTrackKeepoutDrc env T s).1 = true)) := by
    intro l
    unfold Drc
    obtain hd | ⟨marker, hd⟩ : env.doTrackDrc s.m_pcb T l = none ∨
        ∃ marker, env.doTrackDrc s.m_pcb T l = some marker := by
      cases env.doTrackDrc s.m_pcb T l <;> simp
    · have hk : (doTrackKeepoutDrc env T s).1 = true ∨ (doTrackKeepoutDrc env T s).1 = false := by
        cases (doTrackKeepoutDrc env T s).1 <;> simp
      rcases hk with hk | hk <;> simp [hd, hk]
    · simp [hd]
  have hat := trackItemResults_at env s.m_pcb pre next T
  rw [← hT] at hat
  refine ⟨(hDrc list).1, (hDrc list).2, fun b => (testTracks_step env b s).emitted_eq, hat,
    fun hok => keepout_pass_no_batch_marker env s T ((hDrc list).2.mp hok).2, fun hok => ?_⟩
  rw [hat, ((hDrc next).2.mp hok).1]

/-- C19, instance: the via of `keepoutClearDRC` passes the single track entry point against
the item after it; its result as a reference item of the batch is a pass, and the batch
keepout test adds no violation of it. -/
theorem Drc_agrees_with_batch_predicates_witness :
    keepoutClearDRC.m_pcb.m_Track =
      [] ++ sampleTrack 1 PCB_VIA_T 7 0 1 :: [sampleTrack 2 PCB_TRACE_T 20 0 1] ∧
    (Drc sampleEnv (sampleTrack 1 PCB_VIA_T 7 0 1) [sampleTrack 2 PCB_TRACE_T 20 0 1]
      keepoutClearDRC).1 = OK_DRC ∧
    (trackItemResults sampleEnv keepoutClearDRC.m_pcb keepoutClearDRC.m_pcb.m_Track)[0]?
      = some none ∧
    ∀ m ∈ emitted keepoutClearDRC (testKeepoutAreas sampleEnv keepoutClearDRC),
      aboutItem (sampleTrack 1 PCB_VIA_T 7 0 1) m = false :=
  ⟨by decide, by decide,
   (Drc_agrees_with_batch_predicates sampleEnv keepoutClearDRC
      (sampleTrack 1 PCB_VIA_T 7 0 1) [sampleTrack 2 PCB_TRACE_T 20 0 1] []
      [sampleTrack 2 PCB_TRACE_T 20 0 1] (by decide)).2.2.2.2.2 (by decide),
   (Drc_agrees_with_batch_predicates sampleEnv keepoutClearDRC
      (sampleTrack 1 PCB_VIA_T 7 0 1) [sampleTrack 2 PCB_TRACE_T 20 0 1] []
      [sampleTrack 2 PCB_TRACE_T 20 0 1] (by decide)).2.2.2.2.1 (by decide)⟩

/-! ## Return value of the courtyard validator -/

/-- C28: for every board and every setting of the toggles, `doFootprintOverlappingDrc`
returns true exactly when it added no violation to the sink; the violations it can add are
of the kinds malformed courtyard, missing courtyard and overlapping footprints. -/
theorem doFootprintOverlappingDrc_true_iff_silent (env : Env) (s : DRC) :
    ((doFootprintOverlappingDrc env s).1 = true ↔
      emitted s (doFootprintOverlappingDrc env s).2 = []) ∧
    ((doFootprintOverlappingDrc env s).1 = false ↔
      ∃ m, m ∈ emitted s (doFootprintOverlappingDrc env s).2) ∧
    (∀ m ∈ emitted s (doFootprintOverlappingDrc env s).2,
      m.code = DRCE_MALFORMED_COURTYARD_IN_FOOTPRINT ∨
      m.code = DRCE_MISSING_COURTYARD_IN_FOOTPRINT ∨
      m.code = DRCE_OVERLAPPING_FOOTPRINTS) := by
  obtain ⟨h1, h2⟩ := doFootprintOverlappingDrc_spec env s
  rw [h2.emitted_eq, h1]
  refine ⟨by simp, ?_, ?_⟩
  · rw [decide_eq_false_iff_not]
    exact ⟨fun h => List.exists_mem_of_ne_nil _ h, fun ⟨m, hm⟩ h => by simp [h] at hm⟩
  · intro m hm
    rcases courtyardMarkers_gated env _ _ m hm with h | h | h
    · exact Or.inl h.1
    · exact Or.inr (Or.inr h.1)
    · exact Or.inr (Or.inl h.1)

/-! ## The pair test of the pad sweep: proofs -/

theorem padPairTest_fail_cases (env : Env) (aRefPad dummypad pad : D_PAD) (marker : MARKER_PCB)
    (h : padPairTest env aRefPad (aRefPad.m_layerMask &&& env.AllCuMask) dummypad pad
      = .fail marker) :
    (marker = MARKER_PCB.ofPad pad (BOARD_ITEM.pad aRefPad) DRCE_HOLE_NEAR_PAD
      ∧ holeTestApplies env pad aRefPad ∧ holesAccepted pad aRefPad = false
      ∧ pad.m_Drill.x ≠ 0
      ∧ env.checkClearancePadToPad aRefPad (setHoleProbe dummypad pad) = false) ∨
    (marker = MARKER_PCB.ofPad aRefPad (BOARD_ITEM.pad pad) DRCE_HOLE_NEAR_PAD
      ∧ holeTestApplies env pad aRefPad ∧ holesAccepted pad aRefPad = false
      ∧ aRefPad.m_Drill.x ≠ 0
      ∧ (pad.m_Drill.x ≠ 0 →
          env.checkClearancePadToPad aRefPad (setHoleProbe dummypad pad) = true)
      ∧ env.checkClearancePadToPad pad (setHoleProbe dummypad aRefPad) = false) ∨
    (marker = MARKER_PCB.ofPad aRefPad (BOARD_ITEM.pad pad) DRCE_PAD_NEAR_PAD1
      ∧ ¬ holeTestApplies env pad aRefPad
      ∧ ¬ (pad.m_NetCode ≠ 0 ∧ aRefPad.m_NetCode = pad.m_NetCode)
      ∧ ¬ (pad.m_Parent = aRefPad.m_Parent ∧ pad.m_name = aRefPad.m_name)
      ∧ ¬ (((pad.m_layerMask &&& (aRefPad.m_layerMask &&& env.AllCuMask)) = 0
            ∧ pad.m_Drill.x = 0)
          ∨ ((aRefPad.m_layerMask &&& (aRefPad.m_layerMask &&& env.AllCuMask)) = 0
            ∧ aRefPad.m_Drill.x = 0))
      ∧ env.checkClearancePadToPad aRefPad pad = false) := by
  unfold padPairTest at h
  unfold holeTestApplies
  by_cases hb : (pad.m_layerMask &&& (aRefPad.m_layerMask &&& env.AllCuMask)) = 0
      ∧ (pad.m_layerMask &&& env.AllCuMask) ≠ 0 ∧ (aRefPad.m_layerMask &&& env.AllCuMask) ≠ 0
  · rw [if_pos hb] at h
    by_cases ha : holesAccepted pad aRefPad = true
    · simp [ha] at h
    · simp only [Bool.not_eq_true] at ha
      simp only [ha] at h
      have c1 : env.checkClearancePadToPad aRefPad (setHoleProbe dummypad pad) = true ∨
          env.checkClearancePadToPad aRefPad (setHoleProbe dummypad pad) = false := by
        cases env.checkClearancePadToPad aRefPad (setHoleProbe dummypad pad) <;> simp
      have c2 : env.checkClearancePadToPad pad (setHoleProbe dummypad aRefPad) = true ∨
          env.checkClearancePadToPad pad (setHoleProbe dummypad aRefPad) = false := by
        cases env.checkClearancePadToPad pad (setHoleProbe dummypad aRefPad) <;> simp
      by_cases hp : pad.m_Drill.x = 0 <;> by_cases hr : aRefPad.m_Drill.x = 0 <;>
        rcases c1 with hc1 | hc1 <;> rcases c2 with hc2 | hc2 <;>
        simp [hp, hr, hc1, hc2, setHoleProbe_setHoleProbe] at h <;>
        subst h <;> simp [hb, ha, hp, hr, hc1, hc2]
  · rw [if_neg hb] at h
    split_ifs at h with h1 h2 h3 h4
    simp only [PadFlow.fail.injEq] at h
    right
    right
    refine ⟨h.symm, hb, h1, ?_, h3, h4⟩
    simpa [PadNameEqual] using h2

theorem pair_marker_drill (env : Env) (aRefPad dummypad pad X Y : D_PAD) (code : DRCE)
    (h : padPairTest env aRefPad (aRefPad.m_layerMask &&& env.AllCuMask) dummypad pad
      = .fail (MARKER_PCB.ofPad X (BOARD_ITEM.pad Y) code)) :
    (code = DRCE_HOLE_NEAR_PAD ∧ X.m_Drill.x ≠ 0 ∧ holeTestApplies env X Y) ∨
    (code = DRCE_PAD_NEAR_PAD1 ∧ X = aRefPad ∧ Y = pad ∧ ¬ holeTestApplies env Y X
      ∧ ((Y.m_layerMask &&& (X.m_layerMask &&& env.AllCuMask)) ≠ 0 ∨ Y.m_Drill.x ≠ 0)) := by
  rcases padPairTest_fail_cases env aRefPad dummypad pad _ h with
    ⟨hm, ha, _, hd, _⟩ | ⟨hm, ha, _, hd, _⟩ | ⟨hm, ha, _, _, ht, _⟩
  · simp only [MARKER_PCB.ofPad.injEq, BOARD_ITEM.pad.injEq] at hm
    obtain ⟨rfl, rfl, rfl⟩ := hm
    exact Or.inl ⟨rfl, hd, ha⟩
  · simp only [MARKER_PCB.ofPad.injEq, BOARD_ITEM.pad.injEq] at hm
    obtain ⟨rfl, rfl, rfl⟩ := hm
    exact Or.inl ⟨rfl, hd, holeTestApplies_symm env _ _ ha⟩
  · simp only [MARKER_PCB.ofPad.injEq, BOARD_ITEM.pad.injEq] at hm
    obtain ⟨rfl, rfl, rfl⟩ := hm
    refine Or.inr ⟨rfl, rfl, rfl, ha, ?_⟩
    by_contra hc
    simp only [not_or, not_not] at hc
    exact ht (Or.inl hc)

theorem padPairTest_probe_irrelevant (env : Env) (aRefPad : D_PAD) (layerMask : LSET)
    (d0 d pad : D_PAD) (hP : ∀ q, setHoleProbe d q = setHoleProbe d0 q) (marker : MARKER_PCB) :
    padPairTest env aRefPad layerMask d pad = .fail marker ↔
      padPairTest env aRefPad layerMask d0 pad = .fail marker := by
  have e1 : setHoleProbe d pad = setHoleProbe d0 pad := hP pad
  have e2 : setHoleProbe d aRefPad = setHoleProbe d0 aRefPad := hP aRefPad
  unfold padPairTest
  by_cases hb : (pad.m_layerMask &&& layerMask) = 0 ∧ (pad.m_layerMask &&& env.AllCuMask) ≠ 0
      ∧ (aRefPad.m_layerMask &&& env.AllCuMask) ≠ 0
  · rw [if_pos hb, if_pos hb]
    by_cases ha : holesAccepted pad aRefPad = true
    · simp [ha]
    · simp only [Bool.not_eq_true] at ha
      have c1 : env.checkClearancePadToPad aRefPad (setHoleProbe d0 pad) = true ∨
          env.checkClearancePadToPad aRefPad (setHoleProbe d0 pad) = false := by
        cases env.checkClearancePadToPad aRefPad (setHoleProbe d0 pad) <;> simp
      have c2 : env.checkClearancePadToPad pad (setHoleProbe d0 aRefPad) = true ∨
          env.checkClearancePadToPad pad (setHoleProbe d0 aRefPad) = false := by
        cases env.checkClearancePadToPad pad (setHoleProbe d0 aRefPad) <;> simp
      by_cases hp : pad.m_Drill.x = 0 <;> by_cases hr : aRefPad.m_Drill.x = 0 <;>
        rcases c1 with hc1 | hc1 <;> rcases c2 with hc2 | hc2 <;>
        simp [ha, hp, hr, e1, e2, hc1, hc2, setHoleProbe_setHoleProbe]
  · rw [if_neg hb, if_neg hb]
    split_ifs <;> simp

theorem padSweep_eq_findSome (env : Env) (pcb : BOARD) (aRefPad : D_PAD) (x_limit : Int)
    (pads : List D_PAD) (d : D_PAD)
    (hP : ∀ q, setHoleProbe d q = setHoleProbe (initialDummyPad env pcb) q) :
    padSweep env aRefPad (aRefPad.m_layerMask &&& env.AllCuMask) x_limit d pads =
      (scannedCandidates aRefPad x_limit pads).findSome? (padTestMarker env pcb aRefPad) := by
  induction pads generalizing d with
  | nil => rfl
  | cons c rest ih =>
    unfold scannedCandidates at ih ⊢
    by_cases ha : c.addr = aRefPad.addr
    · simp only [padSweep, doPadToPadsDrcBody, ha, if_true]
      rw [List.filter_cons_of_neg (by simp [ha])]
      exact ih d hP
    · rw [List.filter_cons_of_pos (by simp [ha])]
      by_cases hx : c.m_Pos.x > x_limit
      · rw [List.takeWhile_cons_of_neg (by simpa using hx)]
        simp [padSweep, doPadToPadsDrcBody, ha, hx]
      · rw [List.takeWhile_cons_of_pos (by simpa using hx)]
        simp only [padSweep, doPadToPadsDrcBody, ha, hx, if_false, List.findSome?_cons]
        cases hb : padPairTest env aRefPad (aRefPad.m_layerMask &&& env.AllCuMask) d c with
        | next d1 =>
          have h0 : padTestMarker env pcb aRefPad c = none := by
            unfold padTestMarker
            cases h0 : padPairTest env aRefPad (aRefPad.m_layerMask &&& env.AllCuMask)
                (initialDummyPad env pcb) c with
            | next _ => rfl
            | stop => rfl
            | fail m =>
              rw [(padPairTest_probe_irrelevant env aRefPad _ _ d c hP m).mpr h0] at hb
              cases hb
          simp only [h0]
          exact ih d1 (padPairTest_next_probe env aRefPad _ _ d c d1 hP hb)
        | stop => exact absurd hb (padPairTest_ne_stop env aRefPad _ d c)
        | fail m =>
          have h0 : padTestMarker env pcb aRefPad c = some m := by
            unfold padTestMarker
            rw [(padPairTest_probe_irrelevant env aRefPad _ _ d c hP m).mp hb]
          simp only [h0]

theorem sweepMarkers_eq_reduceOption (env : Env) (pcb : BOARD) (max_size : Int)
    (pads : List D_PAD) :
    sweepMarkers env pcb max_size pads = (padScanResults env pcb max_size pads).reduceOption := by
  induction pads with
  | nil => rfl
  | cons p rest ih =>
    simp only [sweepMarkers, padScanResults, ih]
    cases refPadMarker env pcb max_size p rest <;> simp [List.reduceOption_cons_of_some,
      List.reduceOption_cons_of_none]

theorem padScanResults_length (env : Env) (pcb : BOARD) (max_size : Int) (pads : List D_PAD) :
    (padScanResults env pcb max_size pads).length = pads.length := by
  induction pads with
  | nil => rfl
  | cons p rest ih => simp [padScanResults, ih]

theorem padScanResults_at (env : Env) (pcb : BOARD) (max_size : Int) (pre rest : List D_PAD)
    (pad : D_PAD) :
    (padScanResults env pcb max_size (pre ++ pad :: rest))[pre.length]? =
      some (refPadMarker env pcb max_size pad rest) := by
  induction pre with
  | nil => simp [padScanResults]
  | cons a l ih => simpa [padScanResults] using ih

theorem testPad2Pad_pair_marker_drill (env : Env) (s : DRC) (X Y : D_PAD) (code : DRCE)
    (h : MARKER_PCB.ofPad X (BOARD_ITEM.pad Y) code ∈ emitted s (testPad2Pad env s)) :
    (code = DRCE_HOLE_NEAR_PAD ∧ X.m_Drill.x ≠ 0 ∧ holeTestApplies env X Y) ∨
    (code = DRCE_PAD_NEAR_PAD1 ∧ ¬ holeTestApplies env Y X
      ∧ ((Y.m_layerMask &&& (X.m_layerMask &&& env.AllCuMask)) ≠ 0 ∨ Y.m_Drill.x ≠ 0)) := by
  rw [testPad2Pad_emitted] at h
  obtain ⟨r, _, q, _, d, hd⟩ := sweepMarkers_mem _ _ _ _ _ h
  rcases pair_marker_drill env r d q X Y code hd with h1 | ⟨h1, _, _, h2, h3⟩
  · exact Or.inl h1
  · exact Or.inr ⟨h1, h2, h3⟩

theorem doPadToPadsDrc_pair_marker_drill (env : Env) (aRefPad : D_PAD) (pads : List D_PAD)
    (x_limit : Int) (s : DRC) (X Y : D_PAD) (code : DRCE)
    (hfail : (doPadToPadsDrc env aRefPad pads x_limit s).1 = false)
    (h : (doPadToPadsDrc env aRefPad pads x_limit s).2.m_currentMarker
      = some (MARKER_PCB.ofPad X (BOARD_ITEM.pad Y) code)) :
    (code = DRCE_HOLE_NEAR_PAD ∧ X.m_Drill.x ≠ 0 ∧ holeTestApplies env X Y) ∨
    (code = DRCE_PAD_NEAR_PAD1 ∧ ¬ holeTestApplies env Y X
      ∧ ((Y.m_layerMask &&& (X.m_layerMask &&& env.AllCuMask)) ≠ 0 ∨ Y.m_Drill.x ≠ 0)) := by
  obtain ⟨marker, hm, q, _, d, hd⟩ := doPadToPadsDrc_fail_marker env aRefPad pads x_limit s hfail
  rw [hm] at h
  simp only [Option.some.injEq] at h
  subst h
  rcases pair_marker_drill env aRefPad d q X Y code hd with h1 | ⟨h1, _, _, h2, h3⟩
  · exact Or.inl h1
  · exact Or.inr ⟨h1, h2, h3⟩

theorem doPadToPadsDrc_eq_findSome (env : Env) (aRefPad : D_PAD) (pads : List D_PAD)
    (x_limit : Int) (s : DRC) :
    doPadToPadsDrc env aRefPad pads x_limit s =
      match (scannedCandidates aRefPad x_limit pads).findSome?
          (padTestMarker env s.m_pcb aRefPad) with
      | none => (true, s)
      | some marker => (false, { s with m_currentMarker := some marker }) := by
  rw [doPadToPadsDrc_eq, padSweep_eq_findSome env s.m_pcb aRefPad x_limit pads _ (fun _ => rfl)]

/-! ## Claim on the cutoff of the pad sweep -/

/-- C20, counterexample: with the pads of bounding radius 10 at X = 0 and of bounding radius
30 at X = 50, the largest radius is 30 and the second pad is within
`i.X + 2*max_bounding_radius + i.clearance = 62` of the first; the scan of the first pad
nevertheless ends at the second pad without testing it, because the cutoff of the code is
30 + 2 + 10 + 0 = 42.  With a clearance test that fails for every pair, the sweep so adds no
violation, while a scan with the cutoff 62 fails at the second pad. -/
theorem pad_scan_stops_before_the_stated_limit :
    maxPadSize allClashEnv [samplePad 1 1 "1" 0 1 0 1, widePad] 0 = 30 ∧
    widePad.m_Pos.x ≤ (samplePad 1 1 "1" 0 1 0 1).m_Pos.x + 2 * 30
      + allClashEnv.PadGetClearance (samplePad 1 1 "1" 0 1 0 1) ∧
    padCutoff allClashEnv 30 (samplePad 1 1 "1" 0 1 0 1) = 42 ∧
    emitted (padBoardDRC [samplePad 1 1 "1" 0 1 0 1, widePad])
      (testPad2Pad allClashEnv (padBoardDRC [samplePad 1 1 "1" 0 1 0 1, widePad])) = [] ∧
    padSweep allClashEnv (samplePad 1 1 "1" 0 1 0 1)
      ((samplePad 1 1 "1" 0 1 0 1).m_layerMask &&& allClashEnv.AllCuMask)
      ((samplePad 1 1 "1" 0 1 0 1).m_Pos.x + 2 * 30
        + allClashEnv.PadGetClearance (samplePad 1 1 "1" 0 1 0 1))
      (initialDummyPad allClashEnv (padBoardDRC [samplePad 1 1 "1" 0 1 0 1, widePad]).m_pcb)
      [samplePad 1 1 "1" 0 1 0 1, widePad] =
      some (MARKER_PCB.ofPad (samplePad 1 1 "1" 0 1 0 1) (BOARD_ITEM.pad widePad)
        DRCE_PAD_NEAR_PAD1) := by
  decide

/-- C20, as the code has it.  Write `max_size` for the value that the first loop of
`testPad2Pad` computes: it is the largest bounding radius of the pads of the sorted list, and
0 when no pad has a positive one (it is at least 0, no radius exceeds it, and it is 0 or the
radius of a pad of the list).  For the reference pad `pad` of the sorted list, followed by
`rest`, the cutoff `x_limit` is the 32-bit `int` sum
`max_size + clearance(pad) + boundingRadius(pad) + pad.X`, which is this sum itself whenever
the sum is inside the range of `int`.  The sweep adds to the sink the results of the
reference pads in list order, and the result of `pad` is the marker of the first failing
candidate among the pads from `pad` on, `pad` left out, up to the first one whose X is above
this cutoff; the scan ends without a test at a candidate exactly when the candidate is
another pad whose X is above the cutoff.  The sum is at most
`pad.X + 2*max_size + clearance(pad)` and equals it exactly when the bounding radius of the
reference pad is the largest one. -/
theorem pad_scan_cutoff_value (env : Env) (s : DRC) (pre rest : List D_PAD) (pad : D_PAD)
    (hl : env.GetSortedPadListByXthenYCoord s.m_pcb = pre ++ pad :: rest) :
    0 ≤ maxPadSize env (env.GetSortedPadListByXthenYCoord s.m_pcb) 0 ∧
    (∀ p ∈ env.GetSortedPadListByXthenYCoord s.m_pcb,
      env.GetBoundingRadius p ≤ maxPadSize env (env.GetSortedPadListByXthenYCoord s.m_pcb) 0) ∧
    (maxPadSize env (env.GetSortedPadListByXthenYCoord s.m_pcb) 0 = 0
      ∨ ∃ p ∈ env.GetSortedPadListByXthenYCoord s.m_pcb,
        env.GetBoundingRadius p
          = maxPadSize env (env.GetSortedPadListByXthenYCoord s.m_pcb) 0) ∧
    padCutoff env (maxPadSize env (env.GetSortedPadListByXthenYCoord s.m_pcb) 0) pad
      = wrapInt32 (maxPadSize env (env.GetSortedPadListByXthenYCoord s.m_pcb) 0
          + env.PadGetClearance pad + env.GetBoundingRadius pad + pad.m_Pos.x) ∧
    (-2147483648 ≤ maxPadSize env (env.GetSortedPadListByXthenYCoord s.m_pcb) 0
        + env.PadGetClearance pad + env.GetBoundingRadius pad + pad.m_Pos.x →
      maxPadSize env (env.GetSortedPadListByXthenYCoord s.m_pcb) 0
        + env.PadGetClearance pad + env.GetBoundingRadius pad + pad.m_Pos.x ≤ 2147483647 →
      padCutoff env (maxPadSize env (env.GetSortedPadListByXthenYCoord s.m_pcb) 0) pad
        = maxPadSize env (env.GetSortedPadListByXthenYCoord s.m_pcb) 0
          + env.PadGetClearance pad + env.GetBoundingRadius pad + pad.m_Pos.x) ∧
    emitted s (testPad2Pad env s) =
      (padScanResults env s.m_pcb
        (maxPadSize env (env.GetSortedPadListByXthenYCoord s.m_pcb) 0)
        (env.GetSortedPadListByXthenYCoord s.m_pcb)).reduceOption ∧
    (padScanResults env s.m_pcb
        (maxPadSize env (env.GetSortedPadListByXthenYCoord s.m_pcb) 0)
        (env.GetSortedPadListByXthenYCoord s.m_pcb))[pre.length]? =
      some ((scannedCandidates pad
          (padCutoff env (maxPadSize env (env.GetSortedPadListByXthenYCoord s.m_pcb) 0) pad)
          (pad :: rest)).findSome? (padTestMarker env s.m_pcb pad)) ∧
    (∀ (layerMask : LSET) (x_limit : Int) (dummypad c : D_PAD),
      doPadToPadsDrcBody env pad layerMask x_limit dummypad c = PadFlow.stop ↔
        (c.addr ≠ pad.addr ∧ c.m_Pos.x > x_limit)) ∧
    maxPadSize env (env.GetSortedPadListByXthenYCoord s.m_pcb) 0
        + env.PadGetClearance pad + env.GetBoundingRadius pad + pad.m_Pos.x
      ≤ pad.m_Pos.x + 2 * maxPadSize env (env.GetSortedPadListByXthenYCoord s.m_pcb) 0
        + env.PadGetClearance pad ∧
    (maxPadSize env (env.GetSortedPadListByXthenYCoord s.m_pcb) 0
        + env.PadGetClearance pad + env.GetBoundingRadius pad + pad.m_Pos.x
      = pad.m_Pos.x + 2 * maxPadSize env (env.GetSortedPadListByXthenYCoord s.m_pcb) 0
        + env.PadGetClearance pad ↔
      env.GetBoundingRadius pad =
        maxPadSize env (env.GetSortedPadListByXthenYCoord s.m_pcb) 0) := by
  have hpad : pad ∈ env.GetSortedPadListByXthenYCoord s.m_pcb := by
    rw [hl]
    exact List.mem_append_right _ (List.mem_cons_self _ _)
  have hle := le_maxPadSize env (env.GetSortedPadListByXthenYCoord s.m_pcb) 0
  have hR := hle.2 pad hpad
  have hem := testPad2Pad_emitted env s
  rw [sweepMarkers_eq_reduceOption] at hem
  refine ⟨hle.1, hle.2, maxPadSize_attained env _ 0, padCutoff_eq_wrap env _ pad,
    fun h1 h2 => padCutoff_of_inRange env _ pad h1 h2, hem, ?_, ?_, by omega, by omega⟩
  · rw [hl, padScanResults_at]
    unfold refPadMarker
    rw [padSweep_eq_findSome env s.m_pcb pad _ _ _ (fun _ => rfl)]
  · intro layerMask x_limit dummypad c
    unfold doPadToPadsDrcBody
    by_cases ha : c.addr = pad.addr
    · simp [ha]
    · by_cases hx : c.m_Pos.x > x_limit
      · simp [ha, hx]
      · simp [ha, hx, padPairTest_ne_stop]

/-- C20, instance: the pad of bounding radius 10 at X = 0 beside the pad of bounding radius
30; its cutoff is 30 + 2 + 10 + 0 = 42, below 0 + 2 * 30 + 2 = 62. -/
theorem pad_scan_cutoff_value_witness :
    allClashEnv.GetSortedPadListByXthenYCoord
        (padBoardDRC [samplePad 1 1 "1" 0 1 0 1, widePad]).m_pcb
      = [] ++ samplePad 1 1 "1" 0 1 0 1 :: [widePad] ∧
    (maxPadSize allClashEnv (allClashEnv.GetSortedPadListByXthenYCoord
        (padBoardDRC [samplePad 1 1 "1" 0 1 0 1, widePad]).m_pcb) 0 = 0
      ∨ ∃ p ∈ allClashEnv.GetSortedPadListByXthenYCoord
          (padBoardDRC [samplePad 1 1 "1" 0 1 0 1, widePad]).m_pcb,
        allClashEnv.GetBoundingRadius p
          = maxPadSize allClashEnv (allClashEnv.GetSortedPadListByXthenYCoord
              (padBoardDRC [samplePad 1 1 "1" 0 1 0 1, widePad]).m_pcb) 0) ∧
    padCutoff allClashEnv (maxPadSize allClashEnv (allClashEnv.GetSortedPadListByXthenYCoord
        (padBoardDRC [samplePad 1 1 "1" 0 1 0 1, widePad]).m_pcb) 0)
      (samplePad 1 1 "1" 0 1 0 1) = 42 :=
  ⟨by decide,
   (pad_scan_cutoff_value allClashEnv (padBoardDRC [samplePad 1 1 "1" 0 1 0 1, widePad]) []
     [widePad] (samplePad 1 1 "1" 0 1 0 1) (by decide)).2.2.1,
   by decide⟩

/-! ## Claims on the scan of a reference pad -/

/-- C21: for every board, `testPad2Pad` adds to the sink the results of the reference pads,
in the order of the sorted pad list, each reference pad giving no violation or one, so the
number of violations is at most the number of pads.  The result of a reference pad is the
marker of the first candidate that fails its test among the pads from the reference pad on,
the reference pad left out, up to the first one whose X is above the cutoff; it does not
depend on the results of the other reference pads, and `doPadToPadsDrc` returns false with
this marker in the slot exactly when there is one. -/
theorem pad_scan_stops_at_first_failure (env : Env) (s : DRC) :
    emitted s (testPad2Pad env s) =
      (padScanResults env s.m_pcb
        (maxPadSize env (env.GetSortedPadListByXthenYCoord s.m_pcb) 0)
        (env.GetSortedPadListByXthenYCoord s.m_pcb)).reduceOption ∧
    (padScanResults env s.m_pcb
        (maxPadSize env (env.GetSortedPadListByXthenYCoord s.m_pcb) 0)
        (env.GetSortedPadListByXthenYCoord s.m_pcb)).length =
      (env.GetSortedPadListByXthenYCoord s.m_pcb).length ∧
    (emitted s (testPad2Pad env s)).length ≤
      (env.GetSortedPadListByXthenYCoord s.m_pcb).length ∧
    (∀ (pre rest : List D_PAD) (pad : D_PAD),
      env.GetSortedPadListByXthenYCoord s.m_pcb = pre ++ pad :: rest →
      (padScanResults env s.m_pcb
          (maxPadSize env (env.GetSortedPadListByXthenYCoord s.m_pcb) 0)
          (env.GetSortedPadListByXthenYCoord s.m_pcb))[pre.length]? =
        some ((scannedCandidates pad
            (padCutoff env (maxPadSize env (env.GetSortedPadListByXthenYCoord s.m_pcb) 0) pad)
            (pad :: rest)).findSome? (padTestMarker env s.m_pcb pad))) ∧
    (∀ (aRefPad : D_PAD) (pads : List D_PAD) (x_limit : Int),
      doPadToPadsDrc env aRefPad pads x_limit s =
        match (scannedCandidates aRefPad x_limit pads).findSome?
            (padTestMarker env s.m_pcb aRefPad) with
        | none => (true, s)
        | some marker => (false, { s with m_currentMarker := some marker })) ∧
    (∀ (aRefPad pad : D_PAD) (marker : MARKER_PCB),
      padTestMarker env s.m_pcb aRefPad pad = some marker →
        marker = MARKER_PCB.ofPad pad (BOARD_ITEM.pad aRefPad) DRCE_HOLE_NEAR_PAD ∨
        marker = MARKER_PCB.ofPad aRefPad (BOARD_ITEM.pad pad) DRCE_HOLE_NEAR_PAD ∨
        marker = MARKER_PCB.ofPad aRefPad (BOARD_ITEM.pad pad) DRCE_PAD_NEAR_PAD1) := by
  have hem := testPad2Pad_emitted env s
  rw [sweepMarkers_eq_reduceOption] at hem
  refine ⟨hem, padScanResults_length _ _ _ _, ?_, ?_,
    fun aRefPad pads x_limit => doPadToPadsDrc_eq_findSome env aRefPad pads x_limit s, ?_⟩
  · rw [hem, ← padScanResults_length env s.m_pcb
      (maxPadSize env (env.GetSortedPadListByXthenYCoord s.m_pcb) 0)]
    exact List.reduceOption_length_le _
  · intro pre rest pad hl
    rw [hl, padScanResults_at]
    unfold refPadMarker
    rw [padSweep_eq_findSome env s.m_pcb pad _ _ _ (fun _ => rfl)]
  · intro aRefPad pad marker h
    unfold padTestMarker at h
    cases hb : padPairTest env aRefPad (aRefPad.m_layerMask &&& env.AllCuMask)
        (initialDummyPad env s.m_pcb) pad with
    | next d => rw [hb] at h; cases h
    | stop => rw [hb] at h; cases h
    | fail m =>
      rw [hb] at h
      simp only [Option.some.injEq] at h
      subst h
      rcases padPairTest_fail_cases env aRefPad _ pad m hb with h1 | h1 | h1
      · exact Or.inl h1.1
      · exact Or.inr (Or.inl h1.1)
      · exact Or.inr (Or.inr h1.1)

/-- C22: for every pair of pads that share no copper layer and neither of which has a drill
(drill size x = 0 for both), whatever the clearance predicate returns, the test of one as a
candidate against the other as the reference pad goes on to the next candidate, and no
violation of the pair, of any kind and in either order, is left in the slot by a failed
`doPadToPadsDrc` or added to the sink by `testPad2Pad`. -/
theorem pads_without_shared_copper_or_hole_pass (env : Env) (s : DRC) (A B : D_PAD)
    (hshare : (A.m_layerMask &&& B.m_layerMask &&& env.AllCuMask) = 0)
    (hA : A.m_Drill.x = 0) (hB : B.m_Drill.x = 0) :
    (∀ d : D_PAD, ∃ d1,
      padPairTest env A (A.m_layerMask &&& env.AllCuMask) d B = PadFlow.next d1) ∧
    (∀ d : D_PAD, ∃ d1,
      padPairTest env B (B.m_layerMask &&& env.AllCuMask) d A = PadFlow.next d1) ∧
    (∀ (code : DRCE) (aRefPad : D_PAD) (pads : List D_PAD) (x_limit : Int),
      (doPadToPadsDrc env aRefPad pads x_limit s).1 = false →
        (doPadToPadsDrc env aRefPad pads x_limit s).2.m_currentMarker
          ≠ some (MARKER_PCB.ofPad A (BOARD_ITEM.pad B) code) ∧
        (doPadToPadsDrc env aRefPad pads x_limit s).2.m_currentMarker
          ≠ some (MARKER_PCB.ofPad B (BOARD_ITEM.pad A) code)) ∧
    (∀ code : DRCE,
      MARKER_PCB.ofPad A (BOARD_ITEM.pad B) code ∉ emitted s (testPad2Pad env s) ∧
      MARKER_PCB.ofPad B (BOARD_ITEM.pad A) code ∉ emitted s (testPad2Pad env s)) := by
  have hBA : (B.m_layerMask &&& (A.m_layerMask &&& env.AllCuMask)) = 0 := by
    rw [← Nat.land_assoc, Nat.land_comm B.m_layerMask]
    exact hshare
  have hAB : (A.m_layerMask &&& (B.m_layerMask &&& env.AllCuMask)) = 0 := by
    rw [← Nat.land_assoc]
    exact hshare
  have key : ∀ (X Y : D_PAD), X.m_Drill.x = 0 → Y.m_Drill.x = 0 →
      (Y.m_layerMask &&& (X.m_layerMask &&& env.AllCuMask)) = 0 → ∀ code : DRCE,
      ¬ ((code = DRCE_HOLE_NEAR_PAD ∧ X.m_Drill.x ≠ 0 ∧ holeTestApplies env X Y) ∨
        (code = DRCE_PAD_NEAR_PAD1 ∧ ¬ holeTestApplies env Y X
          ∧ ((Y.m_layerMask &&& (X.m_layerMask &&& env.AllCuMask)) ≠ 0
            ∨ Y.m_Drill.x ≠ 0))) := by
    intro X Y hX hY hXY code h
    rcases h with ⟨_, h, _⟩ | ⟨_, _, h | h⟩
    · exact h hX
    · exact h hXY
    · exact h hY
  have pass : ∀ (X Y : D_PAD), X.m_Drill.x = 0 → Y.m_Drill.x = 0 →
      (Y.m_layerMask &&& (X.m_layerMask &&& env.AllCuMask)) = 0 → ∀ d : D_PAD, ∃ d1,
      padPairTest env X (X.m_layerMask &&& env.AllCuMask) d Y = PadFlow.next d1 := by
    intro X Y hX hY hXY d
    cases hb : padPairTest env X (X.m_layerMask &&& env.AllCuMask) d Y with
    | next d1 => exact ⟨d1, rfl⟩
    | stop => exact absurd hb (padPairTest_ne_stop env X _ d Y)
    | fail m =>
      rcases padPairTest_fail_cases env X d Y m hb with h | h | h
      · exact absurd hY h.2.2.2.1
      · exact absurd hX h.2.2.2.1
      · exact absurd (Or.inl ⟨hXY, hY⟩) h.2.2.2.2.1
  refine ⟨pass A B hA hB hBA, pass B A hB hA hAB, ?_, ?_⟩
  · intro code aRefPad pads x_limit hfail
    exact ⟨fun h => key A B hA hB hBA code
        (doPadToPadsDrc_pair_marker_drill env aRefPad pads x_limit s A B code hfail h),
      fun h => key B A hB hA hAB code
        (doPadToPadsDrc_pair_marker_drill env aRefPad pads x_limit s B A code hfail h)⟩
  · intro code
    exact ⟨fun h => key A B hA hB hBA code (testPad2Pad_pair_marker_drill env s A B code h),
      fun h => key B A hB hA hAB code (testPad2Pad_pair_marker_drill env s B A code h)⟩

/-- C22, instance: two pads without drill at the same place, one on the front and one on the
back copper layer, with a clearance test that fails for every pair: the sweep adds nothing. -/
theorem pads_without_shared_copper_or_hole_pass_witness :
    ((samplePad 1 1 "1" 0 1 0 1).m_layerMask &&& (samplePad 2 2 "1" 0 2 0 2).m_layerMask
      &&& allClashEnv.AllCuMask) = 0 ∧
    (samplePad 1 1 "1" 0 1 0 1).m_Drill.x = 0 ∧ (samplePad 2 2 "1" 0 2 0 2).m_Drill.x = 0 ∧
    MARKER_PCB.ofPad (samplePad 1 1 "1" 0 1 0 1) (BOARD_ITEM.pad (samplePad 2 2 "1" 0 2 0 2))
        DRCE_PAD_NEAR_PAD1 ∉
      emitted (padBoardDRC [samplePad 1 1 "1" 0 1 0 1, samplePad 2 2 "1" 0 2 0 2])
        (testPad2Pad allClashEnv
          (padBoardDRC [samplePad 1 1 "1" 0 1 0 1, samplePad 2 2 "1" 0 2 0 2])) ∧
    emitted (padBoardDRC [samplePad 1 1 "1" 0 1 0 1, samplePad 2 2 "1" 0 2 0 2])
      (testPad2Pad allClashEnv
        (padBoardDRC [samplePad 1 1 "1" 0 1 0 1, samplePad 2 2 "1" 0 2 0 2])) = [] :=
  ⟨by decide, by decide, by decide,
   ((pads_without_shared_copper_or_hole_pass allClashEnv
      (padBoardDRC [samplePad 1 1 "1" 0 1 0 1, samplePad 2 2 "1" 0 2 0 2])
      (samplePad 1 1 "1" 0 1 0 1) (samplePad 2 2 "1" 0 2 0 2)
      (by decide) (by decide) (by decide)).2.2.2 DRCE_PAD_NEAR_PAD1).1,
   by decide⟩

/-- C27: for every pair of pads that each have a copper layer and share none, the test of
the candidate `B` against the reference pad `A` in `doPadToPadsDrc` goes on to the next
candidate, or fails with the `DRCE_HOLE_NEAR_PAD` marker of the hole of the candidate, which
needs a non zero drill of the candidate, or fails with the `DRCE_HOLE_NEAR_PAD` marker of the
hole of the reference pad, which needs a non zero drill of the reference pad and is reached
only when the candidate has no drill or its hole passed.  So no `DRCE_PAD_NEAR_PAD1`
violation of the pair is left in the slot or added to the sink, and a violation of the pair
in the slot or in the sink has the kind `DRCE_HOLE_NEAR_PAD` and is made for a pad with a
non zero drill. -/
theorem disjoint_copper_pads_only_hole_violations (env : Env) (s : DRC) (A B : D_PAD)
    (hAcu : (A.m_layerMask &&& env.AllCuMask) ≠ 0)
    (hBcu : (B.m_layerMask &&& env.AllCuMask) ≠ 0)
    (hshare : (A.m_layerMask &&& B.m_layerMask &&& env.AllCuMask) = 0) :
    (∀ d : D_PAD,
      (∃ d1, padPairTest env A (A.m_layerMask &&& env.AllCuMask) d B = PadFlow.next d1) ∨
      (padPairTest env A (A.m_layerMask &&& env.AllCuMask) d B =
          PadFlow.fail (MARKER_PCB.ofPad B (BOARD_ITEM.pad A) DRCE_HOLE_NEAR_PAD)
        ∧ B.m_Drill.x ≠ 0
        ∧ env.checkClearancePadToPad A (setHoleProbe d B) = false) ∨
      (padPairTest env A (A.m_layerMask &&& env.AllCuMask) d B =
          PadFlow.fail (MARKER_PCB.ofPad A (BOARD_ITEM.pad B) DRCE_HOLE_NEAR_PAD)
        ∧ A.m_Drill.x ≠ 0
        ∧ (B.m_Drill.x ≠ 0 → env.checkClearancePadToPad A (setHoleProbe d B) = true)
        ∧ env.checkClearancePadToPad B (setHoleProbe d A) = false)) ∧
    (∀ (code : DRCE) (aRefPad : D_PAD) (pads : List D_PAD) (x_limit : Int),
      (doPadToPadsDrc env aRefPad pads x_limit s).1 = false →
        ((doPadToPadsDrc env aRefPad pads x_limit s).2.m_currentMarker
            = some (MARKER_PCB.ofPad A (BOARD_ITEM.pad B) code) →
          code = DRCE_HOLE_NEAR_PAD ∧ A.m_Drill.x ≠ 0) ∧
        ((doPadToPadsDrc env aRefPad pads x_limit s).2.m_currentMarker
            = some (MARKER_PCB.ofPad B (BOARD_ITEM.pad A) code) →
          code = DRCE_HOLE_NEAR_PAD ∧ B.m_Drill.x ≠ 0)) ∧
    (∀ code : DRCE,
      (MARKER_PCB.ofPad A (BOARD_ITEM.pad B) code ∈ emitted s (testPad2Pad env s) →
        code = DRCE_HOLE_NEAR_PAD ∧ A.m_Drill.x ≠ 0) ∧
      (MARKER_PCB.ofPad B (BOARD_ITEM.pad A) code ∈ emitted s (testPad2Pad env s) →
        code = DRCE_HOLE_NEAR_PAD ∧ B.m_Drill.x ≠ 0)) ∧
    MARKER_PCB.ofPad A (BOARD_ITEM.pad B) DRCE_PAD_NEAR_PAD1 ∉ emitted s (testPad2Pad env s) ∧
    MARKER_PCB.ofPad B (BOARD_ITEM.pad A) DRCE_PAD_NEAR_PAD1 ∉ emitted s (testPad2Pad env s) := by
  have hBA : holeTestApplies env B A := by
    refine ⟨?_, hBcu, hAcu⟩
    rw [← Nat.land_assoc, Nat.land_comm B.m_layerMask]
    exact hshare
  have hAB : holeTestApplies env A B := holeTestApplies_symm env B A hBA
  have key : ∀ (X Y : D_PAD), holeTestApplies env Y X → ∀ code : DRCE,
      ((code = DRCE_HOLE_NEAR_PAD ∧ X.m_Drill.x ≠ 0 ∧ holeTestApplies env X Y) ∨
        (code = DRCE_PAD_NEAR_PAD1 ∧ ¬ holeTestApplies env Y X
          ∧ ((Y.m_layerMask &&& (X.m_layerMask &&& env.AllCuMask)) ≠ 0
            ∨ Y.m_Drill.x ≠ 0))) →
      code = DRCE_HOLE_NEAR_PAD ∧ X.m_Drill.x ≠ 0 := by
    intro X Y hYX code h
    rcases h with ⟨h1, h2, _⟩ | ⟨_, h, _⟩
    · exact ⟨h1, h2⟩
    · exact absurd hYX h
  have hem : ∀ code : DRCE,
      (MARKER_PCB.ofPad A (BOARD_ITEM.pad B) code ∈ emitted s (testPad2Pad env s) →
        code = DRCE_HOLE_NEAR_PAD ∧ A.m_Drill.x ≠ 0) ∧
      (MARKER_PCB.ofPad B (BOARD_ITEM.pad A) code ∈ emitted s (testPad2Pad env s) →
        code = DRCE_HOLE_NEAR_PAD ∧ B.m_Drill.x ≠ 0) := by
    intro code
    exact ⟨fun h => key A B hBA code (testPad2Pad_pair_marker_drill env s A B code h),
      fun h => key B A hAB code (testPad2Pad_pair_marker_drill env s B A code h)⟩
  refine ⟨?_, ?_, hem, ?_, ?_⟩
  · intro d
    cases hb : padPairTest env A (A.m_layerMask &&& env.AllCuMask) d B with
    | next d1 => exact Or.inl ⟨d1, rfl⟩
    | stop => exact absurd hb (padPairTest_ne_stop env A _ d B)
    | fail m =>
      rcases padPairTest_fail_cases env A d B m hb with h | h | h
      · exact Or.inr (Or.inl ⟨by rw [h.1], h.2.2.2.1, h.2.2.2.2⟩)
      · exact Or.inr (Or.inr ⟨by rw [h.1], h.2.2.2.1, h.2.2.2.2.1, h.2.2.2.2.2⟩)
      · exact absurd hBA h.2.1
  · intro code aRefPad pads x_limit hfail
    exact ⟨fun h => key A B hBA code
        (doPadToPadsDrc_pair_marker_drill env aRefPad pads x_limit s A B code hfail h),
      fun h => key B A hAB code
        (doPadToPadsDrc_pair_marker_drill env aRefPad pads x_limit s B A code hfail h)⟩
  · intro h
    cases ((hem DRCE_PAD_NEAR_PAD1).1 h).1
  · intro h
    cases ((hem DRCE_PAD_NEAR_PAD1).2 h).1

/-- C27, instance: a pad of the front copper layer without drill and, 5 units from it, a pad
of the back copper layer with a drill of 4, with a clearance test that fails for every pair:
the sweep adds the `DRCE_HOLE_NEAR_PAD` violation of the hole of the second pad and no
`DRCE_PAD_NEAR_PAD1` violation. -/
theorem disjoint_copper_pads_only_hole_violations_witness :
    ((samplePad 1 1 "1" 0 1 0 1).m_layerMask &&& allClashEnv.AllCuMask) ≠ 0 ∧
    ((samplePad 2 2 "1" 5 2 4 2).m_layerMask &&& allClashEnv.AllCuMask) ≠ 0 ∧
    ((samplePad 1 1 "1" 0 1 0 1).m_layerMask &&& (samplePad 2 2 "1" 5 2 4 2).m_layerMask
      &&& allClashEnv.AllCuMask) = 0 ∧
    MARKER_PCB.ofPad (samplePad 1 1 "1" 0 1 0 1) (BOARD_ITEM.pad (samplePad 2 2 "1" 5 2 4 2))
        DRCE_PAD_NEAR_PAD1 ∉
      emitted (padBoardDRC [samplePad 1 1 "1" 0 1 0 1, samplePad 2 2 "1" 5 2 4 2])
        (testPad2Pad allClashEnv
          (padBoardDRC [samplePad 1 1 "1" 0 1 0 1, samplePad 2 2 "1" 5 2 4 2])) ∧
    emitted (padBoardDRC [samplePad 1 1 "1" 0 1 0 1, samplePad 2 2 "1" 5 2 4 2])
      (testPad2Pad allClashEnv
        (padBoardDRC [samplePad 1 1 "1" 0 1 0 1, samplePad 2 2 "1" 5 2 4 2])) =
      [MARKER_PCB.ofPad (samplePad 2 2 "1" 5 2 4 2) (BOARD_ITEM.pad (samplePad 1 1 "1" 0 1 0 1))
        DRCE_HOLE_NEAR_PAD] :=
  ⟨by decide, by decide, by decide,
   (disjoint_copper_pads_only_hole_violations allClashEnv
      (padBoardDRC [samplePad 1 1 "1" 0 1 0 1, samplePad 2 2 "1" 5 2 4 2])
      (samplePad 1 1 "1" 0 1 0 1) (samplePad 2 2 "1" 5 2 4 2)
      (by decide) (by decide) (by decide)).2.2.2.1,
   by decide⟩

/-! ## Claim on the keepout test of a via -/

theorem keepoutMarker_via (env : Env) (area : ZONE_CONTAINER) (T : TRACK)
    (hvia : T.m_StructType = PCB_VIA_T) (m : MARKER_PCB) :
    keepoutMarker env area T = some m ↔
      (m = MARKER_PCB.ofTrack T none DRCE_VIA_INSIDE_KEEPOUT ∧ area.m_doNotAllowVias = true
        ∧ area.CommonLayerExists T.m_layerSet = true
        ∧ env.OutlineDistancePoint area T.m_Start < Int.tdiv T.m_Width 2) := by
  unfold keepoutMarker
  have hne : ¬ (PCB_VIA_T = PCB_TRACE_T) := by decide
  rw [hvia, if_neg hne, if_pos rfl]
  by_cases hc : area.m_doNotAllowVias = true ∧ area.CommonLayerExists T.m_layerSet = true
      ∧ env.OutlineDistancePoint area T.m_Start < Int.tdiv T.m_Width 2
  · rw [if_pos hc]
    constructor
    · intro h
      exact ⟨(Option.some.inj h).symm, hc⟩
    · intro h
      rw [h.1]
  · rw [if_neg hc]
    constructor
    · intro h
      cases h
    · intro h
      exact absurd h.2 hc

/-- C23, counterexample: a via of width 5 whose centre is at distance 2 from the outline of a
keepout of its layer that disallows vias: twice the distance is below the width, and neither
keepout tester reports the via. -/
theorem odd_width_via_at_half_width_passes :
    2 * sampleEnv.OutlineDistancePoint (sampleZone 1 0 true true true 1 0) oddVia.m_Start
      < oddVia.m_Width ∧
    oddVia.m_StructType = PCB_VIA_T ∧
    (sampleZone 1 0 true true true 1 0).m_isKeepout = true ∧
    (sampleZone 1 0 true true true 1 0).m_doNotAllowVias = true ∧
    (sampleZone 1 0 true true true 1 0).CommonLayerExists oddVia.m_layerSet = true ∧
    emitted oddViaDRC (testKeepoutAreas sampleEnv oddViaDRC) = [] ∧
    (doTrackKeepoutDrc sampleEnv oddVia oddViaDRC).1 = true := by
  decide

/-- C23, as the code has it: for every via of the board, `testKeepoutAreas` adds a
`DRCE_VIA_INSIDE_KEEPOUT` violation of the via, and `doTrackKeepoutDrc` fails for the via
and leaves that violation in the slot, exactly when some keepout of the board disallows
vias, shares a layer with the via and has its outline at a distance from the centre of the
via that is below the width of the via divided by 2 with the integer division of the source.
For a width `w >= 0` this is `2*d + 2 <= w`: the same as `2*d < w` for an even `w`, and
`2*d < w - 1` for an odd `w`. -/
theorem via_keepout_uses_integer_half_width (env : Env) (s : DRC) (T : TRACK)
    (hvia : T.m_StructType = PCB_VIA_T) (hT : T ∈ s.m_pcb.m_Track) :
    (MARKER_PCB.ofTrack T none DRCE_VIA_INSIDE_KEEPOUT ∈ emitted s (testKeepoutAreas env s) ↔
      ∃ area ∈ s.m_pcb.m_ZoneDescriptorList, area.m_isKeepout = true
        ∧ area.m_doNotAllowVias = true ∧ area.CommonLayerExists T.m_layerSet = true
        ∧ env.OutlineDistancePoint area T.m_Start < Int.tdiv T.m_Width 2) ∧
    ((doTrackKeepoutDrc env T s).1 = false ↔
      ∃ area ∈ s.m_pcb.m_ZoneDescriptorList, area.m_isKeepout = true
        ∧ area.m_doNotAllowVias = true ∧ area.CommonLayerExists T.m_layerSet = true
        ∧ env.OutlineDistancePoint area T.m_Start < Int.tdiv T.m_Width 2) ∧
    ((doTrackKeepoutDrc env T s).1 = false →
      (doTrackKeepoutDrc env T s).2.m_currentMarker =
        some (MARKER_PCB.ofTrack T none DRCE_VIA_INSIDE_KEEPOUT)) ∧
    (∀ d : Int, 0 ≤ T.m_Width → (d < Int.tdiv T.m_Width 2 ↔ 2 * d + 2 ≤ T.m_Width)) ∧
    (∀ d : Int, 0 ≤ T.m_Width → T.m_Width % 2 = 0 →
      (d < Int.tdiv T.m_Width 2 ↔ 2 * d < T.m_Width)) ∧
    (∀ d : Int, 0 ≤ T.m_Width → T.m_Width % 2 = 1 →
      (d < Int.tdiv T.m_Width 2 ↔ 2 * d < T.m_Width - 1)) := by
  refine ⟨?_, ?_, ?_, ?_, ?_, ?_⟩
  · rw [testKeepoutAreas_emitted]
    constructor
    · intro h
      obtain ⟨area, harea, hma⟩ := List.mem_flatMap.mp h
      unfold keepoutAreaMarkers at hma
      split_ifs at hma with hk
      · obtain ⟨segm, _, hsegm⟩ := List.mem_filterMap.mp hma
        have hseg : segm = T := by
          rcases keepoutMarker_track env area segm _ hsegm with ⟨h1, _⟩ | ⟨h1, _⟩
          · cases h1
          · injection h1 with h2
            exact h2.symm
        subst hseg
        exact ⟨area, harea, hk, ((keepoutMarker_via env area segm hvia _).mp hsegm).2⟩
      · cases hma
    · rintro ⟨area, harea, hk, hc⟩
      refine List.mem_flatMap.mpr ⟨area, harea, ?_⟩
      unfold keepoutAreaMarkers
      rw [if_pos hk]
      exact List.mem_filterMap.mpr ⟨T, hT, (keepoutMarker_via env area T hvia _).mpr ⟨rfl, hc⟩⟩
  · rw [doTrackKeepoutDrc_eq]
    constructor
    · intro h
      cases hf : s.m_pcb.m_ZoneDescriptorList.findSome?
          (fun a => if a.m_isKeepout = true then keepoutMarker env a T else none) with
      | none => rw [hf] at h; simp at h
      | some marker =>
        obtain ⟨area, harea, hg⟩ := List.exists_of_findSome?_eq_some hf
        split_ifs at hg with hk
        exact ⟨area, harea, hk, ((keepoutMarker_via env area T hvia _).mp hg).2⟩
    · rintro ⟨area, harea, hk, hc⟩
      cases hf : s.m_pcb.m_ZoneDescriptorList.findSome?
          (fun a => if a.m_isKeepout = true then keepoutMarker env a T else none) with
      | none =>
        have := List.findSome?_eq_none_iff.mp hf area harea
        rw [if_pos hk, (keepoutMarker_via env area T hvia _).mpr ⟨rfl, hc⟩] at this
        cases this
      | some marker => rfl
  · intro h
    rw [doTrackKeepoutDrc_eq] at h ⊢
    cases hf : s.m_pcb.m_ZoneDescriptorList.findSome?
        (fun a => if a.m_isKeepout = true then keepoutMarker env a T else none) with
    | none => rw [hf] at h; simp at h
    | some marker =>
      obtain ⟨area, harea, hg⟩ := List.exists_of_findSome?_eq_some hf
      split_ifs at hg with hk
      rw [((keepoutMarker_via env area T hvia _).mp hg).1]
  · intro d hw
    rw [Int.tdiv_eq_ediv hw (by norm_num)]
    omega
  · intro d hw he
    rw [Int.tdiv_eq_ediv hw (by norm_num)]
    omega
  · intro d hw ho
    rw [Int.tdiv_eq_ediv hw (by norm_num)]
    omega

/-- C23, instance: the via of width 5 at distance 2 from the keepout is not reported, since
2 is not below 5 / 2 = 2. -/
theorem via_keepout_uses_integer_half_width_witness :
    oddVia.m_StructType = PCB_VIA_T ∧ oddVia ∈ oddViaDRC.m_pcb.m_Track ∧
    ¬ ((doTrackKeepoutDrc sampleEnv oddVia oddViaDRC).1 = false) ∧
    ((doTrackKeepoutDrc sampleEnv oddVia oddViaDRC).1 = false ↔
      ∃ area ∈ oddViaDRC.m_pcb.m_ZoneDescriptorList, area.m_isKeepout = true
        ∧ area.m_doNotAllowVias = true ∧ area.CommonLayerExists oddVia.m_layerSet = true
        ∧ sampleEnv.OutlineDistancePoint area oddVia.m_Start < Int.tdiv oddVia.m_Width 2) :=
  ⟨by decide, by decide, by decide,
   (via_keepout_uses_integer_half_width sampleEnv oddViaDRC oddVia (by decide)
     (by decide)).2.1⟩

/-! ## Claims on the text tests -/

theorem textTrackMarker_some (env : Env) (text : TEXTE_PCB) (shape : List wxPoint)
    (track : TRACK) (m : MARKER_PCB) (h : textTrackMarker env text shape track = some m) :
    env.TrackIsOnLayer track text.m_Layer = true ∧
    ((m = MARKER_PCB.ofTrack track (some (BOARD_ITEM.text text)) DRCE_TRACK_INSIDE_TEXT
        ∧ track.m_StructType = PCB_TRACE_T
        ∧ textTrackHit env track
          (Int.tdiv (track.m_Width + text.m_Thickness) 2 + env.TrackGetClearance track)
          shape = true) ∨
      (m = MARKER_PCB.ofTrack track (some (BOARD_ITEM.text text)) DRCE_VIA_INSIDE_TEXT
        ∧ track.m_StructType = PCB_VIA_T
        ∧ textViaHit env track
          (Int.tdiv (track.m_Width + text.m_Thickness) 2 + env.TrackGetClearance track)
          shape = true)) := by
  unfold textTrackMarker at h
  split_ifs at h with h1 h2 h3 h4 h5
  · simp only [Option.some.injEq] at h
    exact ⟨by simpa using h1, Or.inl ⟨h.symm, h2, h3⟩⟩
  · simp only [Option.some.injEq] at h
    exact ⟨by simpa using h1, Or.inr ⟨h.symm, h4, h5⟩⟩

theorem textPadMarker_some (env : Env) (text : TEXTE_PCB) (shape : List wxPoint)
    (pad : D_PAD) (m : MARKER_PCB) (h : textPadMarker env text shape pad = some m) :
    m = MARKER_PCB.ofPad pad (BOARD_ITEM.text text) DRCE_PAD_INSIDE_TEXT
      ∧ env.PadIsOnLayer pad text.m_Layer = true
      ∧ textPadHit env pad text (env.ShapePos pad) shape = true := by
  unfold textPadMarker at h
  split_ifs at h with h1 h2
  simp only [Option.some.injEq] at h
  exact ⟨h.symm, by simpa using h1, h2⟩

/-- C25: in `testTexts`, the loop over the segments of the text shape adds at most one
violation for a track segment, for a via and for a pad, however many segments are too close;
the loop over the tracks and vias adds for every track or via its own result, and the loop
over the pads for every pad its own result, so a violation of one candidate does not end the
test of the others; and the run adds, item by item, the results of the tracks and vias
followed by the results of the pads for every tested text item, and nothing for another
item. -/
theorem testTexts_one_violation_per_candidate (env : Env) (s : DRC) :
    (∀ (t : DRC) (track : TRACK) (text : TEXTE_PCB) (min_dist : Int) (shape : List wxPoint),
      (emitted t (testTextsTrackSegments env track text min_dist shape t)).length ≤ 1 ∧
      (emitted t (testTextsViaSegments env track text min_dist shape t)).length ≤ 1) ∧
    (∀ (t : DRC) (pad : D_PAD) (text : TEXTE_PCB) (shape_pos : wxPoint)
        (shape : List wxPoint),
      (emitted t (testTextsPadSegments env pad text shape_pos shape t)).length ≤ 1) ∧
    (∀ (t : DRC) (text : TEXTE_PCB) (shape : List wxPoint) (tracks : List TRACK),
      emitted t (testTextsTracks env text shape tracks t) =
        (tracks.map (textTrackMarker env text shape)).reduceOption) ∧
    (∀ (t : DRC) (text : TEXTE_PCB) (shape : List wxPoint) (pads : List D_PAD),
      emitted t (testTextsPads env text shape pads t) =
        (pads.map (textPadMarker env text shape)).reduceOption) ∧
    emitted s (testTexts env s) = s.m_pcb.m_Drawings.flatMap (textItemMarkers env s.m_pcb) ∧
    (∀ item : TEXTE_PCB,
      textItemMarkers env s.m_pcb item =
        if env.IsCopperLayer item.m_Layer = true ∧ item.m_StructType = PCB_TEXT_T
            ∧ (env.TransformTextShapeToSegmentList item).length ≠ 0 then
          (s.m_pcb.m_Track.map
              (textTrackMarker env item (env.TransformTextShapeToSegmentList item))).reduceOption
            ++ (s.m_pcb.m_pads.map
              (textPadMarker env item (env.TransformTextShapeToSegmentList item))).reduceOption
        else []) ∧
    (∀ item : TEXTE_PCB,
      (textItemMarkers env s.m_pcb item).length ≤ s.m_pcb.m_Track.length + s.m_pcb.m_pads.length) ∧
    (∀ (item : TEXTE_PCB) (shape : List wxPoint) (track : TRACK) (m : MARKER_PCB),
      textTrackMarker env item shape track = some m →
        m = MARKER_PCB.ofTrack track (some (BOARD_ITEM.text item)) DRCE_TRACK_INSIDE_TEXT ∨
        m = MARKER_PCB.ofTrack track (some (BOARD_ITEM.text item)) DRCE_VIA_INSIDE_TEXT) ∧
    (∀ (item : TEXTE_PCB) (shape : List wxPoint) (pad : D_PAD) (m : MARKER_PCB),
      textPadMarker env item shape pad = some m →
        m = MARKER_PCB.ofPad pad (BOARD_ITEM.text item) DRCE_PAD_INSIDE_TEXT) := by
  have hform : ∀ item : TEXTE_PCB,
      textItemMarkers env s.m_pcb item =
        if env.IsCopperLayer item.m_Layer = true ∧ item.m_StructType = PCB_TEXT_T
            ∧ (env.TransformTextShapeToSegmentList item).length ≠ 0 then
          (s.m_pcb.m_Track.map
              (textTrackMarker env item (env.TransformTextShapeToSegmentList item))).reduceOption
            ++ (s.m_pcb.m_pads.map
              (textPadMarker env item (env.TransformTextShapeToSegmentList item))).reduceOption
        else [] := by
    intro item
    unfold textItemMarkers List.reduceOption
    simp only [List.filterMap_map, Function.id_comp, Function.comp_id]
    by_cases h1 : env.IsCopperLayer item.m_Layer = false
    · simp [h1]
    · by_cases h2 : item.m_StructType = PCB_TEXT_T
      · by_cases h3 : (env.TransformTextShapeToSegmentList item).length = 0
        · simp [h1, h2, h3]
        · simp [h1, h2, h3]
      · simp [h1, h2]
  refine ⟨fun t track text min_dist shape => ⟨?_, ?_⟩, fun t pad text shape_pos shape => ?_,
    fun t text shape tracks => ?_, fun t text shape pads => ?_,
    (testTexts_step env s).emitted_eq, hform, fun item => ?_,
    fun item shape track m h => ?_, fun item shape pad m h => ?_⟩
  · rw [(testTextsTrackSegments_step env track text min_dist shape t).emitted_eq]
    split <;> simp
  · rw [(testTextsViaSegments_step env track text min_dist shape t).emitted_eq]
    split <;> simp
  · rw [(testTextsPadSegments_step env pad text shape_pos shape t).emitted_eq]
    split <;> simp
  · rw [(testTextsTracks_step env text shape tracks t).emitted_eq]
    simp [List.reduceOption, List.filterMap_map]
  · rw [(testTextsPads_step env text shape pads t).emitted_eq]
    simp [List.reduceOption, List.filterMap_map]
  · rw [hform]
    split
    · rw [List.length_append]
      have h1 := List.reduceOption_length_le (s.m_pcb.m_Track.map
        (textTrackMarker env item (env.TransformTextShapeToSegmentList item)))
      have h2 := List.reduceOption_length_le (s.m_pcb.m_pads.map
        (textPadMarker env item (env.TransformTextShapeToSegmentList item)))
      rw [List.length_map] at h1 h2
      omega
    · simp
  · rcases (textTrackMarker_some env item shape track m h).2 with ⟨h1, _⟩ | ⟨h1, _⟩
    · exact Or.inl h1
    · exact Or.inr h1
  · exact (textPadMarker_some env item shape pad m h).1

/-! ## The current-marker slot: proofs -/

theorem ite_slot (c : Prop) [Decidable c] (a b : DRC) (ha : a.m_currentMarker = none)
    (hb : b.m_currentMarker = none) : (if c then a else b).m_currentMarker = none := by
  split
  · exact ha
  · exact hb

theorem testNetClasses_slot (env : Env) (s : DRC) (h : s.m_currentMarker = none) :
    (testNetClasses env s).2.m_currentMarker = none := by
  rw [testNetClasses_eq]
  simp [h]

theorem testPad2Pad_slot (env : Env) (s : DRC) (h : s.m_currentMarker = none) :
    (testPad2Pad env s).m_currentMarker = none := by
  unfold testPad2Pad
  rw [testPad2PadLoop_eq]
  simp [h]

theorem testTracksLoop_slot (env : Env) (delta : Nat) (dialog : Bool) (tracks : List TRACK)
    (ii count : Nat) (s : DRC) (h : s.m_currentMarker = none) :
    (testTracksLoop env delta dialog tracks ii count s).m_currentMarker = none := by
  induction tracks generalizing ii count s with
  | nil => exact h
  | cons segm next ih =>
    simp only [testTracksLoop]
    generalize (if decide (ii > delta) = true then 0 else ii + 1) = ii1
    generalize (if decide (ii > delta) = true then count + 1 else count) = count1
    by_cases hbreak : decide (ii > delta) = true ∧ dialog = true
        ∧ env.progressUpdate count1 = false
    · rw [if_pos hbreak]
      exact h
    · rw [if_neg hbreak]
      apply ih
      split
      · simp [flushCurrentMarker, addMarkerToPcb]
      · exact h

theorem testTracks_slot (env : Env) (aShowProgressBar : Bool) (s : DRC)
    (h : s.m_currentMarker = none) :
    (testTracks env aShowProgressBar s).m_currentMarker = none := by
  unfold testTracks
  exact testTracksLoop_slot env _ _ _ _ _ s h

theorem Fill_All_Zones_slot (env : Env) (s : DRC) (h : s.m_currentMarker = none) :
    (Fill_All_Zones env s).m_currentMarker = none := h

theorem testZones_slot (env : Env) (s : DRC) (h : s.m_currentMarker = none) :
    (testZones env s).m_currentMarker = none := by
  unfold testZones
  rw [testZonesLoop_eq]
  simp [h]

theorem testUnconnectedLoop_slot (edges : List CN_EDGE) (s : DRC)
    (h : s.m_currentMarker = none) :
    (testUnconnectedLoop edges s).m_currentMarker = none := by
  induction edges generalizing s with
  | nil => exact h
  | cons edge rest ih => exact ih _ h

theorem testUnconnected_slot (env : Env) (s : DRC) (h : s.m_currentMarker = none) :
    (testUnconnected env s).m_currentMarker = none :=
  testUnconnectedLoop_slot _ s h

theorem testKeepoutAreas_slot (env : Env) (s : DRC) (h : s.m_currentMarker = none) :
    (testKeepoutAreas env s).m_currentMarker = none := by
  unfold testKeepoutAreas
  rw [testKeepoutAreasLoop_eq]
  simp [h]

theorem testTextsTrackSegments_slot (env : Env) (track : TRACK) (text : TEXTE_PCB)
    (min_dist : Int) (shape : List wxPoint) (s : DRC) (h : s.m_currentMarker = none) :
    (testTextsTrackSegments env track text min_dist shape s).m_currentMarker = none := by
  induction shape using list_pairs_induction with
  | h0 => exact h
  | h1 a => exact h
  | h2 a b rest ih =>
    simp only [testTextsTrackSegments]
    split
    · rfl
    · exact ih

theorem testTextsViaSegments_slot (env : Env) (track : TRACK) (text : TEXTE_PCB)
    (min_dist : Int) (shape : List wxPoint) (s : DRC) (h : s.m_currentMarker = none) :
    (testTextsViaSegments env track text min_dist shape s).m_currentMarker = none := by
  induction shape using list_pairs_induction with
  | h0 => exact h
  | h1 a => exact h
  | h2 a b rest ih =>
    simp only [testTextsViaSegments]
    split
    · rfl
    · exact ih

theorem testTextsTracks_slot (env : Env) (text : TEXTE_PCB) (shape : List wxPoint)
    (tracks : List TRACK) (s : DRC) (h : s.m_currentMarker = none) :
    (testTextsTracks env text shape tracks s).m_currentMarker = none := by
  induction tracks generalizing s with
  | nil => exact h
  | cons track rest ih =>
    simp only [testTextsTracks]
    split
    · exact ih s h
    · split
      · exact ih _ (testTextsTrackSegments_slot env track text _ shape s h)
      · split
        · exact ih _ (testTextsViaSegments_slot env track text _ shape s h)
        · exact ih s h

theorem testTextsPadSegments_slot (env : Env) (pad : D_PAD) (text : TEXTE_PCB)
    (shape_pos : wxPoint) (shape : List wxPoint) :
    ∀ s : DRC, s.m_currentMarker = none →
      (testTextsPadSegments env pad text shape_pos shape s).m_currentMarker = none := by
  induction shape using list_pairs_induction with
  | h0 => exact fun s h => h
  | h1 a => exact fun s h => h
  | h2 a b rest ih =>
    intro s h
    simp only [testTextsPadSegments]
    generalize env.checkClearanceSegmToPad _ _ _ _ _ _ _ = ck
    cases ck
    · rfl
    · exact ih _ h

theorem testTextsPads_slot (env : Env) (text : TEXTE_PCB) (shape : List wxPoint)
    (pads : List D_PAD) (s : DRC) (h : s.m_currentMarker = none) :
    (testTextsPads env text shape pads s).m_currentMarker = none := by
  induction pads generalizing s with
  | nil => exact h
  | cons pad rest ih =>
    simp only [testTextsPads]
    split
    · exact ih s h
    · exact ih _ (testTextsPadSegments_slot env pad text _ shape s h)

theorem testTextsLoop_slot (env : Env) (padList : List D_PAD) (items : List TEXTE_PCB)
    (s : DRC) (h : s.m_currentMarker = none) :
    (testTextsLoop env padList items s).m_currentMarker = none := by
  induction items generalizing s with
  | nil => exact h
  | cons item rest ih =>
    simp only [testTextsLoop]
    split
    · exact ih s h
    · split
      · exact ih s h
      · split
        · exact ih s h
        · exact ih _ (testTextsPads_slot env item _ padList _
            (testTextsTracks_slot env item _ _ s h))

theorem testTexts_slot (env : Env) (s : DRC) (h : s.m_currentMarker = none) :
    (testTexts env s).m_currentMarker = none := by
  unfold testTexts
  exact testTextsLoop_slot env _ _ s h

theorem courtyardBuildLoop_slot (env : Env) (mods : List MODULE) (success : Bool) (s : DRC)
    (h : s.m_currentMarker = none) :
    (courtyardBuildLoop env mods success s).2.2.m_currentMarker = none := by
  induction mods generalizing success s with
  | nil => exact h
  | cons footprint rest ih =>
    simp only [courtyardBuildLoop]
    apply ih
    have c1 : (env.BuildPolyCourtyard footprint).1 = true
        ∨ (env.BuildPolyCourtyard footprint).1 = false := by
      cases (env.BuildPolyCourtyard footprint).1 <;> simp
    have c2 : s.m_doFootprintOverlapping = true ∨ s.m_doFootprintOverlapping = false := by
      cases s.m_doFootprintOverlapping <;> simp
    have c3 : s.m_doNoCourtyardDefined = true ∨ s.m_doNoCourtyardDefined = false := by
      cases s.m_doNoCourtyardDefined <;> simp
    rcases c1 with hok | hok <;> rcases c2 with hov | hov <;> rcases c3 with hnc | hnc <;>
      by_cases hf : (env.BuildPolyCourtyard footprint).2.1.length = 0 <;>
      by_cases hbk : (env.BuildPolyCourtyard footprint).2.2.length = 0 <;>
      simp [hok, hov, hnc, hf, hbk, addMarkerToPcb, h]

theorem courtyardOverlapCandidates_slot (env : Env) (side : MODULE → SHAPE_POLY_SET)
    (sideText : String) (footprint : MODULE) (cands : List MODULE) (success : Bool) (s : DRC)
    (h : s.m_currentMarker = none) :
    (courtyardOverlapCandidates env side sideText footprint cands success s).2.m_currentMarker
      = none := by
  induction cands generalizing success s with
  | nil => exact h
  | cons c rest ih =>
    simp only [courtyardOverlapCandidates]
    by_cases hc : (side c).length = 0
    · rw [if_pos hc]
      exact ih success s h
    · rw [if_neg hc]
      by_cases hi : (env.BooleanIntersection (side footprint) (side c)).length ≠ 0
      · rw [if_pos hi]
        exact ih _ _ rfl
      · rw [if_neg hi]
        exact ih success s h

theorem courtyardOverlapLoop_slot (env : Env) (side : MODULE → SHAPE_POLY_SET)
    (sideText : String) (mods : List MODULE) (success : Bool) (s : DRC)
    (h : s.m_currentMarker = none) :
    (courtyardOverlapLoop env side sideText mods success s).2.m_currentMarker = none := by
  induction mods generalizing success s with
  | nil => exact h
  | cons footprint rest ih =>
    simp only [courtyardOverlapLoop]
    by_cases hf : (side footprint).length = 0
    · rw [if_pos hf]
      exact ih success s h
    · rw [if_neg hf]
      exact ih _ _ (courtyardOverlapCandidates_slot env side sideText footprint rest success s h)

theorem doFootprintOverlappingDrc_slot (env : Env) (s : DRC) (h : s.m_currentMarker = none) :
    (doFootprintOverlappingDrc env s).2.m_currentMarker = none := by
  have hb := courtyardBuildLoop_slot env s.m_pcb.m_Modules true s h
  unfold doFootprintOverlappingDrc
  simp only []
  split
  · exact hb
  · exact courtyardOverlapLoop_slot env _ _ _ _ _
      (courtyardOverlapLoop_slot env _ _ _ _ _ hb)

theorem cond_slot (c : DRC → Prop) [DecidablePred c] (f : DRC → DRC) (t : DRC)
    (ht : t.m_currentMarker = none)
    (hf : ∀ x : DRC, x.m_currentMarker = none → (f x).m_currentMarker = none) :
    (if c t then f t else t).m_currentMarker = none := by
  split
  · exact hf t ht
  · exact ht

theorem RunTests_slot (env : Env) (s : DRC) (h : s.m_currentMarker = none) :
    (RunTests env s).m_currentMarker = none := by
  have h0 := testNetClasses_slot env s h
  by_cases hp : (testNetClasses env s).1 = false
  · have key : RunTests env s = (testNetClasses env s).2 := if_pos hp
    rw [key]
    exact h0
  · have key : RunTests env s = _ := if_neg hp
    rw [key]
    have h1 := cond_slot (fun x => x.m_doPad2PadTest = true) (testPad2Pad env) _ h0
      (testPad2Pad_slot env)
    have h2 := testTracks_slot env true _ h1
    have h3 := Fill_All_Zones_slot env _ h2
    have h4 := testZones_slot env _ h3
    have h5 := cond_slot (fun x => x.m_doUnconnectedTest = true) (testUnconnected env) _ h4
      (testUnconnected_slot env)
    have h6 := cond_slot (fun x => x.m_doKeepoutTest = true) (testKeepoutAreas env) _ h5
      (testKeepoutAreas_slot env)
    have h7 := testTexts_slot env _ h6
    exact cond_slot
      (fun x => x.m_doFootprintOverlapping = true ∨ x.m_doNoCourtyardDefined = true)
      (fun x => (doFootprintOverlappingDrc env x).2) _ h7 (doFootprintOverlappingDrc_slot env)

/-! ## Claim on the current-marker slot -/

/-- C26: if the current-marker slot is empty before it, it is empty after each of
`testNetClasses`, `testPad2Pad`, `testTracks`, `testZones`, `testKeepoutAreas`, `testTexts`
and `doFootprintOverlappingDrc`, and so after `RunTests`.  A marker goes to the sink by
`addMarkerToPcb`, which appends it once; where a failed `doPadToPadsDrc` or `doTrackDrc`
leaves the marker in the slot, the caller appends that marker once and empties the slot.
Every marker built is handed to the sink exactly once: each sub-check leaves the sink as it
was, followed by the markers built in it, in the order in which they were built and each
once.  For `testNetClasses` these are the markers of the undersized fields of the netclasses;
for `testPad2Pad` the markers that the calls of `doPadToPadsDrc` left in the slot, one call
for each reference pad; for `testTracks` the markers that the calls of `doTrackDrc` returned
for the reference items tested before the end or the abort; for `testZones`,
`testKeepoutAreas`, `testTexts` and `doFootprintOverlappingDrc` the markers of their failed
tests; for `RunTests` the markers of the sub-checks that ran. -/
theorem batch_checks_leave_the_slot_empty (env : Env) (s : DRC)
    (h : s.m_currentMarker = none) :
    (testNetClasses env s).2.m_currentMarker = none ∧
    (testPad2Pad env s).m_currentMarker = none ∧
    (∀ aShowProgressBar : Bool, (testTracks env aShowProgressBar s).m_currentMarker = none) ∧
    (testZones env s).m_currentMarker = none ∧
    (testKeepoutAreas env s).m_currentMarker = none ∧
    (testTexts env s).m_currentMarker = none ∧
    (doFootprintOverlappingDrc env s).2.m_currentMarker = none ∧
    (RunTests env s).m_currentMarker = none ∧
    (∀ (m : MARKER_PCB) (t : DRC), (addMarkerToPcb m t).markers = t.markers ++ [m]) ∧
    (∀ (t : DRC) (marker : MARKER_PCB), t.m_currentMarker = some marker →
      (flushCurrentMarker t).markers = t.markers ++ [marker] ∧
      (flushCurrentMarker t).m_currentMarker = none) ∧
    (∀ (aRefPad : D_PAD) (pads : List D_PAD) (x_limit : Int) (t : DRC),
      (doPadToPadsDrc env aRefPad pads x_limit t).1 = false →
      ∃ marker, (doPadToPadsDrc env aRefPad pads x_limit t).2.m_currentMarker = some marker ∧
        (flushCurrentMarker (doPadToPadsDrc env aRefPad pads x_limit t).2).markers =
          t.markers ++ [marker] ∧
        (flushCurrentMarker (doPadToPadsDrc env aRefPad pads x_limit t).2).m_currentMarker
          = none) ∧
    (testNetClasses env s).2.markers = s.markers ++ netclassMarkers env s.m_pcb ∧
    (∀ (max_size : Int) (pad : D_PAD) (rest : List D_PAD) (t : DRC),
      doPadToPadsDrc env pad (pad :: rest) (padCutoff env max_size pad) t =
        match refPadMarker env t.m_pcb max_size pad rest with
        | none => (true, t)
        | some marker => (false, { t with m_currentMarker := some marker })) ∧
    (testPad2Pad env s).markers = s.markers ++
      (padScanResults env s.m_pcb
        (maxPadSize env (env.GetSortedPadListByXthenYCoord s.m_pcb) 0)
        (env.GetSortedPadListByXthenYCoord s.m_pcb)).reduceOption ∧
    (∀ aShowProgressBar : Bool,
      (testTracks env aShowProgressBar s).markers = s.markers ++
        ((trackItemResults env s.m_pcb s.m_pcb.m_Track).take
          (testTracksProcessed env 500
            (aShowProgressBar && decide (countTracks s.m_pcb.m_Track / 500 > 3))
            s.m_pcb.m_Track 0 0)).reduceOption) ∧
    (testZones env s).markers = s.markers ++ zoneMarkers env s.m_pcb ∧
    (testKeepoutAreas env s).markers = s.markers ++ keepoutMarkers env s.m_pcb ∧
    (testTexts env s).markers =
      s.markers ++ s.m_pcb.m_Drawings.flatMap (textItemMarkers env s.m_pcb) ∧
    (doFootprintOverlappingDrc env s).2.markers =
      s.markers ++ courtyardMarkers env s.toggles s.m_pcb ∧
    (RunTests env s).markers = s.markers ++ runMarkers env s.toggles s.m_pcb := by
  have hpad := (testPad2Pad_step env s).markers
  unfold pad2padMarkers at hpad
  rw [sweepMarkers_eq_reduceOption] at hpad
  refine ⟨testNetClasses_slot env s h, testPad2Pad_slot env s h,
    fun b => testTracks_slot env b s h, testZones_slot env s h, testKeepoutAreas_slot env s h,
    testTexts_slot env s h, doFootprintOverlappingDrc_slot env s h, RunTests_slot env s h,
    fun m t => rfl, fun t marker ht => ?_, fun aRefPad pads x_limit t hfail => ?_,
    (testNetClasses_step env s).2.markers,
    fun max_size pad rest t => doPadToPadsDrc_eq env pad (pad :: rest) _ t, hpad,
    fun b => (testTracks_step env b s).markers, (testZones_step env s).markers,
    (testKeepoutAreas_step env s).markers, (testTexts_step env s).markers,
    (doFootprintOverlappingDrc_spec env s).2.markers, (RunTests_step env s).markers⟩
  · simp [flushCurrentMarker, ht, addMarkerToPcb]
  · rw [doPadToPadsDrc_eq] at hfail ⊢
    cases hm : padSweep env aRefPad (aRefPad.m_layerMask &&& env.AllCuMask) x_limit
        (initialDummyPad env t.m_pcb) pads with
    | none => rw [hm] at hfail; simp at hfail
    | some marker =>
      exact ⟨marker, by simp, by simp [flushCurrentMarker, addMarkerToPcb],
        by simp [flushCurrentMarker]⟩

/-- C26, instance: the run on the board of `clashZoneDRC`, which adds two violations, leaves
the slot empty. -/
theorem batch_checks_leave_the_slot_empty_witness :
    clashZoneDRC.m_currentMarker = none ∧
    (RunTests sampleEnv clashZoneDRC).m_currentMarker = none ∧
    (RunTests sampleEnv clashZoneDRC).markers.length = 2 :=
  ⟨rfl, (batch_checks_leave_the_slot_empty sampleEnv clashZoneDRC rfl).2.2.2.2.2.2.2.1,
   by decide⟩

/-! ## The progress dialog of the track sweep: proofs -/

theorem countTracks_eq (tracks : List TRACK) : countTracks tracks = tracks.length - 1 := by
  induction tracks using list_pairs_induction with
  | h0 => rfl
  | h1 a => rfl
  | h2 a b rest ih =>
    cases rest with
    | nil => rfl
    | cons c r =>
      simp only [countTracks, List.length_cons] at ih ⊢
      omega

theorem testTracksPolls_no_dialog (env : Env) (delta : Nat) (tracks : List TRACK)
    (item ii count : Nat) : testTracksPolls env delta false tracks item ii count = [] := by
  induction tracks generalizing item ii count with
  | nil => rfl
  | cons segm next ih => simp [testTracksPolls, ih]

theorem testTracksPolls_neverAborted (env : Env) (tracks : List TRACK) (item ii count : Nat)
    (hitem : 1 ≤ item) (hii : ii = (item - 1) % 502) (hcount : count = (item - 1) / 502) :
    testTracksPolls (neverAborted env) 500 true tracks item ii count =
      ((List.range' item tracks.length).filter (fun k => decide (k % 502 = 0))).map
        (fun k => (k, k / 502)) := by
  induction tracks generalizing item ii count with
  | nil => rfl
  | cons segm next ih =>
    simp only [testTracksPolls, List.length_cons, List.range'_succ]
    by_cases hov : ii > 500
    · have h1 : item % 502 = 0 := by omega
      have h2 : count + 1 = item / 502 := by omega
      have hu : ∀ c, (neverAborted env).progressUpdate c = true := fun _ => rfl
      rw [List.filter_cons_of_pos (by simpa using h1)]
      simp only [hov, decide_True, and_self, if_true, hu, Bool.true_eq_false, if_false,
        List.map_cons, h2]
      rw [ih (item + 1) 0 (item / 502) (by omega) (by omega) (by omega)]
    · have h1 : item % 502 ≠ 0 := by omega
      rw [List.filter_cons_of_neg (by simpa using h1)]
      simp only [hov, decide_False, Bool.false_eq_true, false_and, if_false]
      exact ih (item + 1) (ii + 1) count (by omega) (by omega) (by omega)

theorem testTracksPolls_take (env : Env) (delta : Nat) (dialog : Bool) (tracks : List TRACK)
    (item ii count : Nat) :
    ∃ j, testTracksPolls env delta dialog tracks item ii count =
      (testTracksPolls (neverAborted env) delta dialog tracks item ii count).take j := by
  induction tracks generalizing item ii count with
  | nil => exact ⟨0, rfl⟩
  | cons segm next ih =>
    simp only [testTracksPolls]
    generalize (if decide (ii > delta) = true then 0 else ii + 1) = ii1
    generalize (if decide (ii > delta) = true then count + 1 else count) = count1
    have hu : (neverAborted env).progressUpdate count1 = true := rfl
    obtain ⟨j, hj⟩ := ih (item + 1) ii1 count1
    by_cases hc : decide (ii > delta) = true ∧ dialog = true
    · rw [if_pos hc, if_pos hc]
      by_cases hup : env.progressUpdate count1 = false
      · exact ⟨1, by simp [hup]⟩
      · refine ⟨j + 1, ?_⟩
        simp only [hup, hu, if_false, Bool.true_eq_false, List.take_succ_cons]
        rw [hj]
    · rw [if_neg hc, if_neg hc]
      exact ⟨j, hj⟩

theorem testTracksPolls_ge (env : Env) (delta : Nat) (dialog : Bool) (tracks : List TRACK)
    (item ii count : Nat) :
    ∀ p ∈ testTracksPolls env delta dialog tracks item ii count, item ≤ p.1 := by
  induction tracks generalizing item ii count with
  | nil => intro p hp; cases hp
  | cons segm next ih =>
    simp only [testTracksPolls]
    generalize (if decide (ii > delta) = true then 0 else ii + 1) = ii1
    generalize (if decide (ii > delta) = true then count + 1 else count) = count1
    intro p hp
    by_cases hc : decide (ii > delta) = true ∧ dialog = true
    · rw [if_pos hc] at hp
      rcases List.mem_cons.mp hp with rfl | hp
      · exact le_refl _
      · by_cases hup : env.progressUpdate count1 = false
        · rw [if_pos hup] at hp
          cases hp
        · rw [if_neg hup] at hp
          have := ih _ _ _ p hp
          omega
    · rw [if_neg hc] at hp
      have := ih _ _ _ p hp
      omega

theorem testTracksProcessed_eq_polls (env : Env) (delta : Nat) (dialog : Bool)
    (tracks : List TRACK) (item ii count : Nat) :
    testTracksProcessed env delta dialog tracks ii count =
      match (testTracksPolls env delta dialog tracks item ii count).find?
          (fun p => !env.progressUpdate p.2) with
      | some p => p.1 - item
      | none => tracks.length := by
  induction tracks generalizing item ii count with
  | nil => rfl
  | cons segm next ih =>
    simp only [testTracksProcessed, testTracksPolls]
    generalize (if decide (ii > delta) = true then 0 else ii + 1) = ii1
    generalize (if decide (ii > delta) = true then count + 1 else count) = count1
    have hge := testTracksPolls_ge env delta dialog next (item + 1) ii1 count1
    have hrec : testTracksProcessed env delta dialog next ii1 count1 + 1 =
        match (testTracksPolls env delta dialog next (item + 1) ii1 count1).find?
            (fun p => !env.progressUpdate p.2) with
        | some p => p.1 - item
        | none => (segm :: next).length := by
      rw [ih (item + 1) ii1 count1]
      cases hf : (testTracksPolls env delta dialog next (item + 1) ii1 count1).find?
          (fun p => !env.progressUpdate p.2) with
      | none => rfl
      | some p =>
        have hp := hge p (List.mem_of_find?_eq_some hf)
        show p.1 - (item + 1) + 1 = p.1 - item
        omega
    by_cases hc : decide (ii > delta) = true ∧ dialog = true
    · by_cases hup : env.progressUpdate count1 = false
      · rw [if_pos ⟨hc.1, hc.2, hup⟩, if_pos hc, if_pos hup]
        simp [List.find?_cons, hup]
      · rw [if_neg (fun h => hup h.2.2), if_pos hc, if_neg hup, hrec]
        have hup2 : env.progressUpdate count1 = true := by simpa using hup
        simp [List.find?_cons, hup2]
    · rw [if_neg (fun h => hc ⟨h.1, h.2.1⟩), if_neg hc, hrec]

theorem pollPoints_mem (n : Nat) (p : Nat × Nat) :
    p ∈ ((List.range' 1 n).filter (fun k => decide (k % 502 = 0))).map (fun k => (k, k / 502)) ↔
      ∃ c, 1 ≤ c ∧ c ≤ n / 502 ∧ p = (502 * c, c) := by
  simp only [List.mem_map, List.mem_filter, List.mem_range'_1, decide_eq_true_eq]
  constructor
  · rintro ⟨k, ⟨⟨hk1, hk2⟩, hk3⟩, rfl⟩
    refine ⟨k / 502, by omega, by omega, ?_⟩
    have : 502 * (k / 502) = k := by omega
    rw [this]
  · rintro ⟨c, hc1, hc2, rfl⟩
    refine ⟨502 * c, ⟨⟨by omega, by omega⟩, by omega⟩, ?_⟩
    have : 502 * c / 502 = c := by omega
    rw [this]

/-! ## Claim on the progress dialog of the track sweep -/

/-- C29: in `testTracks` with `delta = 500`, for a track sequence of `n` items and with the
items numbered from 1, the test `ii++ > delta` holds at the items whose number is a multiple
of 502, and when the dialog exists its `Update` is called at these items, in order, with the
values 1, 2, ... (the number of the item divided by 502), up to the first call that returns
false; with no dialog it is never called.  Every value passed is at most `n / 502`, which is
at most the maximum `deltamax = (n - 1) / 500` of the dialog.  The number of reference items
that the sweep tests is `n` when no call returns false, and otherwise the number of the item
of the call that returns false, less one. -/
theorem testTracks_polls_every_502_items (env : Env) (aShowProgressBar : Bool) (s : DRC) :
    countTracks s.m_pcb.m_Track = s.m_pcb.m_Track.length - 1 ∧
    testTracksPolls (neverAborted env) 500 true s.m_pcb.m_Track 1 0 0 =
      ((List.range' 1 s.m_pcb.m_Track.length).filter (fun k => decide (k % 502 = 0))).map
        (fun k => (k, k / 502)) ∧
    (∀ p : Nat × Nat,
      p ∈ testTracksPolls (neverAborted env) 500 true s.m_pcb.m_Track 1 0 0 ↔
        ∃ c, 1 ≤ c ∧ c ≤ s.m_pcb.m_Track.length / 502 ∧ p = (502 * c, c)) ∧
    (∃ j, testTracksPolls env 500 true s.m_pcb.m_Track 1 0 0 =
      (testTracksPolls (neverAborted env) 500 true s.m_pcb.m_Track 1 0 0).take j) ∧
    testTracksPolls env 500 false s.m_pcb.m_Track 1 0 0 = [] ∧
    (∀ p ∈ testTracksPolls env 500
        (aShowProgressBar && decide (countTracks s.m_pcb.m_Track / 500 > 3))
        s.m_pcb.m_Track 1 0 0,
      p.1 % 502 = 0 ∧ 1 ≤ p.1 ∧ p.1 ≤ s.m_pcb.m_Track.length ∧ p.2 = p.1 / 502
        ∧ 1 ≤ p.2 ∧ p.2 ≤ s.m_pcb.m_Track.length / 502
        ∧ p.2 ≤ countTracks s.m_pcb.m_Track / 500) ∧
    testTracksProcessed env 500
        (aShowProgressBar && decide (countTracks s.m_pcb.m_Track / 500 > 3))
        s.m_pcb.m_Track 0 0 =
      (match (testTracksPolls env 500
          (aShowProgressBar && decide (countTracks s.m_pcb.m_Track / 500 > 3))
          s.m_pcb.m_Track 1 0 0).find? (fun p => !env.progressUpdate p.2) with
        | some p => p.1 - 1
        | none => s.m_pcb.m_Track.length) ∧
    emitted s (testTracks env aShowProgressBar s) =
      ((trackItemResults env s.m_pcb s.m_pcb.m_Track).take
        (testTracksProcessed env 500
          (aShowProgressBar && decide (countTracks s.m_pcb.m_Track / 500 > 3))
          s.m_pcb.m_Track 0 0)).reduceOption := by
  have hfull := testTracksPolls_neverAborted env s.m_pcb.m_Track 1 0 0 (le_refl 1) rfl rfl
  have hmem : ∀ p : Nat × Nat,
      p ∈ testTracksPolls (neverAborted env) 500 true s.m_pcb.m_Track 1 0 0 ↔
        ∃ c, 1 ≤ c ∧ c ≤ s.m_pcb.m_Track.length / 502 ∧ p = (502 * c, c) := by
    intro p
    rw [hfull]
    exact pollPoints_mem _ p
  refine ⟨countTracks_eq _, hfull, hmem, testTracksPolls_take env 500 true _ 1 0 0,
    testTracksPolls_no_dialog env 500 _ 1 0 0, ?_,
    testTracksProcessed_eq_polls env 500 _ _ 1 0 0,
    (testTracks_step env aShowProgressBar s).emitted_eq⟩
  intro p hp
  have hd : (aShowProgressBar && decide (countTracks s.m_pcb.m_Track / 500 > 3)) = true ∨
      (aShowProgressBar && decide (countTracks s.m_pcb.m_Track / 500 > 3)) = false := by
    cases (aShowProgressBar && decide (countTracks s.m_pcb.m_Track / 500 > 3)) <;> simp
  rcases hd with hd | hd
  · rw [hd] at hp
    obtain ⟨j, hj⟩ := testTracksPolls_take env 500 true s.m_pcb.m_Track 1 0 0
    rw [hj] at hp
    obtain ⟨c, hc1, hc2, rfl⟩ := (hmem p).mp (List.mem_of_mem_take hp)
    have hcount := countTracks_eq s.m_pcb.m_Track
    simp only
    refine ⟨by omega, by omega, by omega, by omega, hc1, hc2, by omega⟩
  · rw [hd, testTracksPolls_no_dialog] at hp
    cases hp

/-! ## Repeated runs: proofs -/

theorem withoutStoredResults_filledBoard (env : Env) (pcb : BOARD) :
    withoutStoredResults (filledBoard env pcb) = withoutStoredResults pcb := by
  simp [withoutStoredResults, filledBoard, withoutFill, List.map_map, Function.comp_def]

theorem withoutStoredResults_courtyardBoard (env : Env) (pcb : BOARD) :
    withoutStoredResults (courtyardBoard env pcb) = withoutStoredResults pcb := by
  simp [withoutStoredResults, courtyardBoard, withoutCourtyard, rebuildCourtyard, List.map_map,
    Function.comp_def]

theorem withoutStoredResults_runBoard (env : Env) (cfg : Toggles) (pcb : BOARD) :
    withoutStoredResults (runBoard env cfg pcb) = withoutStoredResults pcb := by
  unfold runBoard
  split_ifs
  · rw [withoutStoredResults_courtyardBoard, withoutStoredResults_filledBoard]
  · rw [withoutStoredResults_filledBoard]
  · rfl

theorem sweepMarkers_congr_board (env : Env) (a b : BOARD) (max_size : Int)
    (hn : env.newPad a = env.newPad b) (pads : List D_PAD) :
    sweepMarkers env a max_size pads = sweepMarkers env b max_size pads := by
  induction pads with
  | nil => rfl
  | cons pad rest ih => simp only [sweepMarkers, refPadMarker, initialDummyPad, hn, ih]

theorem trackItemResults_congr_board (env : Env) (a b : BOARD)
    (hd : ∀ track list, env.doTrackDrc a track list = env.doTrackDrc b track list)
    (tracks : List TRACK) :
    trackItemResults env a tracks = trackItemResults env b tracks := by
  induction tracks with
  | nil => rfl
  | cons track rest ih => simp only [trackItemResults, hd, ih]

theorem filledBoard_zones_eq (env : Env) (hc : RecomputesStoredResults env) (b : BOARD) :
    (filledBoard env b).m_ZoneDescriptorList
      = (b.m_ZoneDescriptorList.map withoutFill).map
        (fun zone : ZONE_CONTAINER =>
          ({ zone with
            m_FilledPolysList := env.Fill_All_Zones (withoutStoredResults b) zone } :
            ZONE_CONTAINER)) := by
  unfold filledBoard
  simp only
  rw [List.map_map]
  apply List.map_congr_left
  intro zone _
  simp only [Function.comp_apply]
  rw [hc.fill b zone]
  rfl

theorem filledBoard_zones_congr (env : Env) (hc : RecomputesStoredResults env) (q p : BOARD)
    (h : withoutStoredResults q = withoutStoredResults p) :
    (filledBoard env q).m_ZoneDescriptorList = (filledBoard env p).m_ZoneDescriptorList := by
  have hz : q.m_ZoneDescriptorList.map withoutFill = p.m_ZoneDescriptorList.map withoutFill := by
    have := congrArg BOARD.m_ZoneDescriptorList h
    exact this
  rw [filledBoard_zones_eq env hc q, filledBoard_zones_eq env hc p, hz, h]

theorem withoutCourtyards_congr (a b : BOARD)
    (h : withoutStoredResults a = withoutStoredResults b)
    (hz : a.m_ZoneDescriptorList = b.m_ZoneDescriptorList) :
    withoutCourtyards a = withoutCourtyards b := by
  have h1 : a.m_designSettings = b.m_designSettings := by
    have := congrArg BOARD.m_designSettings h
    exact this
  have h2 : a.m_Track = b.m_Track := by
    have := congrArg BOARD.m_Track h
    exact this
  have h3 : a.m_pads = b.m_pads := by
    have := congrArg BOARD.m_pads h
    exact this
  have h4 : a.m_Drawings = b.m_Drawings := by
    have := congrArg BOARD.m_Drawings h
    exact this
  have h5 : a.m_Modules.map withoutCourtyard = b.m_Modules.map withoutCourtyard := by
    have := congrArg BOARD.m_Modules h
    exact this
  cases a
  cases b
  simp only [withoutCourtyards] at *
  simp [h1, h2, h3, h4, h5, hz]

theorem courtyardBuildMarkers_withoutCourtyard (env : Env) (hc : RecomputesStoredResults env)
    (cfg : Toggles) (footprint : MODULE) :
    courtyardBuildMarkers env cfg (withoutCourtyard footprint)
      = courtyardBuildMarkers env cfg footprint := by
  unfold courtyardBuildMarkers
  rw [← hc.courtyard footprint]
  rfl

theorem rebuildCourtyard_withoutCourtyard (env : Env) (hc : RecomputesStoredResults env)
    (footprint : MODULE) :
    rebuildCourtyard env (withoutCourtyard footprint) = rebuildCourtyard env footprint := by
  unfold rebuildCourtyard
  rw [← hc.courtyard footprint]
  rfl

theorem courtyardMarkers_congr (env : Env) (hc : RecomputesStoredResults env) (cfg : Toggles)
    (a b : BOARD)
    (hm : a.m_Modules.map withoutCourtyard = b.m_Modules.map withoutCourtyard) :
    courtyardMarkers env cfg a = courtyardMarkers env cfg b := by
  have e1 : ∀ l : List MODULE,
      l.flatMap (courtyardBuildMarkers env cfg)
        = (l.map withoutCourtyard).flatMap (courtyardBuildMarkers env cfg) := by
    intro l
    rw [List.flatMap_map]
    congr 1
    funext footprint
    exact (courtyardBuildMarkers_withoutCourtyard env hc cfg footprint).symm
  have e2 : ∀ l : List MODULE,
      l.map (rebuildCourtyard env) = (l.map withoutCourtyard).map (rebuildCourtyard env) := by
    intro l
    rw [List.map_map]
    apply List.map_congr_left
    intro footprint _
    exact (rebuildCourtyard_withoutCourtyard env hc footprint).symm
  unfold courtyardMarkers
  rw [e1 a.m_Modules, e1 b.m_Modules, e2 a.m_Modules, e2 b.m_Modules, hm]

theorem run_congr_board (env : Env) (hc : RecomputesStoredResults env) (cfg : Toggles)
    (q p : BOARD) (h : withoutStoredResults q = withoutStoredResults p) :
    runMarkers env cfg q = runMarkers env cfg p
      ∧ runUnconnected env cfg q = runUnconnected env cfg p := by
  have h1 : q.m_designSettings = p.m_designSettings := by
    have := congrArg BOARD.m_designSettings h
    exact this
  have h2 : q.m_Track = p.m_Track := by
    have := congrArg BOARD.m_Track h
    exact this
  have h3 : q.m_pads = p.m_pads := by
    have := congrArg BOARD.m_pads h
    exact this
  have h4 : q.m_Drawings = p.m_Drawings := by
    have := congrArg BOARD.m_Drawings h
    exact this
  have h5 : q.m_Modules.map withoutCourtyard = p.m_Modules.map withoutCourtyard := by
    have := congrArg BOARD.m_Modules h
    exact this
  have hzF := filledBoard_zones_congr env hc q p h
  have hF : withoutStoredResults (filledBoard env q) = withoutStoredResults (filledBoard env p) := by
    rw [withoutStoredResults_filledBoard, withoutStoredResults_filledBoard, h]
  have hwc := withoutCourtyards_congr _ _ hF hzF
  have hA2 : (filledBoard env q).m_Track = (filledBoard env p).m_Track := h2
  have hA3 : (filledBoard env q).m_pads = (filledBoard env p).m_pads := h3
  have hA4 : (filledBoard env q).m_Drawings = (filledBoard env p).m_Drawings := h4
  have hA5 : (filledBoard env q).m_Modules.map withoutCourtyard
      = (filledBoard env p).m_Modules.map withoutCourtyard := h5
  have hnet : netclassMarkers env q = netclassMarkers env p := by
    unfold netclassMarkers boardNetclasses
    rw [h1]
  have hpass : netclassesPass q = netclassesPass p := by
    unfold netclassesPass boardNetclasses
    rw [h1]
  have hpad : pad2padMarkers env q = pad2padMarkers env p := by
    unfold pad2padMarkers
    rw [hc.sortedPads q, hc.sortedPads p, h]
    apply sweepMarkers_congr_board
    rw [hc.newPad q, hc.newPad p, h]
  have htrack : trackMarkers env true q = trackMarkers env true p := by
    unfold trackMarkers
    rw [h2]
    rw [trackItemResults_congr_board env q p]
    intro track list
    rw [hc.trackTest q, hc.trackTest p, h]
  have hcount : env.GetPadCount (filledBoard env q) = env.GetPadCount (filledBoard env p) := by
    funext net
    rw [hc.padCount, hc.padCount (filledBoard env p), hwc]
  have hzone : zoneMarkers env (filledBoard env q) = zoneMarkers env (filledBoard env p) := by
    unfold zoneMarkers suspiciousZone
    rw [hzF]
    simp only [hcount]
    rw [hc.outlines, hc.outlines (filledBoard env p), hwc]
  have hunc : unconnectedRecords env (filledBoard env q)
      = unconnectedRecords env (filledBoard env p) := by
    unfold unconnectedRecords
    rw [hc.edges, hc.edges (filledBoard env p), hwc]
  have hkeep : keepoutMarkers env (filledBoard env q) = keepoutMarkers env (filledBoard env p) := by
    unfold keepoutMarkers
    rw [hzF, hA2]
  have htext : textMarkers env (filledBoard env q) = textMarkers env (filledBoard env p) := by
    unfold textMarkers
    have e : textItemMarkers env (filledBoard env q) = textItemMarkers env (filledBoard env p) := by
      funext item
      unfold textItemMarkers
      rw [hA2, hA3]
    rw [e, hA4]
  have hcourt : courtyardMarkers env cfg (filledBoard env q)
      = courtyardMarkers env cfg (filledBoard env p) :=
    courtyardMarkers_congr env hc cfg _ _ hA5
  refine ⟨?_, ?_⟩
  · unfold runMarkers stageMarkers
    rw [hnet, hpass, hpad, htrack, hzone, hkeep, htext, hcourt]
  · unfold runUnconnected
    rw [hpass, hunc]

theorem recomputeEnv_recomputes : RecomputesStoredResults recomputeEnv :=
  ⟨fun _ => rfl, fun _ => rfl, fun _ _ _ => rfl, fun _ _ => rfl, fun _ _ => rfl, fun _ => rfl,
    fun _ => rfl, fun _ => rfl⟩

theorem failingTracksEnv_recomputes (answers : Nat → Bool) :
    RecomputesStoredResults (failingTracksEnv answers) :=
  ⟨fun _ => rfl, fun _ => rfl, fun _ _ _ => rfl, fun _ _ => rfl, fun _ _ => rfl, fun _ => rfl,
    fun _ => rfl, fun _ => rfl⟩

theorem testTracksProcessed_aborted (env : Env) (hu : ∀ count, env.progressUpdate count = false)
    (delta : Nat) (tracks : List TRACK) (ii count : Nat) (hii : ii ≤ delta + 1) :
    testTracksProcessed env delta true tracks ii count = min tracks.length (delta + 1 - ii) := by
  induction tracks generalizing ii count with
  | nil => simp [testTracksProcessed]
  | cons track rest ih =>
    by_cases h : ii > delta
    · have h0 : testTracksProcessed env delta true (track :: rest) ii count = 0 := by
        simp [testTracksProcessed, h, hu]
      rw [h0]
      simp only [List.length_cons]
      omega
    · have h0 : testTracksProcessed env delta true (track :: rest) ii count
          = testTracksProcessed env delta true rest (ii + 1) count + 1 := by
        simp [testTracksProcessed, h]
      rw [h0, ih (ii + 1) count (by omega)]
      simp only [List.length_cons]
      omega

theorem failingTracks_results_length (answers : Nat → Bool) (pcb : BOARD) (tracks : List TRACK)
    (k : Nat) :
    ((trackItemResults (failingTracksEnv answers) pcb tracks).take k).reduceOption.length
      = min k tracks.length := by
  have hall : ∀ x ∈ trackItemResults (failingTracksEnv answers) pcb tracks,
      Option.isSome x = true := by
    induction tracks with
    | nil => simp [trackItemResults]
    | cons track rest ih =>
      intro x hx
      simp only [trackItemResults, List.mem_cons] at hx
      rcases hx with rfl | hx
      · rfl
      · exact ih x hx
  rw [List.reduceOption_length_eq_iff.mpr (fun x hx => hall x (List.mem_of_mem_take hx)),
    List.length_take, trackItemResults_length]

theorem trackBoard_run (answers : Nat → Bool) (cfg : Toggles) (tracks : List TRACK) :
    runMarkers (failingTracksEnv answers) cfg (sampleBoard (sampleSettings 250000) [] tracks [])
      = trackMarkers (failingTracksEnv answers) true
          (sampleBoard (sampleSettings 250000) [] tracks []) ∧
    runBoard (failingTracksEnv answers) cfg (sampleBoard (sampleSettings 250000) [] tracks [])
      = sampleBoard (sampleSettings 250000) [] tracks [] := by
  have hp : netclassesPass (sampleBoard (sampleSettings 250000) [] tracks []) = true := rfl
  constructor
  · unfold runMarkers
    rw [netclassMarkers_of_pass _ _ hp, if_pos hp]
    unfold stageMarkers
    have h1 : pad2padMarkers (failingTracksEnv answers)
        (sampleBoard (sampleSettings 250000) [] tracks []) = [] := rfl
    have h2 : zoneMarkers (failingTracksEnv answers) (filledBoard (failingTracksEnv answers)
        (sampleBoard (sampleSettings 250000) [] tracks [])) = [] := rfl
    have h3 : keepoutMarkers (failingTracksEnv answers) (filledBoard (failingTracksEnv answers)
        (sampleBoard (sampleSettings 250000) [] tracks [])) = [] := rfl
    have h4 : textMarkers (failingTracksEnv answers) (filledBoard (failingTracksEnv answers)
        (sampleBoard (sampleSettings 250000) [] tracks [])) = [] := rfl
    have h5 : courtyardMarkers (failingTracksEnv answers) cfg
        (filledBoard (failingTracksEnv answers)
          (sampleBoard (sampleSettings 250000) [] tracks [])) = [] := by
      simp [courtyardMarkers, filledBoard, sampleBoard, courtyardOverlapMarkers, footprintPairs]
    rw [h1, h2, h3, h4, h5]
    simp
  · unfold runBoard
    rw [if_pos hp]
    split_ifs <;> rfl

theorem manyTracks_length : manyTracks.length = 2600 := by
  unfold manyTracks
  rw [List.length_map, List.length_range]

theorem trackMarkers_manyTracks_length (answers : Nat → Bool) (k : Nat)
    (hk : testTracksProcessed (failingTracksEnv answers) 500 true manyTracks 0 0 = k) :
    (trackMarkers (failingTracksEnv answers) true
      (sampleBoard (sampleSettings 250000) [] manyTracks [])).length = min k 2600 := by
  unfold trackMarkers
  have hd : (true && decide (countTracks
      (sampleBoard (sampleSettings 250000) [] manyTracks []).m_Track / 500 > 3)) = true := by
    show (true && decide (countTracks manyTracks / 500 > 3)) = true
    rw [countTracks_eq, manyTracks_length]
    decide
  rw [hd]
  show ((trackItemResults (failingTracksEnv answers) _ manyTracks).take
    (testTracksProcessed (failingTracksEnv answers) 500 true manyTracks 0 0)).reduceOption.length
      = min k 2600
  rw [failingTracks_results_length, hk, manyTracks_length]

/-- The condition on the collaborators is needed: with a zone filler that reads the filled
polygons that the first run stored, the second run on the board of `clashZoneDRC`, started
after the lists are cleared, reports the suspicious zone with other filled polygons than the
first run did. -/
theorem stored_fill_reader_reports_differently :
    (RunTests accumulatingFillEnv
      { RunTests accumulatingFillEnv clashZoneDRC with
        markers := [], m_unconnected := [] }).markers
      ≠ (RunTests accumulatingFillEnv clashZoneDRC).markers := by
  decide

/-! ## Claim on repeated runs -/

/-- C15, counterexample: a board with 2600 tracks, every one of which fails the track
clearance test, and collaborators that read no stored result.  The lists are empty before the
first run, which is not aborted and leaves 2600 violations and the board as it was.  The
lists are cleared and the run is repeated on the unmodified board; this time the progress
dialog of `testTracks` reports an abort at its first poll, and the second run leaves the 501
violations of the items tested before the poll. -/
theorem aborted_second_run_reports_fewer :
    RecomputesStoredResults (failingTracksEnv (fun _ => true)) ∧
    manyTracksDRC.markers = [] ∧
    manyTracksDRC.m_unconnected = [] ∧
    (RunTests (failingTracksEnv (fun _ => true)) manyTracksDRC).m_pcb = manyTracksDRC.m_pcb ∧
    (RunTests (failingTracksEnv (fun _ => true)) manyTracksDRC).markers.length = 2600 ∧
    (RunTests (failingTracksEnv (fun _ => false))
      { RunTests (failingTracksEnv (fun _ => true)) manyTracksDRC with
        markers := [], m_unconnected := [] }).markers.length = 501 := by
  have h1 := RunTests_step (failingTracksEnv (fun _ => true)) manyTracksDRC
  have hb : (RunTests (failingTracksEnv (fun _ => true)) manyTracksDRC).m_pcb
      = sampleBoard (sampleSettings 250000) [] manyTracks [] := by
    rw [h1.pcb]
    exact (trackBoard_run (fun _ => true) manyTracksDRC.toggles manyTracks).2
  have h2 := RunTests_step (failingTracksEnv (fun _ => false))
    { RunTests (failingTracksEnv (fun _ => true)) manyTracksDRC with
      markers := [], m_unconnected := [] }
  have hb2 : ({ RunTests (failingTracksEnv (fun _ => true)) manyTracksDRC with
      markers := [], m_unconnected := [] } : DRC).m_pcb
      = sampleBoard (sampleSettings 250000) [] manyTracks [] := hb
  have hk1 : testTracksProcessed (failingTracksEnv (fun _ => true)) 500 true manyTracks 0 0
      = 2600 := by
    have := testTracksProcessed_neverAborted (failingTracksEnv (fun _ => true)) 500 true
      manyTracks 0 0
    rw [manyTracks_length] at this
    exact this
  have hk2 : testTracksProcessed (failingTracksEnv (fun _ => false)) 500 true manyTracks 0 0
      = 501 := by
    rw [testTracksProcessed_aborted _ (fun _ => rfl) 500 manyTracks 0 0 (by omega),
      manyTracks_length]
    decide
  refine ⟨failingTracksEnv_recomputes _, rfl, rfl, hb, ?_, ?_⟩
  · rw [h1.markers]
    show ([] ++ runMarkers (failingTracksEnv (fun _ => true)) manyTracksDRC.toggles
      (sampleBoard (sampleSettings 250000) [] manyTracks [])).length = 2600
    rw [(trackBoard_run (fun _ => true) manyTracksDRC.toggles manyTracks).1, List.nil_append,
      trackMarkers_manyTracks_length _ 2600 hk1]
    decide
  · rw [h2.markers, hb2]
    show ([] ++ runMarkers (failingTracksEnv (fun _ => false)) _
      (sampleBoard (sampleSettings 250000) [] manyTracks [])).length = 501
    rw [(trackBoard_run (fun _ => false) _ manyTracks).1, List.nil_append,
      trackMarkers_manyTracks_length _ 501 hk2]
    decide

/-- C15, as the code has it: `RunTests` clears neither list and expects the caller to have
cleared both.  For every board and configuration, when the collaborators read no result that
an earlier run stored in the board and the progress dialog gives the same answers in the
second run as in the first, a second run on the board that the first run left, started after
the two lists are cleared, leaves in the sink the violations that the first run added and in
the unconnected list the records that the first run added, in the same order; when the lists
were empty before the first run, the lists after the second run are the lists after the first
run.  Without the clearing in between, the second run adds the same violations and records
once more after those of the first run. -/
theorem RunTests_twice_same_lists (env : Env) (u : Nat → Bool) (s : DRC)
    (hstored : RecomputesStoredResults env)
    (hdialog : ∀ count, u count = env.progressUpdate count) :
    (RunTests { env with progressUpdate := u }
        { RunTests env s with markers := [], m_unconnected := [] }).markers
      = emitted s (RunTests env s) ∧
    (RunTests { env with progressUpdate := u }
        { RunTests env s with markers := [], m_unconnected := [] }).m_unconnected
      = (RunTests env s).m_unconnected.drop s.m_unconnected.length ∧
    (s.markers = [] → s.m_unconnected = [] →
      (RunTests { env with progressUpdate := u }
          { RunTests env s with markers := [], m_unconnected := [] }).markers
        = (RunTests env s).markers ∧
      (RunTests { env with progressUpdate := u }
          { RunTests env s with markers := [], m_unconnected := [] }).m_unconnected
        = (RunTests env s).m_unconnected) ∧
    (RunTests { env with progressUpdate := u } (RunTests env s)).markers
      = (RunTests env s).markers ++ emitted s (RunTests env s) ∧
    (RunTests { env with progressUpdate := u } (RunTests env s)).m_unconnected
      = (RunTests env s).m_unconnected
        ++ (RunTests env s).m_unconnected.drop s.m_unconnected.length := by
  have hu : u = env.progressUpdate := funext hdialog
  subst hu
  have henv : ({ env with progressUpdate := env.progressUpdate } : Env) = env := rfl
  rw [henv]
  have h1 := RunTests_step env s
  have hcong := run_congr_board env hstored s.toggles (runBoard env s.toggles s.m_pcb) s.m_pcb
    (withoutStoredResults_runBoard env s.toggles s.m_pcb)
  have h2 := RunTests_step env (RunTests env s)
  rw [h1.toggles, h1.pcb, hcong.1, hcong.2] at h2
  have h3 := RunTests_step env { RunTests env s with markers := [], m_unconnected := [] }
  have ht3 : ({ RunTests env s with markers := [], m_unconnected := [] } : DRC).toggles =
      s.toggles := h1.toggles
  have hb3 : ({ RunTests env s with markers := [], m_unconnected := [] } : DRC).m_pcb =
      runBoard env s.toggles s.m_pcb := h1.pcb
  rw [ht3, hb3, hcong.1, hcong.2] at h3
  have hun : (RunTests env s).m_unconnected.drop s.m_unconnected.length =
      runUnconnected env s.toggles s.m_pcb := by
    rw [h1.unconnected]
    simp
  have hm3 : (RunTests env { RunTests env s with markers := [], m_unconnected := [] }).markers
      = runMarkers env s.toggles s.m_pcb := by
    rw [h3.markers]
    rfl
  have hu3 : (RunTests env
      { RunTests env s with markers := [], m_unconnected := [] }).m_unconnected
      = runUnconnected env s.toggles s.m_pcb := by
    rw [h3.unconnected]
    rfl
  rw [h1.emitted_eq, hun]
  refine ⟨hm3, hu3, fun hs1 hs2 => ⟨?_, ?_⟩, h2.markers, h2.unconnected⟩
  · rw [hm3, h1.markers, hs1, List.nil_append]
  · rw [hu3, h1.unconnected, hs2, List.nil_append]

/-- C15, instance: the board of `clashDRC`, with one pad clash and one unconnected edge, run
twice with a dialog that never reports an abort. -/
theorem RunTests_twice_same_lists_witness :
    RecomputesStoredResults recomputeEnv ∧
    (∀ count, (fun _ => true) count = recomputeEnv.progressUpdate count) ∧
    (RunTests recomputeEnv clashDRC).markers.map MARKER_PCB.code = [DRCE_PAD_NEAR_PAD1] ∧
    (RunTests { recomputeEnv with progressUpdate := fun _ => true }
        { RunTests recomputeEnv clashDRC with markers := [], m_unconnected := [] }).markers
      = (RunTests recomputeEnv clashDRC).markers ∧
    (RunTests { recomputeEnv with progressUpdate := fun _ => true }
        { RunTests recomputeEnv clashDRC with markers := [], m_unconnected := [] }).m_unconnected
      = (RunTests recomputeEnv clashDRC).m_unconnected :=
  ⟨recomputeEnv_recomputes, fun _ => rfl, by decide,
   ((RunTests_twice_same_lists recomputeEnv (fun _ => true) clashDRC recomputeEnv_recomputes
      (fun _ => rfl)).2.2.1 rfl rfl).1,
   ((RunTests_twice_same_lists recomputeEnv (fun _ => true) clashDRC recomputeEnv_recomputes
      (fun _ => rfl)).2.2.1 rfl rfl).2⟩

end Pcbnew
